import Mathlib

/-!
Verification development for the MDGE compact routing structure and its
growing (kinetic) algorithm.  The Python sources are shallowly embedded:

* numeric values (`float` / `Fraction`) are modelled as `ℚ`; transcendental
  library calls (`math.sqrt`, `math.sin`, `math.cos`, `math.asin`,
  `math.atan2`) are abstracted as an oracle record `Orc` of rational-valued
  functions, since the Python code treats their results as opaque numbers;
* the mutable object graph of `compact_routing_structure.py` is modelled as
  an arena: bundles are addressed by natural-number handles, `is`-identity of
  Python objects becomes handle equality, and each mutation is a function
  from states to states;
* Python exceptions are modelled by an error result that keeps the state at
  the moment the exception is raised (Python objects stay mutated when an
  exception propagates);
* unbounded `while` loops are given explicit fuel; running out of fuel is an
  error result, so theorems conditioned on successful termination coincide
  with the Python behaviour.
-/

/-- The exact rational value of the IEEE-754 double `math.pi`. -/
def piF : ℚ := 884279719003555 / 281474976710656

/-- The exact rational value of the double `2 * math.pi`
(doubling a float is exact).  This is `Fraction(2 * math.pi)` in
`utils.normalize_angle`. -/
def twoPiF : ℚ := 2 * piF

/-- The exact rational value of the double `math.pi / 2` (halving is exact).
This is `Fraction(math.pi / 2)` in `compact_routing_structure.py`. -/
def piHalfF : ℚ := piF / 2

/-- First loop of `utils.normalize_angle`: `while a < 0: a += full_rotation`,
with explicit fuel. -/
def normLoopA : ℕ → ℚ → ℚ
  | 0, a => a
  | n + 1, a => if a < 0 then normLoopA n (a + twoPiF) else a

/-- Second loop of `utils.normalize_angle`: `while a > 2 * math.pi:
a -= full_rotation`, with explicit fuel. -/
def normLoopB : ℕ → ℚ → ℚ
  | 0, a => a
  | n + 1, a => if twoPiF < a then normLoopB n (a - twoPiF) else a

/-- Fuel sufficient for both loops of `normalize_angle` on input `a`:
one more than the number of full rotations that fit in `|a|`. -/
def normFuel (a : ℚ) : ℕ := (max ⌈-a / twoPiF⌉ ⌈a / twoPiF⌉).toNat + 1

/-- The function `utils.normalize_angle`.  The two Python `while` loops
always terminate because `full_rotation` is positive; `normFuel` supplies
enough fuel for both (proved in `normLoopA_nonneg` / `normLoopB_le`). -/
def normalize_angle (a : ℚ) : ℚ :=
  let b := normLoopA (normFuel a) a
  normLoopB (normFuel b) b

/-- The function `utils.orientation`: 0 collinear, 1 clockwise,
2 counterclockwise. -/
def orientation (px py qx qy rx ry : ℚ) : ℕ :=
  let val := (qy - py) * (rx - qx) - (qx - px) * (ry - qy)
  if 0 < val then 1 else if val < 0 then 2 else 0

/-- Points of the plane with rational coordinates, the model of
`point.Point` data. -/
structure Pnt where
  x : ℚ
  y : ℚ
deriving DecidableEq

/-- The function `utils.orientation` on points. -/
def orient3 (p q r : Pnt) : ℕ := orientation p.x p.y q.x q.y r.x r.y

/-- The function `utils.on_segment`: whether `r` lies on segment `pq`. -/
def on_segment (p q r : Pnt) : Bool :=
  orient3 p q r == 0 && min p.x q.x ≤ r.x && r.x ≤ max p.x q.x
    && min p.y q.y ≤ r.y && r.y ≤ max p.y q.y

/-- Decidable equality for `Except` results, so that concrete runs of the
embedded code can be checked by `decide`. -/
instance exceptDecEq {ε α : Type} [DecidableEq ε] [DecidableEq α] :
    DecidableEq (Except ε α)
  | .ok a, .ok b => if h : a = b then .isTrue (by rw [h]) else .isFalse (by simp [h])
  | .ok _, .error _ => .isFalse (by simp)
  | .error _, .ok _ => .isFalse (by simp)
  | .error e, .error f => if h : e = f then .isTrue (by rw [h]) else .isFalse (by simp [h])

/-- Oracle for the transcendental float functions used by the geometry code.
The Python code calls `math.sqrt`, `math.sin`, `math.cos`, `math.asin`
and `math.atan2` and treats their (floating-point) results as opaque
numbers; we model them as unconstrained rational-valued functions and add
hypotheses (such as the range of `atan2`) where a theorem needs them. -/
structure Orc where
  sqrt : ℚ → ℚ
  sin : ℚ → ℚ
  cos : ℚ → ℚ
  asin : ℚ → ℚ
  atan2 : ℚ → ℚ → ℚ

/-- The function `utils.distance`. -/
def distanceO (O : Orc) (p q : Pnt) : ℚ :=
  O.sqrt ((p.x - q.x) ^ 2 + (p.y - q.y) ^ 2)

/-- The function `utils.angle`: angle of directed segment `pq`,
normalized. -/
def angleO (O : Orc) (p q : Pnt) : ℚ :=
  normalize_angle (O.atan2 (q.y - p.y) (q.x - p.x))

/-- The nested function `binary_search` of
`GrowingAlgorithm.update_queue`: `no_iter` refinement steps, each first
subtracting `dt / 2 ^ (i + 1)` and undoing the subtraction if the predicate
fails there.  `i` is the index of the next iteration. -/
def binarySearchAux (dt : ℚ) (f : ℚ → Bool) : ℕ → ℕ → ℚ → ℚ
  | _, 0, cur => cur
  | i, n + 1, cur =>
    let step := dt / 2 ^ (i + 1)
    let cand := cur - step
    if f cand then binarySearchAux dt f (i + 1) n cand
    else binarySearchAux dt f (i + 1) n cur

/-- The function `binary_search(start_time, no_iter, func)` from
`growing_algorithm.py`. -/
def binarySearch (dt start_time : ℚ) (no_iter : ℕ) (f : ℚ → Bool) : ℚ :=
  binarySearchAux dt f 0 no_iter start_time

/-- Bundle handles tagged by kind: Python dispatches on
`type(b) == StraightBundle` / `ElbowBundle`. -/
inductive BRef where
  | s : ℕ → BRef
  | e : ℕ → BRef
deriving DecidableEq

/-- Events of the growing algorithm (`event.py`): `SplitEvent(t, sb, eb)`
and `MergeEvent(t, eb)`. -/
inductive GEvent where
  | splitEv : ℚ → ℕ → ℕ → GEvent
  | mergeEv : ℚ → ℕ → GEvent
deriving DecidableEq

/-- The time `self.t` of an event. -/
def GEvent.time : GEvent → ℚ
  | .splitEv t _ _ => t
  | .mergeEv t _ => t

/-- Whether `type(self) == MergeEvent`. -/
def GEvent.isMergeEv : GEvent → Bool
  | .splitEv _ _ _ => false
  | .mergeEv _ _ => true

/-- The list `self.bundles` set by `Event.__init__`: `[sb, eb]` for a split
event, `[eb]` for a merge event. -/
def GEvent.refs : GEvent → List BRef
  | .splitEv _ sb eb => [.s sb, .e eb]
  | .mergeEv _ eb => [.e eb]

/-- The comparison `Event.__lt__`:
`self.t < other.t or (self.t == other.t and type(self) == MergeEvent)`. -/
def GEvent.lt (a b : GEvent) : Bool :=
  a.time < b.time || (a.time == b.time && a.isMergeEv)

/-- Inner sampling loop of `compute_next_split_event`: starting at
`current_t`, step forward by `dt` while `current_t <= bound`, returning the
first sample where the split predicate holds. -/
def splitSampleLoop (dt : ℚ) (p : ℚ → Bool) : ℕ → ℚ → ℚ → Option ℚ
  | 0, _, _ => none
  | fuel + 1, cur, bound =>
    if cur ≤ bound then
      if p cur then some cur else splitSampleLoop dt p fuel (cur + dt) bound
    else none

/-- Outer loop of `compute_next_split_event` over all candidate bundles:
skip bundles connected to `b`; otherwise sample from `t + dt`.  A strictly
earlier hit resets the accumulator; an equal hit is appended. -/
def splitCandLoop (dt t : ℚ) (connected : ℕ → Bool) (p : ℕ → ℚ → Bool)
    (fuel : ℕ) : List ℕ → ℚ × List ℕ → ℚ × List ℕ
  | [], acc => acc
  | c :: rest, (nst, found) =>
    if connected c then splitCandLoop dt t connected p fuel rest (nst, found)
    else
      match splitSampleLoop dt (p c) fuel (t + dt) nst with
      | none => splitCandLoop dt t connected p fuel rest (nst, found)
      | some t0 =>
        if t0 < nst then splitCandLoop dt t connected p fuel rest (t0, [c])
        else splitCandLoop dt t connected p fuel rest (nst, found ++ [c])

/-- Refinement loop of `compute_next_split_event`: binary-search each found
bundle and keep the one with the smallest (last smallest on ties, since the
code uses `<=`) refined time. -/
def splitRefineLoop (dt : ℚ) (p : ℕ → ℚ → Bool) (nst : ℚ) :
    List ℕ → ℚ × Option ℕ → ℚ × Option ℕ
  | [], acc => acc
  | c :: rest, (firstT, best) =>
    let newT := binarySearch dt nst 100 (p c)
    if newT ≤ firstT then splitRefineLoop dt p nst rest (newT, some c)
    else splitRefineLoop dt p nst rest (firstT, best)

/-- The function `compute_next_split_event` of
`GrowingAlgorithm.update_queue`, for bundle `b` with handle `bId`;
`bIsStraight` tells which kind `b` is, `cands` are the handles of the
candidate bundles of the other kind, `connected` is `b.is_connected_to`,
and `p c` is the split predicate of `b` against candidate `c`. -/
def computeNextSplitEvent (dt t : ℚ) (bId : ℕ) (bIsStraight : Bool)
    (cands : List ℕ) (connected : ℕ → Bool) (p : ℕ → ℚ → Bool)
    (fuel : ℕ) : Option GEvent :=
  match splitCandLoop dt t connected p fuel cands (1, []) with
  | (_, []) => none
  | (nst, found) =>
    match splitRefineLoop dt p nst found (nst, none) with
    | (_, none) => none
    | (firstT, some c) =>
      if bIsStraight then some (.splitEv firstT bId c)
      else some (.splitEv firstT c bId)

/-- The sampling loop of `compute_next_merge_event`: step by `dt` while
`current_t <= 1`; on the first true sample, refine by binary search. -/
def mergeSampleLoop (dt : ℚ) (p : ℚ → Bool) : ℕ → ℚ → Option ℚ
  | 0, _ => none
  | fuel + 1, cur =>
    if cur ≤ 1 then
      if p cur then some (binarySearch dt cur 100 p)
      else mergeSampleLoop dt p fuel (cur + dt)
    else none

/-- The function `compute_next_merge_event` of
`GrowingAlgorithm.update_queue` for elbow bundle `bId`. -/
def computeNextMergeEvent (dt t : ℚ) (bId : ℕ) (p : ℚ → Bool)
    (fuel : ℕ) : Option GEvent :=
  (mergeSampleLoop dt p fuel (t + dt)).map (fun mt => .mergeEv mt bId)

/-- The events that one call of `GrowingAlgorithm.update_queue(b, t)` puts
into the queue: the next split event of `b` (if any), followed by the next
merge event when `b` is a non-terminal elbow bundle. -/
def updateQueueEvents (dt t : ℚ) (bId : ℕ) (bIsStraight : Bool)
    (bIsTerminal : Bool) (cands : List ℕ) (connected : ℕ → Bool)
    (splitsP : ℕ → ℚ → Bool) (mergesP : ℚ → Bool) (fuel : ℕ) :
    List GEvent :=
  let se := computeNextSplitEvent dt t bId bIsStraight cands connected
    splitsP fuel
  let base := match se with
    | some ev => [ev]
    | none => []
  if !bIsStraight && !bIsTerminal then
    match computeNextMergeEvent dt t bId mergesP fuel with
    | some ev => base ++ [ev]
    | none => base
  else base

/-- The data of a `StraightBundle` object: `left` / `right` are handles of
the adjacent elbow bundles (`None` before wiring), `size` is the number of
packed segments (a Python `int`, hence `ℤ`), `thickness` their total
thickness. -/
structure SB where
  left : Option ℕ
  right : Option ℕ
  size : ℤ
  thickness : ℚ
  is_terminal : Bool
deriving DecidableEq

/-- The data of an `ElbowBundle` object.  `ptId` is the identity of the
associated `Point` object (Python compares points with `is`), `pt` its
coordinates; `left` / `right` are handles of the adjacent straight bundles,
`inner` the handle of the next elbow bundle nested inside. -/
structure EB where
  ptId : ℕ
  pt : Pnt
  left : Option ℕ
  right : Option ℕ
  inner : Option ℕ
  size : ℤ
  thickness : ℚ
  layer_thickness : ℚ
  is_terminal : Bool
  orientation : ℕ
deriving DecidableEq

/-- A fresh `ElbowBundle()` before any field assignment. -/
def EB.blank : EB :=
  { ptId := 0, pt := ⟨0, 0⟩, left := none, right := none, inner := none,
    size := 0, thickness := 0, layer_thickness := 0, is_terminal := false,
    orientation := 0 }

/-- The per-edge data `unzip` needs: the edge thickness and the handle of
`edge.elbow_bundle_v1` (the terminal elbow bundle at the first endpoint). -/
structure EdgeRec where
  thickness : ℚ
  ebV1 : ℕ
deriving DecidableEq

/-- The state of a `CompactRoutingStructure`: two arenas of bundle records
addressed by handles, the two live lists `straight_bundles` /
`elbow_bundles`, the instance edges, and a fresh-handle counter.  Removing
a bundle from a live list keeps its arena record, just as the Python object
survives `list.remove`. -/
structure CRS where
  sA : List (ℕ × SB)
  eA : List (ℕ × EB)
  sL : List ℕ
  eL : List ℕ
  edges : List EdgeRec
  fresh : ℕ
deriving DecidableEq

/-- First-match association-list lookup. -/
def aGet {α : Type} : List (ℕ × α) → ℕ → Option α
  | [], _ => none
  | (k, a) :: rest, i => if k = i then some a else aGet rest i

/-- Overwrite every entry with key `i` (states reached from well-formed
ones never hold duplicate keys). -/
def aSet {α : Type} : List (ℕ × α) → ℕ → α → List (ℕ × α)
  | [], _, _ => []
  | (k, a) :: rest, i, v => (if k = i then (i, v) else (k, a)) :: aSet rest i v

/-- Read a straight-bundle record. -/
def CRS.getS (s : CRS) (i : ℕ) : Option SB := aGet s.sA i

/-- Read an elbow-bundle record. -/
def CRS.getE (s : CRS) (i : ℕ) : Option EB := aGet s.eA i

/-- Write a straight-bundle record. -/
def CRS.setS (s : CRS) (i : ℕ) (v : SB) : CRS := { s with sA := aSet s.sA i v }

/-- Write an elbow-bundle record. -/
def CRS.setE (s : CRS) (i : ℕ) (v : EB) : CRS := { s with eA := aSet s.eA i v }

/-- Allocate a new straight bundle and append it to `straight_bundles`
(Python: construct the object and `self.straight_bundles.append(...)`). -/
def CRS.newS (s : CRS) (v : SB) : ℕ × CRS :=
  (s.fresh,
    { s with sA := s.sA ++ [(s.fresh, v)], sL := s.sL ++ [s.fresh], fresh := s.fresh + 1 })

/-- Allocate a new elbow bundle and append it to `elbow_bundles`. -/
def CRS.newE (s : CRS) (v : EB) : ℕ × CRS :=
  (s.fresh,
    { s with eA := s.eA ++ [(s.fresh, v)], eL := s.eL ++ [s.fresh], fresh := s.fresh + 1 })

/-- The size of straight bundle `i` (0 when the handle is dangling; Python
objects always exist, so live code never reads the default). -/
def sizeAtS (s : CRS) (i : ℕ) : ℤ :=
  match s.getS i with
  | some r => r.size
  | none => 0

/-- The size of elbow bundle `i`. -/
def sizeAtE (s : CRS) (i : ℕ) : ℤ :=
  match s.getE i with
  | some r => r.size
  | none => 0

/-- The thickness of straight bundle `i`. -/
def thickAtS (s : CRS) (i : ℕ) : ℚ :=
  match s.getS i with
  | some r => r.thickness
  | none => 0

/-- The thickness of elbow bundle `i`. -/
def thickAtE (s : CRS) (i : ℕ) : ℚ :=
  match s.getE i with
  | some r => r.thickness
  | none => 0

/-- The sum of `size` over all live straight bundles plus all live elbow
bundles (the quantity of the conservation claim). -/
def totalSize (s : CRS) : ℤ :=
  (s.sL.map (sizeAtS s)).sum + (s.eL.map (sizeAtE s)).sum

/-- The sum of `thickness` over all live straight and elbow bundles. -/
def totalThick (s : CRS) : ℚ :=
  (s.sL.map (thickAtS s)).sum + (s.eL.map (thickAtE s)).sum

/-- Well-formedness of an arena state: every handle mentioned in an arena
or live list is below the fresh counter, and arena keys are distinct.
Every state built by the constructor satisfies this and every mutation
preserves it. -/
def WF (s : CRS) : Prop :=
  (∀ p ∈ s.sA, p.1 < s.fresh) ∧ (∀ p ∈ s.eA, p.1 < s.fresh) ∧
  (∀ i ∈ s.sL, i < s.fresh) ∧ (∀ i ∈ s.eL, i < s.fresh) ∧
  (s.sA.map Prod.fst).Nodup ∧ (s.eA.map Prod.fst).Nodup

instance (s : CRS) : Decidable (WF s) := by
  unfold WF; infer_instance

/-- Result of a mutation: Python exceptions keep the mutated heap, so an
error carries the state at the moment of the raise. -/
inductive MRes (α : Type) where
  | ok : α → CRS → MRes α
  | err : String → CRS → MRes α
deriving DecidableEq

/-- The state held in a mutation result. -/
def MRes.state {α : Type} : MRes α → CRS
  | .ok _ s => s
  | .err _ s => s

/-- Whether a mutation result is a success. -/
def MRes.isOk {α : Type} : MRes α → Bool
  | .ok _ _ => true
  | .err _ _ => false

/-- The method `StraightBundle.is_connected_to(eb)`:
`self.left == eb or self.right == eb` (object identity). -/
def SB.conn (sb : SB) (eb : ℕ) : Bool :=
  sb.left == some eb || sb.right == some eb

/-- The method `ElbowBundle.is_connected_to(sb)`. -/
def EB.conn (eb : EB) (sb : ℕ) : Bool :=
  eb.left == some sb || eb.right == some sb

/-- The method `StraightBundle.next(prev_eb)`: raises when not connected,
otherwise returns the other adjacent elbow bundle (possibly `None`). -/
def SB.nextEB (sb : SB) (prev : ℕ) : Except String (Option ℕ) :=
  if sb.conn prev then
    .ok (if sb.left == some prev then sb.right else sb.left)
  else .error "straight bundle is not connected to elbow bundle"

/-- The method `ElbowBundle.next(prev_sb)`. -/
def EB.nextSB (eb : EB) (prev : ℕ) : Except String (Option ℕ) :=
  if eb.conn prev then
    .ok (if eb.left == some prev then eb.right else eb.left)
  else .error "elbow bundle is not connected to straight bundle"

/-- Dereference an optional handle, raising the Python `AttributeError`
that reading an attribute of `None` would produce. -/
def CRS.derefS (s : CRS) (o : Option ℕ) : Except String (ℕ × SB) :=
  match o with
  | none => .error "attribute access on None"
  | some i =>
    match s.getS i with
    | some r => .ok (i, r)
    | none => .error "dangling straight-bundle handle"

/-- Dereference an optional elbow-bundle handle. -/
def CRS.derefE (s : CRS) (o : Option ℕ) : Except String (ℕ × EB) :=
  match o with
  | none => .error "attribute access on None"
  | some i =>
    match s.getE i with
    | some r => .ok (i, r)
    | none => .error "dangling elbow-bundle handle"

/-- The method `StraightBundle.is_associated_with(p)`:
`self.left.point is p or self.right.point is p` with Python shortcut
evaluation. -/
def CRS.sbAssoc (s : CRS) (sb : SB) (p : ℕ) : Except String Bool := do
  let (_, le) ← s.derefE sb.left
  if le.ptId == p then pure true
  else do
    let (_, re) ← s.derefE sb.right
    pure (re.ptId == p)

/-- Membership loop of `ElbowBundle.is_closer_than`: walk an `inner` chain
from `start` looking for `tgt` (`while inner is not None: if inner == eb
... inner = inner.inner`). -/
def chainHas (s : CRS) (tgt : ℕ) : ℕ → Option ℕ → Except String Bool
  | 0, _ => .error "out of fuel"
  | _, none => .ok false
  | fuel + 1, some i =>
    if i == tgt then .ok true
    else
      match s.getE i with
      | some r => chainHas s tgt fuel r.inner
      | none => .error "dangling elbow-bundle handle"

/-- One step `current.right.right` (or `current.left.left` when the
iteration direction is reverted) of the pairwise walk in
`ElbowBundle.is_closer_than`. -/
def ebStepF (s : CRS) (i : ℕ) (rev : Bool) : Except String ℕ :=
  match s.getE i with
  | none => .error "dangling elbow-bundle handle"
  | some r => do
    let (_, sb) ← s.derefS (if rev then r.left else r.right)
    match (if rev then sb.left else sb.right) with
    | none => .error "attribute access on None"
    | some j => .ok j

/-- The pairwise walk of `ElbowBundle.is_closer_than`: advance both elbows
in lockstep while they are associated with the same point. -/
def ebWalk (s : CRS) (revS revE : Bool) : ℕ → ℕ → ℕ → Except String (ℕ × ℕ)
  | 0, _, _ => .error "out of fuel"
  | fuel + 1, cs, ce =>
    match s.getE cs, s.getE ce with
    | some rs, some re =>
      if rs.ptId == re.ptId then do
        let cs2 ← ebStepF s cs revS
        let ce2 ← ebStepF s ce revE
        ebWalk s revS revE fuel cs2 ce2
      else .ok (cs, ce)
    | _, _ => .error "dangling elbow-bundle handle"

/-- The method `ElbowBundle.is_closer_than(eb)`: the delicate nesting-order
comparison (terminal cases, the two `inner`-chain scans, then the pairwise
walk with its handedness / collinearity case analysis). -/
def ebCloser (s : CRS) (fuel : ℕ) (selfId ebId : ℕ) : Except String Bool :=
  match s.getE selfId, s.getE ebId with
  | some a, some b =>
    if a.ptId != b.ptId then
      .error "elbow bundles are associated with different points"
    else if a.is_terminal then .ok true
    else if b.is_terminal then .ok false
    else do
      let insideSelf ← chainHas s ebId fuel a.inner
      if insideSelf then pure false
      else do
        let insideEb ← chainHas s selfId fuel b.inner
        if insideEb then pure true
        else do
          let revS := a.orientation == 2
          let revE := b.orientation == 2
          let (cs, ce) ← ebWalk s revS revE fuel selfId ebId
          let ps ← ebStepF s cs (!revS)
          let pe ← ebStepF s ce (!revE)
          match s.getE cs, s.getE ce, s.getE ps, s.getE pe with
          | some rcs, some rce, some rps, some rpe =>
            if rps.ptId == rce.ptId then
              pure (if !revS then rps.orientation == 2 else rps.orientation == 1)
            else if rpe.ptId == rcs.ptId then
              pure (if !revE then rpe.orientation == 1 else rpe.orientation == 2)
            else if orient3 rps.pt rcs.pt rce.pt == 0 then
              if (!revS && rps.orientation == 1) || (revS && rps.orientation == 2) then
                pure (on_segment rps.pt rce.pt rcs.pt)
              else
                pure (on_segment rps.pt rcs.pt rce.pt)
            else pure (orient3 rps.pt rce.pt rcs.pt == 1)
          | _, _, _, _ => .error "dangling elbow-bundle handle"
  | _, _ => .error "dangling elbow-bundle handle"

/-- The method `StraightBundle.is_closer_than(sb, p)`. -/
def sbCloser (s : CRS) (fuel : ℕ) (xr yr : SB) (p : ℕ) : Except String Bool := do
  let ax ← s.sbAssoc xr p
  if !ax then .error "straight bundle is not associated with point"
  else do
    let ay ← s.sbAssoc yr p
    if !ay then .error "straight bundle is not associated with point"
    else do
      let (xl, xlr) ← s.derefE xr.left
      let o1 := if xlr.ptId == p then some xl else xr.right
      let (yl, ylr) ← s.derefE yr.left
      let o2 := if ylr.ptId == p then some yl else yr.right
      let (e1, _) ← s.derefE o1
      let (e2, _) ← s.derefE o2
      ebCloser s fuel e1 e2

/-- The method `StraightBundle.has_same_orientation_as(sb)`. -/
def sbSameOrient (s : CRS) (xr yr : SB) : Except String Bool := do
  let (_, ylr) ← s.derefE yr.left
  let a1 ← s.sbAssoc xr ylr.ptId
  if !a1 then .error "straight bundles are associated with different points"
  else do
    let (_, yrr) ← s.derefE yr.right
    let a2 ← s.sbAssoc xr yrr.ptId
    if !a2 then .error "straight bundles are associated with different points"
    else do
      let (_, xlr) ← s.derefE xr.left
      pure (xlr.ptId == ylr.ptId)

/-- The method `StraightBundle.get_angle(t)`: the angle of the backbone at
time `t`, computed by rotating segment `pq` by an `asin` correction; the
four linkage cases choose the rotation direction. -/
def getAngle (O : Orc) (s : CRS) (sbId : ℕ) (t : ℚ) : Except String ℚ :=
  match s.getS sbId with
  | none => .error "dangling straight-bundle handle"
  | some sb => do
    let (_, ebl) ← s.derefE sb.left
    let (_, ebr) ← s.derefE sb.right
    let p := ebl.pt
    let q := ebr.pt
    let alpha := angleO O p q
    let a := if ebl.is_terminal then 0 else t * (ebl.layer_thickness + ebl.thickness / 2)
    let b := if ebr.is_terminal then 0 else t * (ebr.layer_thickness + ebr.thickness / 2)
    let dpq := distanceO O p q
    if dpq == 0 then .error "division by zero"
    else
      let arg := if !(Bool.xor (ebl.right == some sbId) (ebr.left == some sbId)) then |b - a| / dpq else (a + b) / dpq
      if 1 < |arg| then .error "math domain error"
      else
        let beta := O.asin arg
        let ang :=
          if ebl.right == some sbId && ebr.left == some sbId then
            if a < b then alpha + beta else alpha - beta
          else if ebl.left == some sbId && ebr.right == some sbId then
            if a < b then alpha - beta else alpha + beta
          else if ebl.right == some sbId && ebr.right == some sbId then alpha - beta
          else alpha + beta
        pure (normalize_angle ang)

/-- The method `StraightBundle.get_backbone_endpoints(t)`: the two backbone
endpoints, each offset from the bend point unless the elbow is terminal. -/
def getBackbone (O : Orc) (s : CRS) (sbId : ℕ) (t : ℚ) : Except String (Pnt × Pnt) :=
  match s.getS sbId with
  | none => .error "dangling straight-bundle handle"
  | some sb => do
    let (_, ebl) ← s.derefE sb.left
    let (_, ebr) ← s.derefE sb.right
    let sbAngle ← getAngle O s sbId t
    let rot := piHalfF
    let p1 :=
      if ebl.is_terminal then ebl.pt
      else
        let ang := if ebl.right == some sbId then sbAngle + rot else sbAngle - rot
        let mag := t * (ebl.layer_thickness + sb.thickness / 2)
        Pnt.mk (ebl.pt.x + O.cos ang * mag) (ebl.pt.y + O.sin ang * mag)
    let p2 :=
      if ebr.is_terminal then ebr.pt
      else
        let ang := if ebr.left == some sbId then sbAngle + rot else sbAngle - rot
        let mag := t * (ebr.layer_thickness + sb.thickness / 2)
        Pnt.mk (ebr.pt.x + O.cos ang * mag) (ebr.pt.y + O.sin ang * mag)
    pure (p1, p2)

/-- The method `StraightBundle.get_corners(t)`: the four swept corners,
ordered top right, top left, bottom left, bottom right. -/
def getCorners (O : Orc) (s : CRS) (sbId : ℕ) (t : ℚ) :
    Except String (Pnt × Pnt × Pnt × Pnt) := do
  let (p1, p2) ← getBackbone O s sbId t
  match s.getS sbId with
  | none => .error "dangling straight-bundle handle"
  | some sb =>
    let len := distanceO O p1 p2
    let theta := angleO O p1 p2
    let cx := (p1.x + p2.x) / 2
    let cy := (p1.y + p2.y) / 2
    let thick := t * sb.thickness
    let co := O.cos theta
    let si := O.sin theta
    pure (Pnt.mk (cx + len / 2 * co - thick / 2 * si) (cy + len / 2 * si + thick / 2 * co),
      Pnt.mk (cx - len / 2 * co - thick / 2 * si) (cy - len / 2 * si + thick / 2 * co),
      Pnt.mk (cx - len / 2 * co + thick / 2 * si) (cy - len / 2 * si - thick / 2 * co),
      Pnt.mk (cx + len / 2 * co + thick / 2 * si) (cy + len / 2 * si - thick / 2 * co))

/-- The method `ElbowBundle.get_angles(t)`: the two boundary angles of the
annular wedge, perpendicular to the adjacent straight bundles. -/
def getAngles (O : Orc) (s : CRS) (ebId : ℕ) (t : ℚ) : Except String (ℚ × ℚ) :=
  match s.getE ebId with
  | none => .error "dangling elbow-bundle handle"
  | some eb =>
    if eb.is_terminal && eb.left == none then .ok (0, 0)
    else do
      let (sblId, sbl) ← s.derefS eb.left
      let (sbrId, sbr) ← s.derefS eb.right
      let rot := piHalfF
      let la ← getAngle O s sblId t
      let (_, sblR) ← s.derefE sbl.right
      let a1 := if sblR.ptId == eb.ptId then la + rot else la - rot
      let ra ← getAngle O s sbrId t
      let (_, sbrL) ← s.derefE sbr.left
      let a2 := if sbrL.ptId == eb.ptId then ra + rot else ra - rot
      pure (normalize_angle a1, normalize_angle a2)

/-- The function `utils.check_segment_arc_intersection`.  `math.sqrt` is
applied only after the `discriminant < 0` early return; a zero quadratic
coefficient would raise `ZeroDivisionError` in Python. -/
def segArcIntersection (O : Orc) (p q c : Pnt) (radius la ra : ℚ)
    (proper : Bool) : Except String Bool :=
  let dx := q.x - p.x
  let dy := q.y - p.y
  let A := dx ^ 2 + dy ^ 2
  let B := 2 * (dx * (p.x - c.x) + dy * (p.y - c.y))
  let Cc := (p.x - c.x) ^ 2 + (p.y - c.y) ^ 2 - radius ^ 2
  let disc := B ^ 2 - 4 * A * Cc
  if disc < 0 then .ok false
  else if A == 0 then .error "division by zero"
  else
    let t1 := (-B - O.sqrt disc) / (2 * A)
    let t2 := (-B + O.sqrt disc) / (2 * A)
    if proper && t1 == t2 then .ok false
    else
      let la2 := normalize_angle la
      let ra2 := normalize_angle ra
      let hitAt := fun (tv : ℚ) =>
        let ip := Pnt.mk (p.x + tv * (q.x - p.x)) (p.y + tv * (q.y - p.y))
        decide (0 ≤ tv) && decide (tv ≤ 1)
          && decide (angleO O c ip ≤ la2) && decide (ra2 ≤ angleO O c ip)
      .ok (hitAt t1 || hitAt t2)

/-- Inner loop of the arc-endpoint test in
`utils.check_rectangle_arc_intersection`: scan the four sides accumulating
orientations; `none` encodes the early `return True` taken when the
endpoint lies on a side and tangential contact counts. -/
def sideScan (proper : Bool) (a : Pnt) : List (Pnt × Pnt) → ℕ → Option ℕ
  | [], tot => some tot
  | (u, v) :: rest, tot =>
    if !proper && on_segment u v a then none
    else sideScan proper a rest (tot + orient3 u v a)

/-- The function `utils.check_rectangle_arc_intersection`: an arc endpoint
strictly inside the rectangle (orientation total 8), or on its boundary in
non-proper mode, or any side properly crossing the arc. -/
def rectArcIntersection (O : Orc) (p1 p2 p3 p4 c : Pnt) (radius la ra : ℚ)
    (proper : Bool) : Except String Bool :=
  let sides := [(p1, p2), (p2, p3), (p3, p4), (p4, p1)]
  let la2 := normalize_angle la
  let ra2 := normalize_angle ra
  let a1 := Pnt.mk (c.x + radius * O.cos la2) (c.y + radius * O.sin la2)
  let a2 := Pnt.mk (c.x + radius * O.cos ra2) (c.y + radius * O.sin ra2)
  let ptHit := fun (a : Pnt) =>
    match sideScan proper a sides 0 with
    | none => true
    | some tot => tot == 8
  if ptHit a1 || ptHit a2 then .ok true
  else do
    let r1 ← segArcIntersection O p1 p2 c radius la2 ra2 proper
    if r1 then pure true
    else do
      let r2 ← segArcIntersection O p2 p3 c radius la2 ra2 proper
      if r2 then pure true
      else do
        let r3 ← segArcIntersection O p3 p4 c radius la2 ra2 proper
        if r3 then pure true
        else segArcIntersection O p4 p1 c radius la2 ra2 proper

/-- The geometric body of `ElbowBundle.splits(sb, t)`: whether the swept
rectangle of `sb` at time `t` properly (never merely tangentially)
intersects the annular wedge of elbow bundle `eb` — the spec notion of a
proper rectangle/wedge intersection. -/
def properWedgeHit (O : Orc) (s : CRS) (ebId sbId : ℕ) (t : ℚ) :
    Except String Bool :=
  match s.getE ebId with
  | none => .error "dangling elbow-bundle handle"
  | some eb => do
    let (p1, p2, p3, p4) ← getCorners O s sbId t
    let thick := if eb.is_terminal then eb.thickness / 2 else eb.thickness
    let radius := t * (eb.layer_thickness + thick)
    let (la, ra) ← getAngles O s ebId t
    rectArcIntersection O p1 p2 p3 p4 eb.pt radius la ra true

/-- The method `ElbowBundle.splits(sb, t)`: `False` when `sb` is associated
with the elbow's point, otherwise the proper rectangle/wedge test. -/
def ebSplits (O : Orc) (s : CRS) (ebId sbId : ℕ) (t : ℚ) : Except String Bool :=
  match s.getE ebId, s.getS sbId with
  | some eb, some sb => do
    let assoc ← s.sbAssoc sb eb.ptId
    if assoc then pure false else properWedgeHit O s ebId sbId t
  | _, _ => .error "dangling bundle handle"

/-- The method `ElbowBundle.merges(t)`: a non-terminal elbow bundle merges
when the backbone of its left straight, directed towards the elbow, no
longer makes a clockwise turn towards the far end of the right straight. -/
def ebMerges (O : Orc) (s : CRS) (ebId : ℕ) (t : ℚ) : Except String Bool :=
  match s.getE ebId with
  | none => .error "dangling elbow-bundle handle"
  | some eb =>
    if eb.is_terminal then .ok false
    else do
      let (sblId, sbl) ← s.derefS eb.left
      let (sbrId, sbr) ← s.derefS eb.right
      let (p1, p2) ← getBackbone O s sblId t
      let (p3, p4) ← getBackbone O s sbrId t
      let (_, sblR) ← s.derefE sbl.right
      let ab := if sblR.pt == eb.pt then (p1, p2) else (p2, p1)
      let (_, sbrL) ← s.derefE sbr.left
      let c := if sbrL.pt == eb.pt then p4 else p3
      pure (orient3 ab.1 ab.2 c != 1)

/-- The method `Event.is_valid` of the two event classes:
`SplitEvent.is_valid` is `self.eb.splits(self.sb, self.t)`,
`MergeEvent.is_valid` is `self.eb.merges(self.t)`. -/
def evIsValid (O : Orc) (s : CRS) : GEvent → Except String Bool
  | .splitEv t sb eb => ebSplits O s eb sb t
  | .mergeEv t eb => ebMerges O s eb t

/-- The membership test `bundle in self.crs`
(`CompactRoutingStructure.__contains__`). -/
def CRS.containsB (s : CRS) : BRef → Bool
  | .s i => s.sL.contains i
  | .e i => s.eL.contains i

/-- The two link-update loops of `union` on straight bundles: walk an
elbow chain redirecting references from `y` to `x`.  The left loop tests
`eb.right == y` first, the right loop `eb.left == y` first. -/
def flipELoop (yId xId : ℕ) (testRight : Bool) : ℕ → Option ℕ → CRS → MRes Unit
  | 0, _, s => .err "out of fuel" s
  | _ + 1, none, s => .ok () s
  | fuel + 1, some i, s =>
    match s.getE i with
    | none => .err "dangling elbow-bundle handle" s
    | some r =>
      if !(r.conn yId) then .ok () s
      else
        let r2 :=
          if testRight then
            if r.right == some yId then { r with right := some xId }
            else { r with left := some xId }
          else
            if r.left == some yId then { r with left := some xId }
            else { r with right := some xId }
        flipELoop yId xId testRight fuel r2.inner (s.setE i r2)

/-- The link-update loops of `split` and `merge`: walk an elbow chain while
connected to `fromId`, pointing each elbow (both sides for terminal ones)
to `toId` instead. -/
def reassignLoop (fromId toId : ℕ) : ℕ → Option ℕ → CRS → MRes Unit
  | 0, _, s => .err "out of fuel" s
  | _ + 1, none, s => .ok () s
  | fuel + 1, some i, s =>
    match s.getE i with
    | none => .err "dangling elbow-bundle handle" s
    | some r =>
      if !(r.conn fromId) then .ok () s
      else
        let r2 :=
          if r.is_terminal then { r with left := some toId, right := some toId }
          else if r.left == some fromId then { r with left := some toId }
          else { r with right := some toId }
        reassignLoop fromId toId fuel r2.inner (s.setE i r2)

/-- The Python `list.remove` on `straight_bundles`: removes the first
occurrence, raising `ValueError` when absent. -/
def removeS (s : CRS) (i : ℕ) : MRes Unit :=
  if s.sL.contains i then .ok () { s with sL := s.sL.erase i }
  else .err "list.remove(x): x not in list" s

/-- The Python `list.remove` on `elbow_bundles`. -/
def removeE (s : CRS) (i : ℕ) : MRes Unit :=
  if s.eL.contains i then .ok () { s with eL := s.eL.erase i }
  else .err "list.remove(x): x not in list" s

mutual

/-- The method `CompactRoutingStructure.union(x, y)`: fuse two same-kind
non-terminal bundles, summing size and thickness into `x`, redirecting all
references from `y` to `x`, recursively unioning elbow bundles that become
duplicates, and removing `y` from the live list. -/
def unionM (fuel : ℕ) (bx bv : BRef) (s : CRS) : MRes Unit :=
  match fuel with
  | 0 => .err "out of fuel" s
  | fuel + 1 =>
    match bx, bv with
    | .s _, .e _ => .err "cannot union bundles of different types" s
    | .e _, .s _ => .err "cannot union bundles of different types" s
    | .s xId, .s yId =>
      match s.getS xId, s.getS yId with
      | some xr0, some yr0 =>
        if xr0.is_terminal || yr0.is_terminal then .ok () s
        else
          let s1 := s.setS xId
            { xr0 with size := xr0.size + yr0.size, thickness := xr0.thickness + yr0.thickness }
          match s1.getS xId, s1.getS yId with
          | some xr1, some yr1 =>
            (match s1.derefE xr1.left with
            | .error e => .err e s1
            | .ok (_, xlE) =>
              match sbCloser s1 fuel xr1 yr1 xlE.ptId with
              | .error e => .err e s1
              | .ok c1 =>
                let afterL : MRes Unit :=
                  if c1 then
                    match sbSameOrient s1 xr1 yr1 with
                    | .error e => .err e s1
                    | .ok so =>
                      .ok () (s1.setS xId { xr1 with left := if so then yr1.left else yr1.right })
                  else .ok () s1
                match afterL with
                | .err e s2 => .err e s2
                | .ok _ s2 =>
                  match s2.getS xId, s2.getS yId with
                  | some xr2, some yr2 =>
                    (match s2.derefE xr2.right with
                    | .error e => .err e s2
                    | .ok (_, xrE) =>
                      match sbCloser s2 fuel xr2 yr2 xrE.ptId with
                      | .error e => .err e s2
                      | .ok c2 =>
                        let afterR : MRes Unit :=
                          if c2 then
                            match sbSameOrient s2 xr2 yr2 with
                            | .error e => .err e s2
                            | .ok so =>
                              .ok () (s2.setS xId { xr2 with right := if so then yr2.right else yr2.left })
                          else .ok () s2
                        match afterR with
                        | .err e s3 => .err e s3
                        | .ok _ s3 =>
                          match s3.getS yId with
                          | none => .err "dangling straight-bundle handle" s3
                          | some yr3 =>
                            match flipELoop yId xId true fuel yr3.left s3 with
                            | .err e s4 => .err e s4
                            | .ok _ s4 =>
                              match s4.getS yId with
                              | none => .err "dangling straight-bundle handle" s4
                              | some yr4 =>
                                match flipELoop yId xId false fuel yr4.right s4 with
                                | .err e s5 => .err e s5
                                | .ok _ s5 =>
                                  match s5.getS xId with
                                  | none => .err "dangling straight-bundle handle" s5
                                  | some xr5 =>
                                    match s5.derefE xr5.left with
                                    | .error e => .err e s5
                                    | .ok (lId, lr) =>
                                      let leftLoop : MRes Unit :=
                                        if lr.is_terminal then .ok () s5
                                        else ebMergeLoop fuel xId lId lr.inner s5
                                      match leftLoop with
                                      | .err e s6 => .err e s6
                                      | .ok _ s6 =>
                                        match s6.getS xId with
                                        | none => .err "dangling straight-bundle handle" s6
                                        | some xr6 =>
                                          match s6.derefE xr6.right with
                                          | .error e => .err e s6
                                          | .ok (rId, rr) =>
                                            let rightLoop : MRes Unit :=
                                              if rr.is_terminal then .ok () s6
                                              else ebMergeLoop fuel xId rId rr.inner s6
                                            match rightLoop with
                                            | .err e s7 => .err e s7
                                            | .ok _ s7 => removeS s7 yId)
                  | _, _ => .err "dangling straight-bundle handle" s2)
          | _, _ => .err "dangling straight-bundle handle" s1
      | _, _ => .err "dangling straight-bundle handle" s
    | .e xId, .e yId =>
      match s.getE xId, s.getE yId with
      | some xr0, some yr0 =>
        if xr0.is_terminal || yr0.is_terminal then .ok () s
        else
          let s1 := s.setE xId
            { xr0 with size := xr0.size + yr0.size, thickness := xr0.thickness + yr0.thickness }
          match ebCloser s1 fuel yId xId with
          | .error e => .err e s1
          | .ok closer =>
            if closer then
              match s1.getE xId, s1.getE yId with
              | some xr1, some yr1 =>
                removeE (s1.setE xId
                  { xr1 with inner := yr1.inner, layer_thickness := yr1.layer_thickness }) yId
              | _, _ => .err "dangling elbow-bundle handle" s1
            else
              match s1.getE yId with
              | none => .err "dangling elbow-bundle handle" s1
              | some yr1 =>
                match s1.derefS yr1.left with
                | .error e => .err e s1
                | .ok (slId, slr) =>
                  let s2 := s1.setS slId
                    (if slr.right == some yId then { slr with right := some xId }
                     else { slr with left := some xId })
                  match s2.getE yId with
                  | none => .err "dangling elbow-bundle handle" s2
                  | some yr2 =>
                    match s2.derefS yr2.right with
                    | .error e => .err e s2
                    | .ok (srId, srr) =>
                      let s3 := s2.setS srId
                        (if srr.left == some yId then { srr with left := some xId }
                         else { srr with right := some xId })
                      removeE s3 yId
      | _, _ => .err "dangling elbow-bundle handle" s

/-- The two duplicate-elbow coalescing loops of `union` on straight
bundles: walk inwards from an outermost elbow of `x`, recursively unioning
adjacent nested elbow bundles that share both straight bundles. -/
def ebMergeLoop (fuel : ℕ) (xId lId : ℕ) (li : Option ℕ) (s : CRS) : MRes Unit :=
  match fuel with
  | 0 => .err "out of fuel" s
  | fuel + 1 =>
    match s.getE lId with
    | none => .err "dangling elbow-bundle handle" s
    | some lr =>
      if !(lr.conn xId) then .ok () s
      else
        match li with
        | none => .err "attribute access on None" s
        | some liId =>
          match s.getE liId with
          | none => .err "dangling elbow-bundle handle" s
          | some lir =>
            if !(lir.conn xId) then .ok () s
            else if lir.is_terminal then .ok () s
            else
              match lr.nextSB xId, lir.nextSB xId with
              | .ok n1, .ok n2 =>
                if n1 == n2 then
                  match unionM fuel (.e lId) (.e liId) s with
                  | .err e s2 => .err e s2
                  | .ok _ s2 =>
                    match s2.getE lId with
                    | none => .err "dangling elbow-bundle handle" s2
                    | some lr2 => ebMergeLoop fuel xId lId lr2.inner s2
                else ebMergeLoop fuel xId liId lir.inner s
              | .error e, _ => .err e s
              | _, .error e => .err e s

end

/-- The chain-update loop near the start of `divide`: redirect the elbow
bundles inside `eb` that reference `sb` to reference `sb2` (tests
`eb.left == sb` first). -/
def divInnerLoop (sbId sb2Id : ℕ) : ℕ → Option ℕ → CRS → MRes Unit
  | 0, _, s => .err "out of fuel" s
  | _ + 1, none, s => .ok () s
  | fuel + 1, some i, s =>
    match s.getE i with
    | none => .err "dangling elbow-bundle handle" s
    | some r =>
      if !(r.conn sbId) then .ok () s
      else
        let r2 :=
          if r.left == some sbId then { r with left := some sb2Id }
          else { r with right := some sb2Id }
        divInnerLoop sbId sb2Id fuel r2.inner (s.setE i r2)

/-- The trailing chain-update loop of the first branch of `divide` (tests
`eb.right == sb` first). -/
def divTailLoop (sbId sb2Id : ℕ) : ℕ → Option ℕ → CRS → MRes Unit
  | 0, _, s => .err "out of fuel" s
  | _ + 1, none, s => .ok () s
  | fuel + 1, some i, s =>
    match s.getE i with
    | none => .err "dangling elbow-bundle handle" s
    | some r =>
      if !(r.conn sbId) then .ok () s
      else
        let r2 :=
          if r.right == some sbId then { r with right := some sb2Id }
          else { r with left := some sb2Id }
        divTailLoop sbId sb2Id fuel r2.inner (s.setE i r2)

/-- The accumulation loop of the first branch of `divide`: step inwards
until the combined elbow size reaches `sb.size`, returning the final elbow
handle and the accumulated size and thickness. -/
def divAccLoop1 (sbSize : ℤ) : ℕ → ℕ → ℤ → ℚ → CRS → MRes (ℕ × ℤ × ℚ)
  | 0, _, _, _, s => .err "out of fuel" s
  | fuel + 1, cur, size, thick, s =>
    if size < sbSize then
      match s.getE cur with
      | none => .err "dangling elbow-bundle handle" s
      | some r =>
        match r.inner with
        | none => .err "attribute access on None" s
        | some nxt =>
          match s.getE nxt with
          | none => .err "dangling elbow-bundle handle" s
          | some nr => divAccLoop1 sbSize fuel nxt (size + nr.size) (thick + nr.thickness) s
    else .ok (cur, size, thick) s

/-- The accumulation loop of the second branch of `divide`: redirect the
current elbow from `sb` to `sb2`, then step inwards, until the combined
size reaches `sb2.size`. -/
def divAccLoop2 (sbId sb2Id : ℕ) (sb2Size : ℤ) : ℕ → ℕ → ℤ → ℚ → CRS → MRes (ℕ × ℤ × ℚ)
  | 0, _, _, _, s => .err "out of fuel" s
  | fuel + 1, cur, size, thick, s =>
    if size < sb2Size then
      match s.getE cur with
      | none => .err "dangling elbow-bundle handle" s
      | some r =>
        let r2 :=
          if r.left == some sbId then { r with left := some sb2Id }
          else { r with right := some sb2Id }
        let s2 := s.setE cur r2
        match r2.inner with
        | none => .err "attribute access on None" s2
        | some nxt =>
          match s2.getE nxt with
          | none => .err "dangling elbow-bundle handle" s2
          | some nr => divAccLoop2 sbId sb2Id sb2Size fuel nxt (size + nr.size) (thick + nr.thickness) s2
    else .ok (cur, size, thick) s

/-- The elbow-splitting step shared by both branches of `divide`: when the
accumulated size overshoots, copy `eb_next`, hang the copy inside it and
redistribute size, thickness and layer thickness. -/
def divSplitElbow (ebNext : ℕ) (size : ℤ) (thick : ℚ) (tgtSize : ℤ) (tgtThick : ℚ)
    (s : CRS) : MRes Unit :=
  if tgtSize < size then
    match s.getE ebNext with
    | none => .err "dangling elbow-bundle handle" s
    | some nr =>
      let (newId, s1) := s.newE nr
      match s1.getE ebNext with
      | none => .err "dangling elbow-bundle handle" s1
      | some nr1 =>
        let s2 := s1.setE ebNext { nr1 with inner := some newId }
        match s2.getE newId with
        | none => .err "dangling elbow-bundle handle" s2
        | some newR =>
          let newR2 := { newR with size := size - tgtSize, thickness := thick - tgtThick }
          let s3 := s2.setE newId newR2
          match s3.getE ebNext with
          | none => .err "dangling elbow-bundle handle" s3
          | some nr3 =>
            let nr4 : EB :=
              { nr3 with size := nr3.size - newR2.size, thickness := nr3.thickness - newR2.thickness, layer_thickness := newR2.layer_thickness + newR2.thickness }
            .ok () (s3.setE ebNext nr4)
  else .ok () s

/-- The method `CompactRoutingStructure.divide(sb, eb)`: split `sb` at the
adjacent elbow bundle `eb` into two interior-disjoint straight bundles so
that the piece still adjacent to `eb` has exactly `eb`'s size. -/
def divideM (fuel : ℕ) (sbId ebId : ℕ) (s : CRS) : MRes Unit :=
  match s.getS sbId with
  | none => .err "dangling straight-bundle handle" s
  | some sbr0 =>
    let (sb2Id, s1) := s.newS sbr0
    match s1.getE ebId with
    | none => .err "dangling elbow-bundle handle" s1
    | some ebr1 =>
      let s2 := s1.setS sb2Id
        (if sbr0.right == some ebId then { sbr0 with right := ebr1.inner }
         else { sbr0 with left := ebr1.inner })
      match divInnerLoop sbId sb2Id fuel ebr1.inner s2 with
      | .err e s3 => .err e s3
      | .ok _ s3 =>
        match s3.getS sbId, s3.getE ebId with
        | some sbr3, some ebr3 =>
          let s4 := s3.setS sbId { sbr3 with size := ebr3.size, thickness := ebr3.thickness }
          match s4.getS sb2Id with
          | none => .err "dangling straight-bundle handle" s4
          | some sb2r4 =>
            let s5 := s4.setS sb2Id
              { sb2r4 with size := sb2r4.size - ebr3.size, thickness := sb2r4.thickness - ebr3.thickness }
            match s5.getS sbId with
            | none => .err "dangling straight-bundle handle" s5
            | some sbr5 =>
              match sbr5.nextEB ebId with
              | .error e => .err e s5
              | .ok nxtO =>
                match s5.derefE nxtO with
                | .error e => .err e s5
                | .ok (ebN, ebNr) =>
                  match s5.getE ebId with
                  | none => .err "dangling elbow-bundle handle" s5
                  | some ebr5 =>
                    let dirEb := ebr5.left == some sbId
                    let dirEbNext := ebNr.right == some sbId
                    if dirEb == dirEbNext then
                      match divAccLoop1 sbr5.size fuel ebN ebNr.size ebNr.thickness s5 with
                      | .err e s6 => .err e s6
                      | .ok (ebN2, size, thick) s6 =>
                        match divSplitElbow ebN2 size thick sbr5.size sbr5.thickness s6 with
                        | .err e s7 => .err e s7
                        | .ok _ s7 =>
                          match s7.getE ebN2 with
                          | none => .err "dangling elbow-bundle handle" s7
                          | some ebN2r =>
                            let innerO := ebN2r.inner
                            match s7.getS sb2Id, s7.getE ebId with
                            | some sb2r7, some ebr7 =>
                              let s8 := s7.setS sb2Id
                                (if sb2r7.right == ebr7.inner then { sb2r7 with left := innerO }
                                 else { sb2r7 with right := innerO })
                              match divTailLoop sbId sb2Id fuel innerO s8 with
                              | .err e s9 => .err e s9
                              | .ok _ s9 => .ok () s9
                            | _, _ => .err "dangling bundle handle" s7
                    else
                      match s5.getS sb2Id with
                      | none => .err "dangling straight-bundle handle" s5
                      | some sb2r5 =>
                        match divAccLoop2 sbId sb2Id sb2r5.size fuel ebN ebNr.size ebNr.thickness s5 with
                        | .err e s6 => .err e s6
                        | .ok (ebN2, size, thick) s6 =>
                          match divSplitElbow ebN2 size thick sb2r5.size sb2r5.thickness s6 with
                          | .err e s7 => .err e s7
                          | .ok _ s7 =>
                            match s7.getE ebN2 with
                            | none => .err "dangling elbow-bundle handle" s7
                            | some ebN2r =>
                              let s8 := s7.setE ebN2
                                (if ebN2r.left == some sbId then { ebN2r with left := some sb2Id }
                                 else { ebN2r with right := some sb2Id })
                              match s8.getE ebN2 with
                              | none => .err "dangling elbow-bundle handle" s8
                              | some ebN2r8 =>
                                match s8.getS sbId with
                                | none => .err "dangling straight-bundle handle" s8
                                | some sbr8 =>
                                  .ok () (s8.setS sbId
                                    (if sbr8.left == some ebId then { sbr8 with right := ebN2r8.inner }
                                     else { sbr8 with left := ebN2r8.inner }))
        | _, _ => .err "dangling bundle handle" s3

/-- The method `CompactRoutingStructure.merge(sb1, eb, sb2)`: after the two
fail-fast connectivity checks, equalize sizes via `divide`, relink, and
delete `eb` and `sb2`.  Returns `sb1`. -/
def mergeM (fuel : ℕ) (sb1Id ebId sb2Id : ℕ) (s : CRS) : MRes ℕ :=
  match s.getS sb1Id with
  | none => .err "dangling straight-bundle handle" s
  | some sb1r =>
    if !(sb1r.conn ebId) then .err "straight bundle is not connected to elbow bundle" s
    else
      match s.getS sb2Id with
      | none => .err "dangling straight-bundle handle" s
      | some sb2r =>
        if !(sb2r.conn ebId) then .err "straight bundle is not connected to elbow bundle" s
        else
          match s.getE ebId with
          | none => .err "dangling elbow-bundle handle" s
          | some ebr =>
            let step1 : MRes Unit :=
              if ebr.size < sb1r.size then divideM fuel sb1Id ebId s else .ok () s
            match step1 with
            | .err e s1 => .err e s1
            | .ok _ s1 =>
              match s1.getS sb2Id, s1.getE ebId with
              | some sb2r1, some ebr1 =>
                let step2 : MRes Unit :=
                  if ebr1.size < sb2r1.size then divideM fuel sb2Id ebId s1 else .ok () s1
                match step2 with
                | .err e s2 => .err e s2
                | .ok _ s2 =>
                  match s2.getS sb2Id with
                  | none => .err "dangling straight-bundle handle" s2
                  | some sb2r2 =>
                    match sb2r2.nextEB ebId with
                    | .error e => .err e s2
                    | .ok ebRightO =>
                      match s2.getS sb1Id with
                      | none => .err "dangling straight-bundle handle" s2
                      | some sb1r2 =>
                        let s3 := s2.setS sb1Id
                          (if sb1r2.right == some ebId then { sb1r2 with right := ebRightO }
                           else { sb1r2 with left := ebRightO })
                        match s3.getS sb1Id, s3.getS sb2Id with
                        | some sb1r3, some sb2r3 =>
                          let s4 := s3.setS sb1Id
                            { sb1r3 with is_terminal := sb1r3.is_terminal || sb2r3.is_terminal }
                          match reassignLoop sb2Id sb1Id fuel ebRightO s4 with
                          | .err e s5 => .err e s5
                          | .ok _ s5 =>
                            match removeE s5 ebId with
                            | .err e s6 => .err e s6
                            | .ok _ s6 =>
                              match removeS s6 sb2Id with
                              | .err e s7 => .err e s7
                              | .ok _ s7 => .ok sb1Id s7
                        | _, _ => .err "dangling straight-bundle handle" s3
              | _, _ => .err "dangling bundle handle" s1

/-- The method `CompactRoutingStructure.split(sb, x, t)`: insert a new
degenerate elbow bundle `eb` (nested just outside `x`) into straight bundle
`sb`, producing the sequence `sb, eb, sb2`; re-link nested elbows to `sb2`
and union with `x`'s neighbors when the new halves touch them.  Returns the
handles `(sb, eb, sb2)`. -/
def splitM (O : Orc) (fuel : ℕ) (sbId xId : ℕ) (t : ℚ) (s : CRS) : MRes (ℕ × ℕ × ℕ) :=
  match s.getS sbId with
  | none => .err "dangling straight-bundle handle" s
  | some sbr0 =>
    let (sb2Id, s1) := s.newS sbr0
    let (ebId, s2) := s1.newE EB.blank
    match getBackbone O s2 sbId t with
    | .error e => .err e s2
    | .ok (p1, p2) =>
      match s2.getE xId with
      | none => .err "dangling elbow-bundle handle" s2
      | some xr2 =>
        match s2.getS sbId, s2.getS sb2Id with
        | some sbr2, some sb2r2 =>
          let s3 :=
            if orient3 xr2.pt p1 p2 == 1 then
              (s2.setS sbId { sbr2 with right := some ebId }).setS sb2Id { sb2r2 with left := some ebId }
            else
              (s2.setS sbId { sbr2 with left := some ebId }).setS sb2Id { sb2r2 with right := some ebId }
          match s3.getS sbId with
          | none => .err "dangling straight-bundle handle" s3
          | some sbr3 =>
            match sbr3.nextEB ebId with
            | .error e => .err e s3
            | .ok nO =>
              match s3.derefE nO with
              | .error e => .err e s3
              | .ok (_, nR) =>
                let s4 := s3.setS sbId { sbr3 with is_terminal := nR.is_terminal }
                match s4.getS sb2Id with
                | none => .err "dangling straight-bundle handle" s4
                | some sb2r4 =>
                  match sb2r4.nextEB ebId with
                  | .error e => .err e s4
                  | .ok n2O =>
                    match s4.derefE n2O with
                    | .error e => .err e s4
                    | .ok (_, n2R) =>
                      let s5 := s4.setS sb2Id { sb2r4 with is_terminal := n2R.is_terminal }
                      match s5.getS sbId, s5.getE xId with
                      | some sbr5, some xr5 =>
                        let s6 := s5.setE ebId
                          { ptId := xr5.ptId, pt := xr5.pt, left := some sbId,
                            right := some sb2Id, inner := some xId, size := sbr5.size,
                            thickness := sbr5.thickness,
                            layer_thickness :=
                              if xr5.is_terminal then xr5.layer_thickness + xr5.thickness / 2
                              else xr5.layer_thickness + xr5.thickness,
                            is_terminal := false, orientation := 0 }
                        match s6.getS sb2Id with
                        | none => .err "dangling straight-bundle handle" s6
                        | some sb2r6 =>
                          match sb2r6.nextEB ebId with
                          | .error e => .err e s6
                          | .ok ebRightO =>
                            match reassignLoop sbId sb2Id fuel ebRightO s6 with
                            | .err e s7 => .err e s7
                            | .ok _ s7 =>
                              match s7.getE xId with
                              | none => .err "dangling elbow-bundle handle" s7
                              | some xr7 =>
                                if xr7.is_terminal then .ok (sbId, ebId, sb2Id) s7
                                else
                                  match s7.derefS xr7.left with
                                  | .error e => .err e s7
                                  | .ok (xlId, xlr) =>
                                    match xlr.nextEB xId with
                                    | .error e => .err e s7
                                    | .ok eLxO =>
                                      match s7.derefE eLxO with
                                      | .error e => .err e s7
                                      | .ok (_, eLxR) =>
                                        match s7.getS sbId with
                                        | none => .err "dangling straight-bundle handle" s7
                                        | some sbr7 =>
                                          match s7.sbAssoc sbr7 eLxR.ptId with
                                          | .error e => .err e s7
                                          | .ok assocL =>
                                            let u1 : MRes Unit :=
                                              if assocL then unionM fuel (.s sbId) (.s xlId) s7
                                              else .ok () s7
                                            match u1 with
                                            | .err e s8 => .err e s8
                                            | .ok _ s8 =>
                                              match s8.getE xId with
                                              | none => .err "dangling elbow-bundle handle" s8
                                              | some xr8 =>
                                                match s8.derefS xr8.right with
                                                | .error e => .err e s8
                                                | .ok (xrId, xrr) =>
                                                  match xrr.nextEB xId with
                                                  | .error e => .err e s8
                                                  | .ok eRxO =>
                                                    match s8.derefE eRxO with
                                                    | .error e => .err e s8
                                                    | .ok (_, eRxR) =>
                                                      match s8.getS sb2Id with
                                                      | none => .err "dangling straight-bundle handle" s8
                                                      | some sb2r8 =>
                                                        match s8.sbAssoc sb2r8 eRxR.ptId with
                                                        | .error e => .err e s8
                                                        | .ok assocR =>
                                                          let u2 : MRes Unit :=
                                                            if assocR then unionM fuel (.s sb2Id) (.s xrId) s8
                                                            else .ok () s8
                                                          match u2 with
                                                          | .err e s9 => .err e s9
                                                          | .ok _ s9 => .ok (sbId, ebId, sb2Id) s9
                      | _, _ => .err "dangling bundle handle" s5
        | _, _ => .err "dangling straight-bundle handle" s2

/-- A fresh `StraightBundle()` before any field assignment (Python
initializes `size` and `thickness` to `None`; `tear` sets `size` at once
and `unzip` later reseeds `thickness`, which is never read in between, so 0
is a safe placeholder for `None`). -/
def SB.blank : SB :=
  { left := none, right := none, size := 0, thickness := 0, is_terminal := false }

/-- The innermost-right-elbow search in the second branch of `tear`:
`while eb_right.inner.is_connected_to(b): eb_right = eb_right.inner`. -/
def tearRightWalk (bId : ℕ) : ℕ → ℕ → CRS → MRes ℕ
  | 0, _, s => .err "out of fuel" s
  | fuel + 1, cur, s =>
    match s.getE cur with
    | none => .err "dangling elbow-bundle handle" s
    | some r =>
      match r.inner with
      | none => .err "attribute access on None" s
      | some i =>
        match s.getE i with
        | none => .err "dangling elbow-bundle handle" s
        | some ir =>
          if ir.conn bId then tearRightWalk bId fuel i s
          else .ok cur s

/-- The method `CompactRoutingStructure.tear(b)`: peel one segment off
straight bundle `b` into a new singleton bundle `c`, tearing one elbow off
each adjacent elbow bundle as needed.  Returns immediately when
`b.size == 1`. -/
def tearM (fuel : ℕ) (bId : ℕ) (s : CRS) : MRes Unit :=
  match s.getS bId with
  | none => .err "dangling straight-bundle handle" s
  | some br0 =>
    if br0.size == 1 then .ok () s
    else
      let (cId, s1) := s.newS SB.blank
      let cr2 : SB := { SB.blank with size := 1 }
      let s2 := s1.setS cId cr2
      let br3 : SB := { br0 with size := br0.size - 1 }
      let s3 := s2.setS bId br3
      match s3.derefE br3.left with
      | .error e => .err e s3
      | .ok (elId, elr) =>
        match s3.derefE br3.right with
        | .error e => .err e s3
        | .ok (erId, rer) =>
          let dirL := elr.right == some bId
          let dirR := rer.left == some bId
          let s4 := s3.setS cId { cr2 with left := some elId }
          let elr2 : EB :=
            if elr.right == some bId then { elr with right := some cId }
            else { elr with left := some cId }
          let s5 := s4.setE elId elr2
          let leftPart : MRes Unit :=
            if elr2.size == 1 then
              match s5.getS bId with
              | none => .err "dangling straight-bundle handle" s5
              | some brC => .ok () (s5.setS bId { brC with left := elr2.inner })
            else
              let (eiId, s6) := s5.newE elr2
              let s7 := (s6.setE elId { elr2 with size := 1, inner := some eiId })
              let eir : EB := { elr2 with size := elr2.size - 1 }
              let s8 := s7.setE eiId eir
              match s8.getS bId with
              | none => .err "dangling straight-bundle handle" s8
              | some brC =>
                let s9 := s8.setS bId { brC with left := some eiId }
                let eir2 : EB :=
                  if eir.right == some cId then { eir with right := some bId }
                  else { eir with left := some bId }
                .ok () (s9.setE eiId eir2)
          match leftPart with
          | .err e sL => .err e sL
          | .ok _ sL =>
            if dirL == dirR then
              match sL.getS cId with
              | none => .err "dangling straight-bundle handle" sL
              | some crC =>
                let sR1 := sL.setS cId { crC with right := some erId }
                match sR1.getE erId with
                | none => .err "dangling elbow-bundle handle" sR1
                | some rerC =>
                  let rer2 : EB :=
                    if rerC.left == some bId then { rerC with left := some cId }
                    else { rerC with right := some cId }
                  let sR2 := sR1.setE erId rer2
                  if rer2.size == 1 then
                    match sR2.getS bId with
                    | none => .err "dangling straight-bundle handle" sR2
                    | some brC => .ok () (sR2.setS bId { brC with right := rer2.inner })
                  else
                    let (eiId, sR3) := sR2.newE rer2
                    let sR4 := sR3.setE erId { rer2 with size := 1, inner := some eiId }
                    let eir : EB := { rer2 with size := rer2.size - 1 }
                    let sR5 := sR4.setE eiId eir
                    match sR5.getS bId with
                    | none => .err "dangling straight-bundle handle" sR5
                    | some brC =>
                      let sR6 := sR5.setS bId { brC with right := some eiId }
                      let eir2 : EB :=
                        if eir.left == some cId then { eir with left := some bId }
                        else { eir with right := some bId }
                      .ok () (sR6.setE eiId eir2)
            else
              match tearRightWalk bId fuel erId sL with
              | .err e sW => .err e sW
              | .ok erInner sW =>
                match sW.getE erInner with
                | none => .err "dangling elbow-bundle handle" sW
                | some wr =>
                  let innerStep : MRes ℕ :=
                    if wr.size == 1 then .ok erInner sW
                    else
                      let (eiId, sW1) := sW.newE wr
                      let sW2 := sW1.setE eiId { wr with size := 1 }
                      match sW2.getE erInner with
                      | none => .err "dangling elbow-bundle handle" sW2
                      | some wr2 =>
                        .ok eiId (sW2.setE erInner { wr2 with size := wr2.size - 1, inner := some eiId })
                  match innerStep with
                  | .err e sX => .err e sX
                  | .ok eiId sX =>
                    match sX.getS cId with
                    | none => .err "dangling straight-bundle handle" sX
                    | some crC =>
                      let sY := sX.setS cId { crC with right := some eiId }
                      match sY.getE eiId with
                      | none => .err "dangling elbow-bundle handle" sY
                      | some eirC =>
                        let eir2 : EB :=
                          if eirC.left == some bId then { eirC with left := some cId }
                          else { eirC with right := some cId }
                        .ok () (sY.setE eiId eir2)

/-- The `while sb.size > 1: self.tear(sb)` loop of `unzip`, with fuel. -/
def tearLoop (bId : ℕ) : ℕ → CRS → MRes Unit
  | 0, s => .err "out of fuel" s
  | fuel + 1, s =>
    if 1 < sizeAtS s bId then
      match tearM fuel bId s with
      | .ok _ s2 => tearLoop bId fuel s2
      | .err e s2 => .err e s2
    else .ok () s

/-- The first phase of `unzip`: iterate over a snapshot of
`straight_bundles`, tearing each bundle down to one segment.  Each loop
gets fuel `size + 1`, which suffices because `tear` decrements the size. -/
def tearFold : List ℕ → CRS → MRes Unit
  | [], s => .ok () s
  | b :: rest, s =>
    match tearLoop b ((sizeAtS s b).toNat + 1) s with
    | .ok _ s2 => tearFold rest s2
    | .err e s2 => .err e s2

/-- The thickness-reseeding walk of `unzip` for one edge: starting after
the terminal bundle at `v1`, set `thickness` of every non-terminal bundle
along the edge to the edge thickness, alternating straight and elbow
bundles via `next`. -/
def resetWalk (T : ℚ) : ℕ → BRef → BRef → CRS → MRes Unit
  | 0, _, _, s => .err "out of fuel" s
  | fuel + 1, prev, cur, s =>
    match cur with
    | .s i =>
      match s.getS i with
      | none => .err "dangling straight-bundle handle" s
      | some r =>
        if r.is_terminal then .ok () s
        else
          let s2 := s.setS i { r with thickness := T }
          match prev with
          | .e pj =>
            (match r.nextEB pj with
            | .ok (some n) => resetWalk T fuel (.s i) (.e n) s2
            | .ok none => .err "attribute access on None" s2
            | .error e => .err e s2)
          | .s _ => .err "straight bundle is not connected to elbow bundle" s2
    | .e i =>
      match s.getE i with
      | none => .err "dangling elbow-bundle handle" s
      | some r =>
        if r.is_terminal then .ok () s
        else
          let s2 := s.setE i { r with thickness := T }
          match prev with
          | .s pj =>
            (match r.nextSB pj with
            | .ok (some n) => resetWalk T fuel (.e i) (.s n) s2
            | .ok none => .err "attribute access on None" s2
            | .error e => .err e s2)
          | .e _ => .err "elbow bundle is not connected to straight bundle" s2

/-- The second phase of `unzip`: for every instance edge, walk its bundle
chain from `elbow_bundle_v1` and reseed the thickness of each non-terminal
bundle. -/
def resetFold (fuel : ℕ) : List EdgeRec → CRS → MRes Unit
  | [], s => .ok () s
  | e :: rest, s =>
    match s.getE e.ebV1 with
    | none => .err "dangling elbow-bundle handle" s
    | some ebr =>
      match ebr.right with
      | none => .err "attribute access on None" s
      | some prevS =>
        match s.getS prevS with
        | none => .err "dangling straight-bundle handle" s
        | some psr =>
          match psr.right with
          | none => .err "attribute access on None" s
          | some curE =>
            match resetWalk e.thickness fuel (.s prevS) (.e curE) s with
            | .ok _ s2 => resetFold fuel rest s2
            | .err er s2 => .err er s2

/-- The layer-thickness recomputation of `unzip`: total the thickness
(half for terminal bundles) along an `inner` chain. -/
def chainSum (s : CRS) : ℕ → Option ℕ → ℚ → Except String ℚ
  | 0, _, _ => .error "out of fuel"
  | _, none, acc => .ok acc
  | fuel + 1, some i, acc =>
    match s.getE i with
    | none => .error "dangling elbow-bundle handle"
    | some r =>
      chainSum s fuel r.inner (acc + (if r.is_terminal then r.thickness / 2 else r.thickness))

/-- The third phase of `unzip`: recompute `layer_thickness` of every live
elbow bundle from its `inner` chain. -/
def layerFold (fuel : ℕ) : List ℕ → CRS → MRes Unit
  | [], s => .ok () s
  | i :: rest, s =>
    match s.getE i with
    | none => .err "dangling elbow-bundle handle" s
    | some r =>
      match chainSum s fuel r.inner 0 with
      | .ok v => layerFold fuel rest (s.setE i { r with layer_thickness := v })
      | .error e => .err e s

/-- The method `CompactRoutingStructure.unzip()`: tear every straight
bundle down to one segment, reseed per-edge thickness, then recompute all
layer thicknesses. -/
def unzipM (fuel : ℕ) (s : CRS) : MRes Unit :=
  match tearFold s.sL s with
  | .err e s2 => .err e s2
  | .ok _ s2 =>
    match resetFold fuel s2.edges s2 with
    | .err e s3 => .err e s3
    | .ok _ s3 => layerFold fuel s3.eL s3

/-- One iteration of the main loop of
`GrowingAlgorithm.compute_thick_edges` on a popped event: the stale-event
branch re-derives certificates for surviving bundles without mutating the
structure; otherwise the split or merge is executed and certificates are
re-derived for the bundles it produced or touched.  The returned list
records the `update_queue(b, t)` requests in call order. -/
def loopBody (O : Orc) (fuel : ℕ) (s : CRS) (ev : GEvent) : MRes (List (BRef × ℚ)) :=
  let stale : Except String Bool :=
    if ev.refs.any (fun b => !(s.containsB b)) then .ok true
    else (evIsValid O s ev).map (fun v => !v)
  match stale with
  | .error e => .err e s
  | .ok true => .ok ((ev.refs.filter s.containsB).map (fun b => (b, ev.time))) s
  | .ok false =>
    match ev with
    | .splitEv t sbId ebId =>
      match splitM O fuel sbId ebId t s with
      | .ok (i1, i2, i3) s2 => .ok [(.e ebId, t), (.s i1, t), (.e i2, t), (.s i3, t)] s2
      | .err e s2 => .err e s2
    | .mergeEv t ebId =>
      match s.getE ebId with
      | none => .err "dangling elbow-bundle handle" s
      | some eb =>
        match eb.left, eb.right with
        | some l, some r =>
          (match mergeM fuel l ebId r s with
          | .ok sbId s2 => .ok [(.s sbId, t)] s2
          | .err e s2 => .err e s2)
        | _, _ => .err "attribute access on None" s

/-- A concrete oracle for evaluating the geometry on the example states:
exact square roots for the squared distances that occur, `cos 0 = 1`,
`sin 0 = 0`, and the rational point `(3/5, 4/5)` on the unit circle for
every other angle. -/
def Oex : Orc :=
  { sqrt := fun q => if q == 36 then 6 else if q == 49 then 7 else if q == 25 then 5 else if q == 1 then 1 else 0,
    sin := fun q => if q == 0 then 0 else 4 / 5,
    cos := fun q => if q == 0 then 1 else 3 / 5,
    asin := fun _ => 0,
    atan2 := fun _ _ => 0 }

/-- The compact routing structure freshly constructed for one edge from
vertex `(0,0)` to vertex `(6,0)` with thickness 1, plus one point obstacle
at `(3,5)`: one terminal straight bundle and three terminal elbow
bundles. -/
def ex1 : CRS :=
  { sA := [(0, { left := some 0, right := some 1, size := 1, thickness := 1, is_terminal := true })],
    eA :=
      [(0, { ptId := 0, pt := ⟨0, 0⟩, left := some 0, right := some 0, inner := none, size := 1, thickness := 1, layer_thickness := 0, is_terminal := true, orientation := 0 }),
       (1, { ptId := 1, pt := ⟨6, 0⟩, left := some 0, right := some 0, inner := none, size := 1, thickness := 1, layer_thickness := 0, is_terminal := true, orientation := 0 }),
       (2, { ptId := 2, pt := ⟨3, 5⟩, left := none, right := none, inner := none, size := 1, thickness := 0, layer_thickness := 0, is_terminal := true, orientation := 0 })],
    sL := [0], eL := [0, 1, 2], edges := [{ thickness := 1, ebV1 := 0 }], fresh := 3 }

/-- A structure where straight bundle 0 runs between the two terminal
elbows at points 0 and 1, and a non-terminal elbow bundle 2 bends around
point 0 between two further straight bundles: bundle 0 is associated with
elbow 2's point but not adjacent to it. -/
def ex4 : CRS :=
  { sA :=
      [(0, { left := some 0, right := some 1, size := 1, thickness := 1, is_terminal := true }),
       (1, { left := some 3, right := some 2, size := 1, thickness := 1 / 4, is_terminal := true }),
       (2, { left := some 2, right := some 4, size := 1, thickness := 1 / 4, is_terminal := true })],
    eA :=
      [(0, { ptId := 0, pt := ⟨0, 0⟩, left := some 0, right := some 0, inner := none, size := 1, thickness := 1, layer_thickness := 0, is_terminal := true, orientation := 0 }),
       (1, { ptId := 1, pt := ⟨6, 0⟩, left := some 0, right := some 0, inner := none, size := 1, thickness := 1, layer_thickness := 0, is_terminal := true, orientation := 0 }),
       (2, { ptId := 0, pt := ⟨0, 0⟩, left := some 1, right := some 2, inner := none, size := 1, thickness := 1 / 4, layer_thickness := 0, is_terminal := false, orientation := 1 }),
       (3, { ptId := 2, pt := ⟨0, -7⟩, left := some 1, right := some 1, inner := none, size := 1, thickness := 1 / 4, layer_thickness := 0, is_terminal := true, orientation := 0 }),
       (4, { ptId := 3, pt := ⟨3, -4⟩, left := some 2, right := some 2, inner := none, size := 1, thickness := 1 / 4, layer_thickness := 0, is_terminal := true, orientation := 0 })],
    sL := [0, 1, 2], eL := [0, 1, 2, 3, 4], edges := [], fresh := 5 }

/-- Two non-terminal straight bundles with no endpoint in common (bundle 0
between points 0 and 1, bundle 1 between points 2 and 3): the mismatched
input for `union`. -/
def ex6 : CRS :=
  { sA :=
      [(0, { left := some 0, right := some 1, size := 1, thickness := 1, is_terminal := false }),
       (1, { left := some 2, right := some 3, size := 1, thickness := 2, is_terminal := false })],
    eA :=
      [(0, { ptId := 0, pt := ⟨0, 0⟩, left := some 0, right := some 0, inner := none, size := 1, thickness := 1, layer_thickness := 0, is_terminal := true, orientation := 0 }),
       (1, { ptId := 1, pt := ⟨1, 0⟩, left := some 0, right := some 0, inner := none, size := 1, thickness := 1, layer_thickness := 0, is_terminal := true, orientation := 0 }),
       (2, { ptId := 2, pt := ⟨5, 5⟩, left := some 1, right := some 1, inner := none, size := 1, thickness := 2, layer_thickness := 0, is_terminal := true, orientation := 0 }),
       (3, { ptId := 3, pt := ⟨6, 5⟩, left := some 1, right := some 1, inner := none, size := 1, thickness := 2, layer_thickness := 0, is_terminal := true, orientation := 0 })],
    sL := [0, 1], eL := [0, 1, 2, 3], edges := [], fresh := 4 }

/-- Two non-terminal elbow bundles around the same point with elbow 1
nested directly inside elbow 0: a live input for the elbow case of
`union`. -/
def exU : CRS :=
  { sA := [],
    eA :=
      [(0, { ptId := 0, pt := ⟨0, 0⟩, left := some 0, right := some 0, inner := some 1, size := 2, thickness := 3, layer_thickness := 5, is_terminal := false, orientation := 1 }),
       (1, { ptId := 0, pt := ⟨0, 0⟩, left := some 0, right := some 0, inner := none, size := 1, thickness := 2, layer_thickness := 0, is_terminal := false, orientation := 1 })],
    sL := [], eL := [0, 1], edges := [], fresh := 2 }

/-- A straight bundle 0 of size 2 flanked by elbow bundles of size 1 on
each side (with one further elbow nested inside each): a live input for
`divide(sb 0, eb 1)`. -/
def exD : CRS :=
  { sA := [(0, { left := some 1, right := some 3, size := 2, thickness := 2, is_terminal := false })],
    eA :=
      [(1, { ptId := 0, pt := ⟨0, 0⟩, left := some 0, right := some 0, inner := some 2, size := 1, thickness := 1, layer_thickness := 1, is_terminal := false, orientation := 1 }),
       (2, { ptId := 0, pt := ⟨0, 0⟩, left := some 0, right := none, inner := none, size := 1, thickness := 1, layer_thickness := 0, is_terminal := false, orientation := 1 }),
       (3, { ptId := 1, pt := ⟨4, 0⟩, left := none, right := some 0, inner := some 4, size := 1, thickness := 1, layer_thickness := 1, is_terminal := false, orientation := 1 }),
       (4, { ptId := 1, pt := ⟨4, 0⟩, left := some 0, right := none, inner := none, size := 1, thickness := 1, layer_thickness := 0, is_terminal := false, orientation := 1 })],
    sL := [0], eL := [1, 2, 3, 4], edges := [], fresh := 5 }

/-- A degenerate elbow bundle 1 between straight bundles 0 and 1 of equal
size, with a terminal elbow on each far side: a live input for
`merge(sb 0, eb 1, sb 1)`. -/
def exM : CRS :=
  { sA :=
      [(0, { left := some 0, right := some 1, size := 1, thickness := 1, is_terminal := false }),
       (1, { left := some 1, right := some 2, size := 1, thickness := 1, is_terminal := false })],
    eA :=
      [(0, { ptId := 0, pt := ⟨0, 0⟩, left := some 0, right := some 0, inner := none, size := 1, thickness := 1, layer_thickness := 0, is_terminal := true, orientation := 0 }),
       (1, { ptId := 1, pt := ⟨2, 0⟩, left := some 0, right := some 1, inner := none, size := 1, thickness := 1, layer_thickness := 0, is_terminal := false, orientation := 1 }),
       (2, { ptId := 2, pt := ⟨4, 0⟩, left := some 1, right := some 1, inner := none, size := 1, thickness := 1, layer_thickness := 0, is_terminal := true, orientation := 0 })],
    sL := [0, 1], eL := [0, 1, 2], edges := [], fresh := 3 }

/-- A single-edge structure with all bundles already of size 1, used to
exercise `unzip`. -/
def exW : CRS :=
  { sA := [(0, { left := some 0, right := some 1, size := 1, thickness := 1, is_terminal := true })],
    eA :=
      [(0, { ptId := 0, pt := ⟨0, 0⟩, left := some 0, right := some 0, inner := none, size := 1, thickness := 1, layer_thickness := 0, is_terminal := true, orientation := 0 }),
       (1, { ptId := 1, pt := ⟨6, 0⟩, left := some 0, right := some 0, inner := none, size := 1, thickness := 1, layer_thickness := 0, is_terminal := true, orientation := 0 })],
    sL := [0], eL := [0, 1], edges := [{ thickness := 1, ebV1 := 0 }], fresh := 2 }

/-- A single edge of thickness 2 whose three bundles all have size 2: a
live input on which `unzip` does real work (tearing each bundle down to
size 1 and recomputing layer thicknesses). -/
def exZ : CRS :=
  { sA := [(0, { left := some 0, right := some 1, size := 2, thickness := 2, is_terminal := true })],
    eA :=
      [(0, { ptId := 0, pt := ⟨0, 0⟩, left := some 0, right := some 0, inner := none, size := 2, thickness := 2, layer_thickness := 0, is_terminal := true, orientation := 0 }),
       (1, { ptId := 1, pt := ⟨6, 0⟩, left := some 0, right := some 0, inner := none, size := 2, thickness := 2, layer_thickness := 0, is_terminal := true, orientation := 0 })],
    sL := [0], eL := [0, 1], edges := [{ thickness := 2, ebV1 := 0 }], fresh := 2 }

/-- All fields of a straight-bundle record except `thickness` (the only
field the reseeding phase of `unzip` writes). -/
def sbSkel (a : SB) : Option ℕ × Option ℕ × ℤ × Bool := (a.left, a.right, a.size, a.is_terminal)

/-- All fields of an elbow-bundle record except `thickness` and
`layer_thickness` (the fields the last two phases of `unzip` write). -/
def ebSkel (a : EB) : ℕ × Pnt × Option ℕ × Option ℕ × Option ℕ × ℤ × Bool × ℕ :=
  (a.ptId, a.pt, a.left, a.right, a.inner, a.size, a.is_terminal, a.orientation)

/-- The straight arena with records reduced to their skeletons. -/
def sAsk (s : CRS) : List (ℕ × (Option ℕ × Option ℕ × ℤ × Bool)) :=
  s.sA.map (fun p => (p.1, sbSkel p.2))

/-- The elbow arena with records reduced to their skeletons. -/
def eAsk (s : CRS) : List (ℕ × (ℕ × Pnt × Option ℕ × Option ℕ × Option ℕ × ℤ × Bool × ℕ)) :=
  s.eA.map (fun p => (p.1, ebSkel p.2))

/-- Two states with the same shape: identical live lists, edges, fresh
counter and record skeletons; only thickness and layer-thickness values
may differ. -/
def SkelEq (s t : CRS) : Prop :=
  s.sL = t.sL ∧ s.eL = t.eL ∧ s.edges = t.edges ∧ s.fresh = t.fresh ∧
  sAsk s = sAsk t ∧ eAsk s = eAsk t

/-- A state evolution that only rewrites elbow layer thicknesses: the
skeleton, every straight record and every elbow thickness are untouched. -/
def LayOnly (s s2 : CRS) : Prop :=
  SkelEq s s2 ∧ (∀ j, s2.getS j = s.getS j) ∧
  ∀ j, (s2.getE j).map EB.thickness = (s.getE j).map EB.thickness

/-- Lockstep outcome of the layer-thickness recomputation on two states:
each elbow either carries the same layer thickness in both results, or was
never written and keeps its own original value on each side. -/
def LayAgree (s t s2 t2 : CRS) : Prop :=
  ∀ j, (s2.getE j).map EB.layer_thickness = (t2.getE j).map EB.layer_thickness ∨
    ((s2.getE j).map EB.layer_thickness = (s.getE j).map EB.layer_thickness ∧
     (t2.getE j).map EB.layer_thickness = (t.getE j).map EB.layer_thickness)

/-- A state evolution that only rewrites thickness values: the skeleton
and every layer thickness are untouched. -/
def ThickOnly (s s2 : CRS) : Prop :=
  SkelEq s s2 ∧
  ∀ j, (s2.getE j).map EB.layer_thickness = (s.getE j).map EB.layer_thickness

/-- Lockstep outcome of running the same thickness-reseeding walk on two
states: each bundle either carries the same thickness in both results, or
was never written and keeps its own original thickness on each side. -/
def ThickAgree (s t s2 t2 : CRS) : Prop :=
  (∀ j, (s2.getS j).map SB.thickness = (t2.getS j).map SB.thickness ∨
    ((s2.getS j).map SB.thickness = (s.getS j).map SB.thickness ∧
     (t2.getS j).map SB.thickness = (t.getS j).map SB.thickness)) ∧
  (∀ j, (s2.getE j).map EB.thickness = (t2.getE j).map EB.thickness ∨
    ((s2.getE j).map EB.thickness = (s.getE j).map EB.thickness ∧
     (t2.getE j).map EB.thickness = (t.getE j).map EB.thickness))

/-- Frame relation for the straight bundles across one `tear(b)` body:
the live straight list, every straight record other than `b` and the new
bundle `c`, and the sizes of `b` and `c` themselves are untouched (only
elbow records and links of `b` / `c` change). -/
def TFrame (b c : ℕ) (s s2 : CRS) : Prop :=
  s2.sL = s.sL ∧ s.fresh ≤ s2.fresh ∧
  (∀ j, j ≠ b → j ≠ c → s2.getS j = s.getS j) ∧
  ((s2.getS b).map SB.size = (s.getS b).map SB.size) ∧
  ((s2.getS c).map SB.size = (s.getS c).map SB.size) ∧
  (WF s → WF s2)

/-- The size, thickness and terminal flag of an elbow-bundle record: the
fields that the pure link-rewiring loops never touch. -/
def ebCore (r : EB) : ℤ × ℚ × Bool := (r.size, r.thickness, r.is_terminal)

/-- Relation between a state and its evolution under elbow-link-only
rewiring: the straight arena, live lists, fresh counter and elbow-arena
keys are untouched, and every elbow keeps its size, thickness and terminal
flag. -/
def LinkEvoE (s s2 : CRS) : Prop :=
  s2.sA = s.sA ∧ s2.sL = s.sL ∧ s2.eL = s.eL ∧ s2.fresh = s.fresh ∧
  s2.eA.map Prod.fst = s.eA.map Prod.fst ∧
  ∀ j, (s2.getE j).map ebCore = (s.getE j).map ebCore

/-- Every elbow bundle present in the arena occurs exactly once in the
live elbow list (no bundle has been `list.remove`d yet). -/
def LiveE (s : CRS) : Prop :=
  ∀ k ∈ s.eA.map Prod.fst, s.eL.count k = 1

instance (s : CRS) : Decidable (LiveE s) := by
  unfold LiveE
  infer_instance

lemma piF_pos : (0 : ℚ) < piF := by norm_num [piF]

lemma twoPiF_pos : (0 : ℚ) < twoPiF := by norm_num [twoPiF, piF]

lemma piF_lt_twoPiF : piF < twoPiF := by norm_num [twoPiF, piF]

lemma normLoopA_id (n : ℕ) (a : ℚ) (h : 0 ≤ a) : normLoopA n a = a := by
  cases n with
  | zero => rfl
  | succ n => simp [normLoopA, not_lt.mpr h]

lemma normLoopA_nonneg : ∀ (n : ℕ) (a : ℚ), ⌈-a / twoPiF⌉ < (n : ℤ) → 0 ≤ normLoopA n a := by
  intro n
  induction n with
  | zero =>
    intro a h
    have h2 : -a / twoPiF < 0 := lt_of_le_of_lt (Int.le_ceil _) (by exact_mod_cast h)
    have : 0 < a := by
      by_contra hc
      push_neg at hc
      exact absurd (div_nonneg (by linarith) twoPiF_pos.le) (not_le.mpr h2)
    simpa [normLoopA] using this.le
  | succ n ih =>
    intro a h
    by_cases ha : a < 0
    · have hstep : ⌈-(a + twoPiF) / twoPiF⌉ = ⌈-a / twoPiF⌉ - 1 := by
        have : -(a + twoPiF) / twoPiF = -a / twoPiF - 1 := by
          rw [neg_add, add_div, neg_div twoPiF twoPiF, div_self twoPiF_pos.ne']
          ring
        rw [this, Int.ceil_sub_one]
      have := ih (a + twoPiF) (by rw [hstep]; omega)
      simpa [normLoopA, ha] using this
    · push_neg at ha
      simpa [normLoopA, not_lt.mpr ha] using ha

lemma normLoopB_le : ∀ (n : ℕ) (b : ℚ), ⌈b / twoPiF⌉ - 1 < (n : ℤ) → normLoopB n b ≤ twoPiF := by
  intro n
  induction n with
  | zero =>
    intro b h
    have h2 : ⌈b / twoPiF⌉ ≤ 0 := by exact_mod_cast by omega
    have h3 : b / twoPiF ≤ 0 := le_trans (Int.le_ceil _) (by exact_mod_cast h2)
    have : b ≤ 0 := by
      by_contra hc
      push_neg at hc
      exact absurd (div_pos hc twoPiF_pos) (not_lt.mpr h3)
    exact le_trans this twoPiF_pos.le
  | succ n ih =>
    intro b h
    by_cases hb : twoPiF < b
    · have hstep : ⌈(b - twoPiF) / twoPiF⌉ = ⌈b / twoPiF⌉ - 1 := by
        have : (b - twoPiF) / twoPiF = b / twoPiF - 1 := by
          rw [sub_div, div_self twoPiF_pos.ne']
        rw [this, Int.ceil_sub_one]
      have := ih (b - twoPiF) (by rw [hstep]; push_cast at h ⊢; omega)
      simpa [normLoopB, hb] using this
    · push_neg at hb
      simpa [normLoopB, not_lt.mpr hb] using hb

lemma normLoopB_nonneg : ∀ (n : ℕ) (b : ℚ), 0 ≤ b → 0 ≤ normLoopB n b := by
  intro n
  induction n with
  | zero => intro b h; simpa [normLoopB] using h
  | succ n ih =>
    intro b h
    by_cases hb : twoPiF < b
    · exact by simpa [normLoopB, hb] using ih (b - twoPiF) (by linarith [twoPiF_pos])
    · simpa [normLoopB, hb] using h

lemma normLoopB_id (n : ℕ) (b : ℚ) (h : b ≤ twoPiF) : normLoopB n b = b := by
  cases n with
  | zero => rfl
  | succ n => simp [normLoopB, not_lt.mpr h]

lemma ceil_lt_normFuel (a x : ℚ) (hx : x = -a / twoPiF ∨ x = a / twoPiF) :
    ⌈x⌉ < (normFuel a : ℤ) := by
  have hle : ⌈x⌉ ≤ max ⌈-a / twoPiF⌉ ⌈a / twoPiF⌉ := by
    rcases hx with h | h <;> simp [h, le_max_left, le_max_right]
  have h2 : max ⌈-a / twoPiF⌉ ⌈a / twoPiF⌉ ≤ ((max ⌈-a / twoPiF⌉ ⌈a / twoPiF⌉).toNat : ℤ) :=
    Int.self_le_toNat _
  have : ⌈x⌉ ≤ ((max ⌈-a / twoPiF⌉ ⌈a / twoPiF⌉).toNat : ℤ) := le_trans hle h2
  unfold normFuel
  push_cast
  omega

lemma normalize_angle_nonneg (a : ℚ) : 0 ≤ normalize_angle a := by
  unfold normalize_angle
  exact normLoopB_nonneg _ _ (normLoopA_nonneg _ _ (ceil_lt_normFuel a _ (Or.inl rfl)))

lemma normalize_angle_le (a : ℚ) : normalize_angle a ≤ twoPiF := by
  unfold normalize_angle
  exact normLoopB_le _ _ (by
    have := ceil_lt_normFuel (normLoopA (normFuel a) a) (normLoopA (normFuel a) a / twoPiF) (Or.inr rfl)
    omega)

lemma normalize_angle_lt_of_atan2_range (a : ℚ) (h1 : -piF < a) (h2 : a ≤ piF) :
    normalize_angle a < twoPiF := by
  unfold normalize_angle
  by_cases ha : 0 ≤ a
  · rw [normLoopA_id _ _ ha,
      normLoopB_id _ _ (le_trans h2 piF_lt_twoPiF.le)]
    exact lt_of_le_of_lt h2 piF_lt_twoPiF
  · push_neg at ha
    have hstep : normLoopA (normFuel a) a = a + twoPiF := by
      unfold normFuel
      simp only [normLoopA, ha, if_true]
      exact normLoopA_id _ _ (by nlinarith [piF_lt_twoPiF, piF_pos])
    rw [hstep]
    have hlt : a + twoPiF < twoPiF := by linarith
    rw [normLoopB_id _ _ hlt.le]
    exact hlt

/-- C8 (corrected): `angle(p, q)` built on an `atan2` with range
`(-pi, pi]` always lands in `[0, 2*pi)`, and `normalize_angle` always lands
in the closed interval `[0, 2*pi]`; the value `2*pi` itself is attainable
(see the counterexample), so the half-open claim fails for
`normalize_angle`. -/
theorem angle_range_amended :
    (∀ a : ℚ, 0 ≤ normalize_angle a ∧ normalize_angle a ≤ twoPiF) ∧
    (∀ (O : Orc) (p q : Pnt),
      (∀ y x : ℚ, -piF < O.atan2 y x ∧ O.atan2 y x ≤ piF) →
      0 ≤ angleO O p q ∧ angleO O p q < twoPiF) := by
  constructor
  · intro a
    exact ⟨normalize_angle_nonneg a, normalize_angle_le a⟩
  · intro O p q h
    refine ⟨normalize_angle_nonneg _, ?_⟩
    exact normalize_angle_lt_of_atan2_range _ (h _ _).1 (h _ _).2

/-- C8 counterexample: `normalize_angle` applied to exactly `2*pi` returns
`2*pi`, which is not in the half-open interval `[0, 2*pi)` the claim
demands. -/
theorem angle_range_cex :
    normalize_angle twoPiF = twoPiF ∧ ¬(normalize_angle twoPiF < twoPiF) := by
  have h : normalize_angle twoPiF = twoPiF := by
    unfold normalize_angle
    rw [normLoopA_id _ _ twoPiF_pos.le, normLoopB_id _ _ le_rfl]
  exact ⟨h, by rw [h]; exact lt_irrefl _⟩

/-- Witness for `angle_range_amended`: a concrete oracle whose `atan2`
satisfies the range hypothesis, evaluated at concrete points. -/
theorem angle_range_witness :
    (∀ y x : ℚ, -piF < Oex.atan2 y x ∧ Oex.atan2 y x ≤ piF) ∧
    (0 ≤ angleO Oex ⟨0, 0⟩ ⟨1, 0⟩ ∧ angleO Oex ⟨0, 0⟩ ⟨1, 0⟩ < twoPiF) := by
  have hr : ∀ y x : ℚ, -piF < Oex.atan2 y x ∧ Oex.atan2 y x ≤ piF := by
    intro y x
    constructor <;> simp [Oex] <;> norm_num [piF]
  exact ⟨hr, angle_range_amended.2 Oex ⟨0, 0⟩ ⟨1, 0⟩ hr⟩

/-- C3 (confirmed): the event comparison orders by increasing time, and at
equal time a merge event compares less than a split event while the split
event does not compare less than the merge event. -/
theorem event_order_merge_before_split :
    (∀ a b : GEvent, a.time < b.time → a.lt b = true ∧ b.lt a = false) ∧
    (∀ (t : ℚ) (sb eb ebm : ℕ),
      (GEvent.mergeEv t ebm).lt (GEvent.splitEv t sb eb) = true ∧
      (GEvent.splitEv t sb eb).lt (GEvent.mergeEv t ebm) = false) := by
  constructor
  · intro a b h
    constructor
    · simp [GEvent.lt, h]
    · simp [GEvent.lt, not_lt.mpr h.le, ne_of_gt h]
  · intro t sb eb ebm
    constructor
    · simp [GEvent.lt, GEvent.time, GEvent.isMergeEv]
    · simp [GEvent.lt, GEvent.time, GEvent.isMergeEv]

/-- Witness for `event_order_merge_before_split` at concrete events. -/
theorem event_order_witness :
    (GEvent.mergeEv 0 5).time < (GEvent.splitEv 1 2 3).time ∧
    ((GEvent.mergeEv 0 5).lt (GEvent.splitEv 1 2 3) = true ∧
      (GEvent.splitEv 1 2 3).lt (GEvent.mergeEv 0 5) = false) :=
  ⟨by decide, event_order_merge_before_split.1 _ _ (by decide)⟩

lemma binarySearchAux_spec (dt : ℚ) (hdt : 0 < dt) (f : ℚ → Bool) :
    ∀ (n i : ℕ) (cur : ℚ), f cur = true →
      f (binarySearchAux dt f i n cur) = true ∧
      binarySearchAux dt f i n cur ≤ cur ∧
      cur - dt / 2 ^ i < binarySearchAux dt f i n cur := by
  intro n
  induction n with
  | zero =>
    intro i cur hf
    refine ⟨hf, le_rfl, ?_⟩
    have : 0 < dt / 2 ^ i := div_pos hdt (by positivity)
    simp only [binarySearchAux]
    linarith
  | succ n ih =>
    intro i cur hf
    simp only [binarySearchAux]
    by_cases hc : f (cur - dt / 2 ^ (i + 1)) = true
    · rw [if_pos hc]
      obtain ⟨h1, h2, h3⟩ := ih (i + 1) _ hc
      have hpos : 0 < dt / 2 ^ (i + 1) := div_pos hdt (by positivity)
      have key : dt / 2 ^ (i + 1) + dt / 2 ^ (i + 1) = dt / 2 ^ i := by
        rw [div_add_div_same, pow_succ]
        rw [div_eq_div_iff (by positivity) (by positivity)]
        ring
      exact ⟨h1, le_trans h2 (by linarith), by linarith⟩
    · rw [if_neg hc]
      obtain ⟨h1, h2, h3⟩ := ih (i + 1) _ hf
      have hmono : dt / 2 ^ (i + 1) ≤ dt / 2 ^ i := by
        rw [div_le_div_iff (by positivity) (by positivity)]
        have h2pow : (2 : ℚ) ^ i ≤ 2 ^ (i + 1) := by
          rw [pow_succ]
          nlinarith [pow_pos (show (0 : ℚ) < 2 by norm_num) i]
        nlinarith [pow_pos (show (0 : ℚ) < 2 by norm_num) i]
      exact ⟨h1, h2, by linarith⟩

/-- C5 (confirmed): when the predicate holds at `start_time` and fails at
`start_time - dt`, the fixed-iteration bisection returns a time strictly
above the last-false sample, at most the first-true sample, and the
predicate holds at the returned time. -/
theorem binary_search_bounds (dt start : ℚ) (n : ℕ) (f : ℚ → Bool)
    (hdt : 0 < dt) (hstart : f start = true) (hfalse : f (start - dt) = false) :
    f (binarySearch dt start n f) = true ∧
    start - dt < binarySearch dt start n f ∧ binarySearch dt start n f ≤ start := by
  unfold binarySearch
  obtain ⟨h1, h2, h3⟩ := binarySearchAux_spec dt hdt f n 0 start hstart
  refine ⟨h1, by simpa using h3, h2⟩

unseal Rat.add Rat.sub Rat.mul Rat.inv in
/-- Witness for `binary_search_bounds` with the predicate `0 ≤ q`. -/
theorem binary_search_witness :
    ((0 : ℚ) < 1 ∧ (fun q : ℚ => decide (0 ≤ q)) 0 = true ∧
      (fun q : ℚ => decide (0 ≤ q)) ((0 : ℚ) - 1) = false) ∧
    ((fun q : ℚ => decide (0 ≤ q)) (binarySearch 1 0 5 (fun q : ℚ => decide (0 ≤ q))) = true ∧
      (0 : ℚ) - 1 < binarySearch 1 0 5 (fun q : ℚ => decide (0 ≤ q)) ∧
      binarySearch 1 0 5 (fun q : ℚ => decide (0 ≤ q)) ≤ 0) :=
  ⟨⟨by norm_num, by decide, by decide⟩,
    binary_search_bounds 1 0 5 (fun q : ℚ => decide (0 ≤ q)) (by norm_num) (by decide) (by decide)⟩

/-- C10 (confirmed): `tear` on a straight bundle of size 1 returns at once
and changes nothing: the whole structure state is returned unchanged. -/
theorem tear_singleton_noop (s : CRS) (b : ℕ) (r : SB) (fuel : ℕ)
    (h : s.getS b = some r) (hs : r.size = 1) : tearM fuel b s = .ok () s := by
  unfold tearM
  rw [h]
  simp [hs]

/-- Witness for `tear_singleton_noop` on a concrete structure. -/
theorem tear_singleton_witness :
    exW.getS 0 = some { left := some 0, right := some 1, size := 1, thickness := 1, is_terminal := true } ∧
    tearM 3 0 exW = .ok () exW :=
  ⟨by decide,
    tear_singleton_noop exW 0
      { left := some 0, right := some 1, size := 1, thickness := 1, is_terminal := true } 3
      (by decide) (by decide)⟩

lemma mergeSampleLoop_none (dt t : ℚ) (p : ℚ → Bool)
    (hp : ∀ k : ℕ, t + (k + 1) * dt ≤ 1 → p (t + (k + 1) * dt) = false) :
    ∀ (fuel k : ℕ), mergeSampleLoop dt p fuel (t + (k + 1) * dt) = none := by
  intro fuel
  induction fuel with
  | zero => intro k; rfl
  | succ fuel ih =>
    intro k
    unfold mergeSampleLoop
    by_cases hle : t + ((k : ℚ) + 1) * dt ≤ 1
    · rw [if_pos hle, hp k hle]
      have harg : t + ((k : ℚ) + 1) * dt + dt = t + (((k + 1 : ℕ) : ℚ) + 1) * dt := by
        push_cast
        ring
      simp only [Bool.false_eq_true, if_false]
      rw [harg]
      exact ih (k + 1)
    · rw [if_neg hle]

lemma splitSampleLoop_none (dt t bound : ℚ) (p : ℚ → Bool) (hb : bound ≤ 1)
    (hp : ∀ k : ℕ, t + (k + 1) * dt ≤ 1 → p (t + (k + 1) * dt) = false) :
    ∀ (fuel k : ℕ), splitSampleLoop dt p fuel (t + (k + 1) * dt) bound = none := by
  intro fuel
  induction fuel with
  | zero => intro k; rfl
  | succ fuel ih =>
    intro k
    unfold splitSampleLoop
    by_cases hle : t + ((k : ℚ) + 1) * dt ≤ bound
    · rw [if_pos hle, hp k (le_trans hle hb)]
      have harg : t + ((k : ℚ) + 1) * dt + dt = t + (((k + 1 : ℕ) : ℚ) + 1) * dt := by
        push_cast
        ring
      simp only [Bool.false_eq_true, if_false]
      rw [harg]
      exact ih (k + 1)
    · rw [if_neg hle]

lemma splitCandLoop_empty (dt t : ℚ) (connected : ℕ → Bool) (p : ℕ → ℚ → Bool) (fuel : ℕ) :
    ∀ (cands : List ℕ) (nst : ℚ), nst ≤ 1 →
      (∀ c ∈ cands, ∀ k : ℕ, t + (k + 1) * dt ≤ 1 → p c (t + (k + 1) * dt) = false) →
      splitCandLoop dt t connected p fuel cands (nst, []) = (nst, []) := by
  intro cands
  induction cands with
  | nil => intro nst _ _; rfl
  | cons c rest ih =>
    intro nst hn hp
    unfold splitCandLoop
    by_cases hc : connected c = true
    · rw [if_pos hc]
      exact ih nst hn (fun d hm => hp d (List.mem_cons_of_mem _ hm))
    · rw [if_neg hc]
      have hs : splitSampleLoop dt (p c) fuel (t + dt) nst = none := by
        have := splitSampleLoop_none dt t nst (p c) hn
          (hp c (List.mem_cons_self _ _)) fuel 0
        simpa using this
      rw [hs]
      exact ih nst hn (fun d hm => hp d (List.mem_cons_of_mem _ hm))

lemma computeNextSplitEvent_shape (dt t : ℚ) (bId : ℕ) (bs : Bool) (cands : List ℕ)
    (connected : ℕ → Bool) (p : ℕ → ℚ → Bool) (fuel : ℕ) (ev : GEvent)
    (h : computeNextSplitEvent dt t bId bs cands connected p fuel = some ev) :
    ev.isMergeEv = false := by
  unfold computeNextSplitEvent at h
  split at h
  · exact absurd h (by simp)
  · split at h
    · exact absurd h (by simp)
    · split at h <;> (simp only [Option.some.injEq] at h; subst h; rfl)

lemma computeNextMergeEvent_shape (dt t : ℚ) (bId : ℕ) (p : ℚ → Bool) (fuel : ℕ)
    (ev : GEvent) (h : computeNextMergeEvent dt t bId p fuel = some ev) :
    ev.isMergeEv = true := by
  unfold computeNextMergeEvent at h
  rcases Option.map_eq_some'.mp h with ⟨mt, _, h2⟩
  rw [← h2]
  rfl

/-- C7 (confirmed): when the split (resp. merge) predicate is true at no
sampled time `t + k*dt` inside `(t, 1]`, `update_queue` enqueues no split
(resp. merge) event; the function runs to completion and simply omits the
event. -/
theorem no_event_when_predicate_never_true
    (dt t : ℚ) (bId : ℕ) (bIsStraight bIsTerminal : Bool) (cands : List ℕ)
    (connected : ℕ → Bool) (splitsP : ℕ → ℚ → Bool) (mergesP : ℚ → Bool) (fuel : ℕ) :
    ((∀ c ∈ cands, ∀ k : ℕ, t + (k + 1) * dt ≤ 1 → splitsP c (t + (k + 1) * dt) = false) →
      (updateQueueEvents dt t bId bIsStraight bIsTerminal cands connected splitsP mergesP
        fuel).all (fun ev => ev.isMergeEv) = true) ∧
    ((∀ k : ℕ, t + (k + 1) * dt ≤ 1 → mergesP (t + (k + 1) * dt) = false) →
      (updateQueueEvents dt t bId bIsStraight bIsTerminal cands connected splitsP mergesP
        fuel).all (fun ev => !ev.isMergeEv) = true) := by
  constructor
  · intro hp
    have hse : computeNextSplitEvent dt t bId bIsStraight cands connected splitsP fuel = none := by
      unfold computeNextSplitEvent
      rw [splitCandLoop_empty dt t connected splitsP fuel cands 1 le_rfl hp]
    unfold updateQueueEvents
    rw [hse]
    cases hm : computeNextMergeEvent dt t bId mergesP fuel with
    | none => simp
    | some ev =>
      have hev := computeNextMergeEvent_shape dt t bId mergesP fuel ev hm
      simp [hev]
      intro x _ _ hx
      subst hx
      exact hev
  · intro hp
    have hms : computeNextMergeEvent dt t bId mergesP fuel = none := by
      unfold computeNextMergeEvent
      have := mergeSampleLoop_none dt t mergesP hp fuel 0
      simp only [Nat.cast_zero, zero_add, one_mul] at this
      rw [this]
      rfl
    unfold updateQueueEvents
    rw [hms]
    cases hse : computeNextSplitEvent dt t bId bIsStraight cands connected splitsP fuel with
    | none => simp
    | some ev =>
      have hev := computeNextSplitEvent_shape dt t bId bIsStraight cands connected
        splitsP fuel ev hse
      simp [hev]

/-- Witness for `no_event_when_predicate_never_true`: an empty candidate
list and an always-false merge predicate enqueue nothing. -/
theorem no_event_witness :
    (updateQueueEvents 1 0 7 false false [] (fun _ => false) (fun _ _ => false)
      (fun _ => false) 5).all (fun ev => ev.isMergeEv) = true ∧
    (updateQueueEvents 1 0 7 false false [] (fun _ => false) (fun _ _ => false)
      (fun _ => false) 5).all (fun ev => !ev.isMergeEv) = true :=
  ⟨(no_event_when_predicate_never_true 1 0 7 false false [] (fun _ => false)
      (fun _ _ => false) (fun _ => false) 5).1 (by simp),
    (no_event_when_predicate_never_true 1 0 7 false false [] (fun _ => false)
      (fun _ _ => false) (fun _ => false) 5).2 (fun _ _ => rfl)⟩

/-- C2 (confirmed): when a popped event references a bundle that is no
longer in the structure, or its validity predicate re-evaluates false, the
loop applies no mutation: the structure is returned unchanged and the only
effect is a fresh `update_queue` request for each referenced bundle still
present. -/
theorem stale_event_discard (O : Orc) (fuel : ℕ) (s : CRS) (ev : GEvent)
    (h : (∃ b ∈ ev.refs, s.containsB b = false) ∨ evIsValid O s ev = .ok false) :
    loopBody O fuel s ev =
      .ok ((ev.refs.filter s.containsB).map (fun b => (b, ev.time))) s := by
  unfold loopBody
  by_cases hany : ev.refs.any (fun b => !(s.containsB b)) = true
  · simp only [hany, if_true]
  · have hvalid : evIsValid O s ev = .ok false := by
      rcases h with ⟨b, hb, hc⟩ | hv
      · exact absurd (List.any_eq_true.mpr ⟨b, hb, by simp [hc]⟩) hany
      · exact hv
    simp only [Bool.not_eq_true] at hany
    simp only [hany, if_false, hvalid, Except.map]
    simp

unseal Rat.add Rat.sub Rat.mul Rat.inv in
/-- Witness for `stale_event_discard`: a split event referencing bundles
absent from the live lists is discarded without touching the structure. -/
theorem stale_event_witness :
    (∃ b ∈ (GEvent.splitEv 0 9 9).refs, ex1.containsB b = false) ∧
    loopBody Oex 3 ex1 (GEvent.splitEv 0 9 9) =
      .ok (((GEvent.splitEv 0 9 9).refs.filter ex1.containsB).map
        (fun b => (b, (GEvent.splitEv 0 9 9).time))) ex1 :=
  ⟨by decide, stale_event_discard Oex 3 ex1 (GEvent.splitEv 0 9 9) (Or.inl (by decide))⟩

/-- C4 (corrected): `SplitEvent.is_valid` (that is, `eb.splits(sb, t)`)
returns true iff `sb` is *not associated with eb's point* (a strictly
stronger guard than mere non-adjacency) and the swept rectangle of `sb`
properly intersects the annular wedge of `eb`; and a merely tangent
segment-circle contact (zero discriminant) is never reported as a proper
intersection. -/
theorem split_event_validity_amended :
    (∀ (O : Orc) (s : CRS) (t : ℚ) (ebId sbId : ℕ) (eb : EB) (sb : SB) (A : Bool),
      s.getE ebId = some eb → s.getS sbId = some sb →
      s.sbAssoc sb eb.ptId = .ok A →
      (ebSplits O s ebId sbId t = .ok true ↔
        (A = false ∧ properWedgeHit O s ebId sbId t = .ok true))) ∧
    (∀ (O : Orc) (p q c : Pnt) (radius la ra : ℚ),
      O.sqrt 0 = 0 →
      (q.x - p.x) ^ 2 + (q.y - p.y) ^ 2 ≠ 0 →
      (2 * ((q.x - p.x) * (p.x - c.x) + (q.y - p.y) * (p.y - c.y))) ^ 2 -
        4 * ((q.x - p.x) ^ 2 + (q.y - p.y) ^ 2) *
          ((p.x - c.x) ^ 2 + (p.y - c.y) ^ 2 - radius ^ 2) = 0 →
      segArcIntersection O p q c radius la ra true = .ok false) := by
  constructor
  · intro O s t ebId sbId eb sb A hE hS hA
    unfold ebSplits
    rw [hE, hS]
    simp only [bind, Except.bind, hA]
    cases A with
    | true => simp [pure, Except.pure]
    | false => simp
  · intro O p q c radius la ra hsq hA hdisc
    unfold segArcIntersection
    simp only
    rw [hdisc]
    have hA2 : ((q.x - p.x) ^ 2 + (q.y - p.y) ^ 2 == 0) = false := by
      simp [hA]
    simp [hA2, hsq, hA]

set_option maxRecDepth 8000 in
unseal Rat.add Rat.sub Rat.mul Rat.inv in
/-- C4 counterexample: in `ex4`, straight bundle 0 is not adjacent to
elbow bundle 2 and the proper rectangle/wedge intersection check succeeds,
yet `splits` (hence `SplitEvent.is_valid`) returns false, because bundle 0
is associated with elbow 2's point.  The claim's "the two not already
being adjacent" does not match the code's point-association guard. -/
theorem split_event_validity_cex :
    ebSplits Oex ex4 2 0 (1 / 2) = .ok false ∧
    ((ex4.getS 0).map (fun r => r.conn 2)) = some false ∧
    properWedgeHit Oex ex4 2 0 (1 / 2) = .ok true := by
  refine ⟨?_, by decide, ?_⟩ <;> decide

set_option maxRecDepth 4000 in
unseal Rat.add Rat.sub Rat.mul Rat.inv in
/-- Witness for `split_event_validity_amended`, instantiating both parts
at concrete data: the association guard of `ex4` and an exactly tangent
line/circle contact. -/
theorem split_event_validity_witness :
    (ex4.getE 2 = some { ptId := 0, pt := ⟨0, 0⟩, left := some 1, right := some 2, inner := none, size := 1, thickness := 1 / 4, layer_thickness := 0, is_terminal := false, orientation := 1 } ∧
      ex4.getS 0 = some { left := some 0, right := some 1, size := 1, thickness := 1, is_terminal := true } ∧
      (ebSplits Oex ex4 2 0 (1 / 2) = .ok true ↔
        (true = false ∧ properWedgeHit Oex ex4 2 0 (1 / 2) = .ok true))) ∧
    (Oex.sqrt 0 = 0 ∧
      segArcIntersection Oex ⟨0, 1⟩ ⟨2, 1⟩ ⟨1, 0⟩ 1 0 0 true = .ok false) := by
  constructor
  · refine ⟨by decide, by decide, ?_⟩
    exact split_event_validity_amended.1 Oex ex4 (1 / 2) 2 0
      { ptId := 0, pt := ⟨0, 0⟩, left := some 1, right := some 2, inner := none, size := 1, thickness := 1 / 4, layer_thickness := 0, is_terminal := false, orientation := 1 }
      { left := some 0, right := some 1, size := 1, thickness := 1, is_terminal := true }
      true (by decide) (by decide) (by decide)
  · refine ⟨by decide, ?_⟩
    exact split_event_validity_amended.2 Oex ⟨0, 1⟩ ⟨2, 1⟩ ⟨1, 0⟩ 1 0 0 (by decide)
      (by norm_num) (by norm_num)

lemma aGet_aSet {α : Type} (l : List (ℕ × α)) (i j : ℕ) (v : α) :
    aGet (aSet l i v) j = if j = i then (aGet l i).map (fun _ => v) else aGet l j := by
  induction l with
  | nil => by_cases h : j = i <;> simp [aGet, aSet, h]
  | cons p rest ih =>
    obtain ⟨k, a⟩ := p
    show aGet ((if k = i then (i, v) else (k, a)) :: aSet rest i v) j = _
    by_cases hki : k = i
    · rw [if_pos hki]
      subst hki
      by_cases hkj : k = j
      · subst hkj
        simp [aGet]
      · have hjk : ¬ j = k := fun h => hkj h.symm
        simp only [aGet, hkj, if_false, ih, hjk]
    · rw [if_neg hki]
      by_cases hkj : k = j
      · subst hkj
        have hji : ¬ k = i := hki
        simp [aGet, hji]
      · have hjk : ¬ j = k := fun h => hkj h.symm
        simp only [aGet, hkj, if_false, ih]
        by_cases hji : j = i
        · subst hji
          simp [aGet, hkj]
        · simp [hji]

lemma getS_setS_self (s : CRS) (i : ℕ) (v r : SB) (h : s.getS i = some r) :
    (s.setS i v).getS i = some v := by
  simp only [CRS.getS, CRS.setS, aGet_aSet, if_pos rfl]
  rw [show aGet s.sA i = some r from h]
  rfl

lemma getS_setS_ne (s : CRS) (i j : ℕ) (v : SB) (h : j ≠ i) :
    (s.setS i v).getS j = s.getS j := by
  simp [CRS.getS, CRS.setS, aGet_aSet, h]

lemma getE_setE_self (s : CRS) (i : ℕ) (v r : EB) (h : s.getE i = some r) :
    (s.setE i v).getE i = some v := by
  simp only [CRS.getE, CRS.setE, aGet_aSet, if_pos rfl]
  rw [show aGet s.eA i = some r from h]
  rfl

lemma getE_setE_ne (s : CRS) (i j : ℕ) (v : EB) (h : j ≠ i) :
    (s.setE i v).getE j = s.getE j := by
  simp [CRS.getE, CRS.setE, aGet_aSet, h]

lemma getE_setS (s : CRS) (i j : ℕ) (v : SB) : (s.setS i v).getE j = s.getE j := rfl

lemma getS_setE (s : CRS) (i j : ℕ) (v : EB) : (s.setE i v).getS j = s.getS j := rfl

lemma sum_map_size_setS (s : CRS) (i : ℕ) (v r : SB) (h : s.getS i = some r) :
    ∀ l : List ℕ, (l.map (sizeAtS (s.setS i v))).sum =
      (l.map (sizeAtS s)).sum + (l.count i : ℤ) * (v.size - r.size) := by
  intro l
  induction l with
  | nil => simp
  | cons j rest ih =>
    by_cases hj : j = i
    · subst hj
      simp only [List.map_cons, List.sum_cons, ih, List.count_cons_self]
      have hv : sizeAtS (s.setS j v) j = v.size := by
        simp [sizeAtS, getS_setS_self s j v r h]
      have hr : sizeAtS s j = r.size := by simp [sizeAtS, h]
      rw [hv, hr]
      push_cast
      ring
    · simp only [List.map_cons, List.sum_cons, ih, List.count_cons_of_ne (Ne.symm hj)]
      have hv : sizeAtS (s.setS i v) j = sizeAtS s j := by
        simp [sizeAtS, getS_setS_ne s i j v hj]
      rw [hv]
      ring

lemma sum_map_thick_setS (s : CRS) (i : ℕ) (v r : SB) (h : s.getS i = some r) :
    ∀ l : List ℕ, (l.map (thickAtS (s.setS i v))).sum =
      (l.map (thickAtS s)).sum + (l.count i : ℚ) * (v.thickness - r.thickness) := by
  intro l
  induction l with
  | nil => simp
  | cons j rest ih =>
    by_cases hj : j = i
    · subst hj
      simp only [List.map_cons, List.sum_cons, ih, List.count_cons_self]
      have hv : thickAtS (s.setS j v) j = v.thickness := by
        simp [thickAtS, getS_setS_self s j v r h]
      have hr : thickAtS s j = r.thickness := by simp [thickAtS, h]
      rw [hv, hr]
      push_cast
      ring
    · simp only [List.map_cons, List.sum_cons, ih, List.count_cons_of_ne (Ne.symm hj)]
      have hv : thickAtS (s.setS i v) j = thickAtS s j := by
        simp [thickAtS, getS_setS_ne s i j v hj]
      rw [hv]
      ring

lemma sum_map_size_setE (s : CRS) (i : ℕ) (v r : EB) (h : s.getE i = some r) :
    ∀ l : List ℕ, (l.map (sizeAtE (s.setE i v))).sum =
      (l.map (sizeAtE s)).sum + (l.count i : ℤ) * (v.size - r.size) := by
  intro l
  induction l with
  | nil => simp
  | cons j rest ih =>
    by_cases hj : j = i
    · subst hj
      simp only [List.map_cons, List.sum_cons, ih, List.count_cons_self]
      have hv : sizeAtE (s.setE j v) j = v.size := by
        simp [sizeAtE, getE_setE_self s j v r h]
      have hr : sizeAtE s j = r.size := by simp [sizeAtE, h]
      rw [hv, hr]
      push_cast
      ring
    · simp only [List.map_cons, List.sum_cons, ih, List.count_cons_of_ne (Ne.symm hj)]
      have hv : sizeAtE (s.setE i v) j = sizeAtE s j := by
        simp [sizeAtE, getE_setE_ne s i j v hj]
      rw [hv]
      ring

lemma sum_map_thick_setE (s : CRS) (i : ℕ) (v r : EB) (h : s.getE i = some r) :
    ∀ l : List ℕ, (l.map (thickAtE (s.setE i v))).sum =
      (l.map (thickAtE s)).sum + (l.count i : ℚ) * (v.thickness - r.thickness) := by
  intro l
  induction l with
  | nil => simp
  | cons j rest ih =>
    by_cases hj : j = i
    · subst hj
      simp only [List.map_cons, List.sum_cons, ih, List.count_cons_self]
      have hv : thickAtE (s.setE j v) j = v.thickness := by
        simp [thickAtE, getE_setE_self s j v r h]
      have hr : thickAtE s j = r.thickness := by simp [thickAtE, h]
      rw [hv, hr]
      push_cast
      ring
    · simp only [List.map_cons, List.sum_cons, ih, List.count_cons_of_ne (Ne.symm hj)]
      have hv : thickAtE (s.setE i v) j = thickAtE s j := by
        simp [thickAtE, getE_setE_ne s i j v hj]
      rw [hv]
      ring

lemma totalSize_setS (s : CRS) (i : ℕ) (v r : SB) (h : s.getS i = some r) :
    totalSize (s.setS i v) = totalSize s + (s.sL.count i : ℤ) * (v.size - r.size) := by
  unfold totalSize
  have he : ∀ j, sizeAtE (s.setS i v) j = sizeAtE s j := fun j => by
    simp [sizeAtE, getE_setS]
  have hmape : (s.setS i v).eL.map (sizeAtE (s.setS i v)) = s.eL.map (sizeAtE s) := by
    have : (s.setS i v).eL = s.eL := rfl
    rw [this]
    exact List.map_congr_left fun j _ => he j
  have hsl : (s.setS i v).sL = s.sL := rfl
  rw [hmape, hsl, sum_map_size_setS s i v r h]
  ring

lemma totalThick_setS (s : CRS) (i : ℕ) (v r : SB) (h : s.getS i = some r) :
    totalThick (s.setS i v) = totalThick s + (s.sL.count i : ℚ) * (v.thickness - r.thickness) := by
  unfold totalThick
  have hmape : (s.setS i v).eL.map (thickAtE (s.setS i v)) = s.eL.map (thickAtE s) := by
    exact List.map_congr_left fun j _ => by simp [thickAtE, getE_setS]
  have hsl : (s.setS i v).sL = s.sL := rfl
  rw [hmape, hsl, sum_map_thick_setS s i v r h]
  ring

lemma totalSize_setE (s : CRS) (i : ℕ) (v r : EB) (h : s.getE i = some r) :
    totalSize (s.setE i v) = totalSize s + (s.eL.count i : ℤ) * (v.size - r.size) := by
  unfold totalSize
  have hmaps : (s.setE i v).sL.map (sizeAtS (s.setE i v)) = s.sL.map (sizeAtS s) := by
    exact List.map_congr_left fun j _ => by simp [sizeAtS, getS_setE]
  have hel : (s.setE i v).eL = s.eL := rfl
  rw [hmaps, hel, sum_map_size_setE s i v r h]
  ring

lemma totalThick_setE (s : CRS) (i : ℕ) (v r : EB) (h : s.getE i = some r) :
    totalThick (s.setE i v) = totalThick s + (s.eL.count i : ℚ) * (v.thickness - r.thickness) := by
  unfold totalThick
  have hmaps : (s.setE i v).sL.map (thickAtS (s.setE i v)) = s.sL.map (thickAtS s) := by
    exact List.map_congr_left fun j _ => by simp [thickAtS, getS_setE]
  have hel : (s.setE i v).eL = s.eL := rfl
  rw [hmaps, hel, sum_map_thick_setE s i v r h]
  ring

lemma totals_setS_links (s : CRS) (i : ℕ) (v r : SB) (h : s.getS i = some r)
    (hsz : v.size = r.size) (hth : v.thickness = r.thickness) :
    totalSize (s.setS i v) = totalSize s ∧ totalThick (s.setS i v) = totalThick s := by
  rw [totalSize_setS s i v r h, totalThick_setS s i v r h, hsz, hth]
  simp

lemma totals_setE_links (s : CRS) (i : ℕ) (v r : EB) (h : s.getE i = some r)
    (hsz : v.size = r.size) (hth : v.thickness = r.thickness) :
    totalSize (s.setE i v) = totalSize s ∧ totalThick (s.setE i v) = totalThick s := by
  rw [totalSize_setE s i v r h, totalThick_setE s i v r h, hsz, hth]
  simp

lemma aGet_append_of_ne {α : Type} (l : List (ℕ × α)) (f j : ℕ) (v : α) (hj : j ≠ f) :
    aGet (l ++ [(f, v)]) j = aGet l j := by
  induction l with
  | nil =>
    simp only [List.nil_append, aGet]
    rw [if_neg (fun h => hj h.symm)]
  | cons p rest ih =>
    obtain ⟨k, a⟩ := p
    by_cases hk : k = j <;> simp [aGet, hk, ih]

lemma aGet_append_fresh {α : Type} (l : List (ℕ × α)) (f : ℕ) (v : α)
    (hf : ∀ p ∈ l, p.1 ≠ f) : aGet (l ++ [(f, v)]) f = some v := by
  induction l with
  | nil => simp [aGet]
  | cons p rest ih =>
    obtain ⟨k, a⟩ := p
    have hk : k ≠ f := hf (k, a) (List.mem_cons_self _ _)
    simp only [List.cons_append, aGet, hk, if_false]
    exact ih (fun p hp => hf p (List.mem_cons_of_mem _ hp))

lemma getS_newS_old (s : CRS) (v : SB) (j : ℕ) (hj : j ≠ s.fresh) :
    (s.newS v).2.getS j = s.getS j := aGet_append_of_ne _ _ _ _ hj

lemma getS_newS_fresh (s : CRS) (v : SB) (hA : ∀ p ∈ s.sA, p.1 < s.fresh) :
    (s.newS v).2.getS s.fresh = some v :=
  aGet_append_fresh _ _ _ (fun p hp => (hA p hp).ne)

lemma getE_newE_old (s : CRS) (v : EB) (j : ℕ) (hj : j ≠ s.fresh) :
    (s.newE v).2.getE j = s.getE j := aGet_append_of_ne _ _ _ _ hj

lemma getE_newE_fresh (s : CRS) (v : EB) (hA : ∀ p ∈ s.eA, p.1 < s.fresh) :
    (s.newE v).2.getE s.fresh = some v :=
  aGet_append_fresh _ _ _ (fun p hp => (hA p hp).ne)

lemma totals_newS (s : CRS) (v : SB) (hA : ∀ p ∈ s.sA, p.1 < s.fresh)
    (hL : ∀ j ∈ s.sL, j < s.fresh) :
    totalSize (s.newS v).2 = totalSize s + v.size ∧
    totalThick (s.newS v).2 = totalThick s + v.thickness := by
  unfold totalSize totalThick
  have hsl : (s.newS v).2.sL = s.sL ++ [s.fresh] := rfl
  have hszmap : s.sL.map (sizeAtS (s.newS v).2) = s.sL.map (sizeAtS s) :=
    List.map_congr_left fun j hj => by
      simp [sizeAtS, getS_newS_old s v j (hL j hj).ne]
  have hthmap : s.sL.map (thickAtS (s.newS v).2) = s.sL.map (thickAtS s) :=
    List.map_congr_left fun j hj => by
      simp [thickAtS, getS_newS_old s v j (hL j hj).ne]
  have hszf : sizeAtS (s.newS v).2 s.fresh = v.size := by
    simp [sizeAtS, getS_newS_fresh s v hA]
  have hthf : thickAtS (s.newS v).2 s.fresh = v.thickness := by
    simp [thickAtS, getS_newS_fresh s v hA]
  have heA : (s.newS v).2.eL.map (sizeAtE (s.newS v).2) = s.eL.map (sizeAtE s) := rfl
  have heT : (s.newS v).2.eL.map (thickAtE (s.newS v).2) = s.eL.map (thickAtE s) := rfl
  constructor
  · rw [hsl, List.map_append, List.sum_append, hszmap, heA]
    simp [hszf]
    ring
  · rw [hsl, List.map_append, List.sum_append, hthmap, heT]
    simp [hthf]
    ring

lemma totals_newE (s : CRS) (v : EB) (hA : ∀ p ∈ s.eA, p.1 < s.fresh)
    (hL : ∀ j ∈ s.eL, j < s.fresh) :
    totalSize (s.newE v).2 = totalSize s + v.size ∧
    totalThick (s.newE v).2 = totalThick s + v.thickness := by
  unfold totalSize totalThick
  have hel : (s.newE v).2.eL = s.eL ++ [s.fresh] := rfl
  have hszmap : s.eL.map (sizeAtE (s.newE v).2) = s.eL.map (sizeAtE s) :=
    List.map_congr_left fun j hj => by
      simp [sizeAtE, getE_newE_old s v j (hL j hj).ne]
  have hthmap : s.eL.map (thickAtE (s.newE v).2) = s.eL.map (thickAtE s) :=
    List.map_congr_left fun j hj => by
      simp [thickAtE, getE_newE_old s v j (hL j hj).ne]
  have hszf : sizeAtE (s.newE v).2 s.fresh = v.size := by
    simp [sizeAtE, getE_newE_fresh s v hA]
  have hthf : thickAtE (s.newE v).2 s.fresh = v.thickness := by
    simp [thickAtE, getE_newE_fresh s v hA]
  have hsA : (s.newE v).2.sL.map (sizeAtS (s.newE v).2) = s.sL.map (sizeAtS s) := rfl
  have hsT : (s.newE v).2.sL.map (thickAtS (s.newE v).2) = s.sL.map (thickAtS s) := rfl
  constructor
  · rw [hel, List.map_append, List.sum_append, hszmap, hsA]
    simp [hszf]
    ring
  · rw [hel, List.map_append, List.sum_append, hthmap, hsT]
    simp [hthf]
    ring

lemma totals_removeS (s : CRS) (i : ℕ) (s2 : CRS) (h : removeS s i = .ok () s2) :
    totalSize s2 = totalSize s - sizeAtS s i ∧ totalThick s2 = totalThick s - thickAtS s i := by
  unfold removeS at h
  by_cases hc : s.sL.contains i
  · rw [if_pos hc] at h
    cases h
    have hmem : i ∈ s.sL := by simpa using hc
    have hperm : s.sL.Perm (i :: s.sL.erase i) := List.perm_cons_erase hmem
    constructor
    · unfold totalSize
      have := (hperm.map (sizeAtS s)).sum_eq
      simp only [List.map_cons, List.sum_cons] at this
      simp only [this]
      have h2 : sizeAtS { s with sL := s.sL.erase i } = sizeAtS s := rfl
      have h3 : sizeAtE { s with sL := s.sL.erase i } = sizeAtE s := rfl
      rw [h2, h3]
      ring
    · unfold totalThick
      have := (hperm.map (thickAtS s)).sum_eq
      simp only [List.map_cons, List.sum_cons] at this
      simp only [this]
      have h2 : thickAtS { s with sL := s.sL.erase i } = thickAtS s := rfl
      have h3 : thickAtE { s with sL := s.sL.erase i } = thickAtE s := rfl
      rw [h2, h3]
      ring
  · rw [if_neg hc] at h
    cases h

lemma totals_removeE (s : CRS) (i : ℕ) (s2 : CRS) (h : removeE s i = .ok () s2) :
    totalSize s2 = totalSize s - sizeAtE s i ∧ totalThick s2 = totalThick s - thickAtE s i := by
  unfold removeE at h
  by_cases hc : s.eL.contains i
  · rw [if_pos hc] at h
    cases h
    have hmem : i ∈ s.eL := by simpa using hc
    have hperm : s.eL.Perm (i :: s.eL.erase i) := List.perm_cons_erase hmem
    constructor
    · unfold totalSize
      have := (hperm.map (sizeAtE s)).sum_eq
      simp only [List.map_cons, List.sum_cons] at this
      simp only [this]
      have h2 : sizeAtE { s with eL := s.eL.erase i } = sizeAtE s := rfl
      have h3 : sizeAtS { s with eL := s.eL.erase i } = sizeAtS s := rfl
      rw [h2, h3]
      ring
    · unfold totalThick
      have := (hperm.map (thickAtE s)).sum_eq
      simp only [List.map_cons, List.sum_cons] at this
      simp only [this]
      have h2 : thickAtE { s with eL := s.eL.erase i } = thickAtE s := rfl
      have h3 : thickAtS { s with eL := s.eL.erase i } = thickAtS s := rfl
      rw [h2, h3]
      ring
  · rw [if_neg hc] at h
    cases h

lemma keys_aSet {α : Type} (l : List (ℕ × α)) (i : ℕ) (v : α) :
    (aSet l i v).map Prod.fst = l.map Prod.fst := by
  induction l with
  | nil => rfl
  | cons p rest ih =>
    obtain ⟨k, a⟩ := p
    by_cases hk : k = i
    · subst hk
      simp [aSet, ih]
    · simp [aSet, hk, ih]

lemma mem_keys_aSet {α : Type} (l : List (ℕ × α)) (i : ℕ) (v : α) (p : ℕ × α)
    (hp : p ∈ aSet l i v) : ∃ q ∈ l, q.1 = p.1 := by
  induction l with
  | nil => simp [aSet] at hp
  | cons q rest ih =>
    obtain ⟨k, a⟩ := q
    by_cases hk : k = i
    · subst hk
      simp only [aSet, if_pos rfl, List.mem_cons] at hp
      rcases hp with h | h
      · exact ⟨(k, a), List.mem_cons_self _ _, by simp [h]⟩
      · rcases ih h with ⟨q, hq, hq2⟩
        exact ⟨q, List.mem_cons_of_mem _ hq, hq2⟩
    · simp only [aSet, if_neg hk, List.mem_cons] at hp
      rcases hp with h | h
      · exact ⟨(k, a), List.mem_cons_self _ _, by simp [h]⟩
      · rcases ih h with ⟨q, hq, hq2⟩
        exact ⟨q, List.mem_cons_of_mem _ hq, hq2⟩

lemma WF_setS (s : CRS) (i : ℕ) (v : SB) (h : WF s) : WF (s.setS i v) := by
  obtain ⟨h1, h2, h3, h4, h5, h6⟩ := h
  refine ⟨?_, h2, h3, h4, ?_, h6⟩
  · intro p hp
    rcases mem_keys_aSet s.sA i v p hp with ⟨q, hq, hq2⟩
    rw [← hq2]
    exact h1 q hq
  · show ((aSet s.sA i v).map Prod.fst).Nodup
    rw [keys_aSet]
    exact h5

lemma WF_setE (s : CRS) (i : ℕ) (v : EB) (h : WF s) : WF (s.setE i v) := by
  obtain ⟨h1, h2, h3, h4, h5, h6⟩ := h
  refine ⟨h1, ?_, h3, h4, h5, ?_⟩
  · intro p hp
    rcases mem_keys_aSet s.eA i v p hp with ⟨q, hq, hq2⟩
    rw [← hq2]
    exact h2 q hq
  · show ((aSet s.eA i v).map Prod.fst).Nodup
    rw [keys_aSet]
    exact h6

lemma WF_newS (s : CRS) (v : SB) (h : WF s) : WF (s.newS v).2 := by
  obtain ⟨h1, h2, h3, h4, h5, h6⟩ := h
  refine ⟨?_, ?_, ?_, ?_, ?_, h6⟩
  · intro p hp
    rcases List.mem_append.mp hp with hp | hp
    · exact lt_trans (h1 p hp) (Nat.lt_succ_self _)
    · simp at hp
      rw [hp]
      exact Nat.lt_succ_self _
  · intro p hp
    exact lt_trans (h2 p hp) (Nat.lt_succ_self _)
  · intro j hj
    rcases List.mem_append.mp hj with hj | hj
    · exact lt_trans (h3 j hj) (Nat.lt_succ_self _)
    · simp at hj
      rw [hj]
      exact Nat.lt_succ_self _
  · intro j hj
    exact lt_trans (h4 j hj) (Nat.lt_succ_self _)
  · show ((s.sA ++ [(s.fresh, v)]).map Prod.fst).Nodup
    rw [List.map_append]
    simp only [List.map_cons, List.map_nil]
    rw [List.nodup_append]
    refine ⟨h5, List.nodup_singleton _, ?_⟩
    intro a ha hb
    simp at hb
    subst hb
    rcases List.mem_map.mp ha with ⟨p, hp, hfst⟩
    exact absurd hfst (h1 p hp).ne

lemma WF_newE (s : CRS) (v : EB) (h : WF s) : WF (s.newE v).2 := by
  obtain ⟨h1, h2, h3, h4, h5, h6⟩ := h
  refine ⟨?_, ?_, ?_, ?_, h5, ?_⟩
  · intro p hp
    exact lt_trans (h1 p hp) (Nat.lt_succ_self _)
  · intro p hp
    rcases List.mem_append.mp hp with hp | hp
    · exact lt_trans (h2 p hp) (Nat.lt_succ_self _)
    · simp at hp
      rw [hp]
      exact Nat.lt_succ_self _
  · intro j hj
    exact lt_trans (h3 j hj) (Nat.lt_succ_self _)
  · intro j hj
    rcases List.mem_append.mp hj with hj | hj
    · exact lt_trans (h4 j hj) (Nat.lt_succ_self _)
    · simp at hj
      rw [hj]
      exact Nat.lt_succ_self _
  · show ((s.eA ++ [(s.fresh, v)]).map Prod.fst).Nodup
    rw [List.map_append]
    simp only [List.map_cons, List.map_nil]
    rw [List.nodup_append]
    refine ⟨h6, List.nodup_singleton _, ?_⟩
    intro a ha hb
    simp at hb
    subst hb
    rcases List.mem_map.mp ha with ⟨p, hp, hfst⟩
    exact absurd hfst (h2 p hp).ne

lemma WF_removeS (s : CRS) (i : ℕ) (s2 : CRS) (hr : removeS s i = .ok () s2) (h : WF s) :
    WF s2 := by
  unfold removeS at hr
  by_cases hc : s.sL.contains i
  · rw [if_pos hc] at hr
    cases hr
    obtain ⟨h1, h2, h3, h4, h5, h6⟩ := h
    exact ⟨h1, h2, fun j hj => h3 j (List.erase_subset i s.sL hj), h4, h5, h6⟩
  · rw [if_neg hc] at hr
    cases hr

lemma WF_removeE (s : CRS) (i : ℕ) (s2 : CRS) (hr : removeE s i = .ok () s2) (h : WF s) :
    WF s2 := by
  unfold removeE at hr
  by_cases hc : s.eL.contains i
  · rw [if_pos hc] at hr
    cases hr
    obtain ⟨h1, h2, h3, h4, h5, h6⟩ := h
    exact ⟨h1, h2, h3, fun j hj => h4 j (List.erase_subset i s.eL hj), h5, h6⟩
  · rw [if_neg hc] at hr
    cases hr

lemma merge_failfast_first (fuel sb1 eb sb2 : ℕ) (s : CRS) (r : SB)
    (h : s.getS sb1 = some r) (hc : r.conn eb = false) :
    mergeM fuel sb1 eb sb2 s = .err "straight bundle is not connected to elbow bundle" s := by
  simp only [mergeM, h, hc]
  rfl

lemma merge_failfast_second (fuel sb1 eb sb2 : ℕ) (s : CRS) (r1 r2 : SB)
    (h1 : s.getS sb1 = some r1) (hc1 : r1.conn eb = true)
    (h2 : s.getS sb2 = some r2) (hc2 : r2.conn eb = false) :
    mergeM fuel sb1 eb sb2 s = .err "straight bundle is not connected to elbow bundle" s := by
  simp only [mergeM, h1, hc1, h2, hc2]
  rfl

lemma union_kind_mismatch (fuel i j : ℕ) (s : CRS) :
    unionM (fuel + 1) (.s i) (.e j) s = .err "cannot union bundles of different types" s := rfl

lemma union_mutates_before_assoc_error (fuel x y lId : ℕ) (s : CRS) (xr yr xr1 : SB) (lr : EB)
    (hxy : y ≠ x) (h1 : s.getS x = some xr) (h2 : s.getS y = some yr)
    (hxt : xr.is_terminal = false) (hyt : yr.is_terminal = false)
    (hx1 : xr1 = { xr with size := xr.size + yr.size, thickness := xr.thickness + yr.thickness })
    (hderef : (s.setS x xr1).derefE xr1.left = .ok (lId, lr))
    (hclose : sbCloser (s.setS x xr1) fuel xr1 yr lr.ptId = .error "straight bundle is not associated with point") :
    unionM (fuel + 1) (.s x) (.s y) s = .err "straight bundle is not associated with point" (s.setS x xr1) := by
  rw [hxt] at hx1
  have hself := getS_setS_self s x xr1 xr h1
  have hother := getS_setS_ne s x y xr1 hxy
  simp only [unionM, h1, h2, hxt, hyt, Bool.or_self, Bool.false_eq_true, if_false, ← hx1,
    hself, hother, hderef, hclose]

/-- C6: amended fail-fast property of the mutation primitives.  `merge`
does fail fast and cleanly: when either straight bundle is not connected
to the elbow bundle it raises the invariant-violation error with the
structure untouched, and `union` on bundles of different kinds raises
immediately with the structure untouched.  But `union` on two same-kind
non-terminal straight bundles that are NOT associated with a common point
(mismatched bundles) raises the invariant-violation error only AFTER it
has already added `y`'s size and thickness into `x`: the error state is
`s.setS x {xr with size := xr.size + yr.size, thickness := xr.thickness +
yr.thickness}`, not `s`, so the bundle graph is not left unchanged. -/
theorem mutation_failfast_amended :
    (∀ (fuel sb1 eb sb2 : ℕ) (s : CRS) (r : SB),
      s.getS sb1 = some r → r.conn eb = false →
      mergeM fuel sb1 eb sb2 s = .err "straight bundle is not connected to elbow bundle" s) ∧
    (∀ (fuel sb1 eb sb2 : ℕ) (s : CRS) (r1 r2 : SB),
      s.getS sb1 = some r1 → r1.conn eb = true →
      s.getS sb2 = some r2 → r2.conn eb = false →
      mergeM fuel sb1 eb sb2 s = .err "straight bundle is not connected to elbow bundle" s) ∧
    (∀ (fuel i j : ℕ) (s : CRS),
      unionM (fuel + 1) (.s i) (.e j) s = .err "cannot union bundles of different types" s) ∧
    (∀ (fuel x y lId : ℕ) (s : CRS) (xr yr xr1 : SB) (lr : EB),
      y ≠ x → s.getS x = some xr → s.getS y = some yr →
      xr.is_terminal = false → yr.is_terminal = false →
      xr1 = { xr with size := xr.size + yr.size, thickness := xr.thickness + yr.thickness } →
      (s.setS x xr1).derefE xr1.left = .ok (lId, lr) →
      sbCloser (s.setS x xr1) fuel xr1 yr lr.ptId = .error "straight bundle is not associated with point" →
      unionM (fuel + 1) (.s x) (.s y) s = .err "straight bundle is not associated with point" (s.setS x xr1)) :=
⟨fun fuel sb1 eb sb2 s r h hc => merge_failfast_first fuel sb1 eb sb2 s r h hc,
   fun fuel sb1 eb sb2 s r1 r2 h1 hc1 h2 hc2 =>
     merge_failfast_second fuel sb1 eb sb2 s r1 r2 h1 hc1 h2 hc2,
   fun fuel i j s => union_kind_mismatch fuel i j s,
   fun fuel x y lId s xr yr xr1 lr hxy h1 h2 hxt hyt hx1 hderef hclose =>
     union_mutates_before_assoc_error fuel x y lId s xr yr xr1 lr hxy h1 h2 hxt hyt hx1 hderef hclose⟩

unseal Rat.add Rat.sub Rat.mul Rat.inv in
/-- C6 counterexample: on `ex6`, `union` of the two disconnected straight
bundles raises, yet the error state records `size 2` and `thickness 3` on
bundle 0 where `ex6` had `size 1` and `thickness 1`: the graph was mutated
before the invariant-violation error. -/
theorem mutation_failfast_cex :
    (unionM 10 (.s 0) (.s 1) ex6).isOk = false ∧
    sizeAtS (unionM 10 (.s 0) (.s 1) ex6).state 0 = 2 ∧ sizeAtS ex6 0 = 1 ∧
    thickAtS (unionM 10 (.s 0) (.s 1) ex6).state 0 = 3 ∧ thickAtS ex6 0 = 1 := by
  decide

/-- C6 witness: the amended theorem instantiated on `exM` (merge with an
unconnected elbow handle) and on `ex6` (union of two disconnected straight
bundles). -/
theorem mutation_failfast_witness :
    mergeM 5 0 9 1 exM = .err "straight bundle is not connected to elbow bundle" exM ∧
    unionM 10 (.s 0) (.s 1) ex6 = .err "straight bundle is not associated with point"
      (ex6.setS 0 { left := some 0, right := some 1, size := 1 + 1, thickness := 1 + 2, is_terminal := false }) := by
  obtain ⟨ha, _, _, hd⟩ := mutation_failfast_amended
  refine ⟨ha 5 0 9 1 exM ⟨some 0, some 1, 1, 1, false⟩ rfl rfl, ?_⟩
  exact hd 9 0 1 0 ex6 ⟨some 0, some 1, 1, 1, false⟩ ⟨some 2, some 3, 1, 2, false⟩
    ⟨some 0, some 1, 1 + 1, 1 + 2, false⟩ ⟨0, ⟨0, 0⟩, some 0, some 0, none, 1, 1, 0, true, 0⟩
    (by decide) rfl rfl rfl rfl rfl rfl rfl

lemma aGet_mem {α : Type} : ∀ (l : List (ℕ × α)) (k : ℕ) (v : α),
    aGet l k = some v → (k, v) ∈ l := by
  intro l
  induction l with
  | nil => intro k v h; cases h
  | cons p rest ih =>
    intro k v h
    obtain ⟨k0, a0⟩ := p
    by_cases hk : k0 = k
    · subst hk
      simp only [aGet, if_pos rfl] at h
      cases h
      exact List.mem_cons_self _ _
    · simp only [aGet, if_neg hk] at h
      exact List.mem_cons_of_mem _ (ih k v h)

lemma getE_mem_keys (s : CRS) (k : ℕ) (v : EB) (h : s.getE k = some v) :
    k ∈ s.eA.map Prod.fst :=
  List.mem_map.mpr ⟨(k, v), aGet_mem s.eA k v h, rfl⟩

lemma getS_mem_keys (s : CRS) (k : ℕ) (v : SB) (h : s.getS k = some v) :
    k ∈ s.sA.map Prod.fst :=
  List.mem_map.mpr ⟨(k, v), aGet_mem s.sA k v h, rfl⟩

lemma LinkEvoE.erefl (s : CRS) : LinkEvoE s s :=
  ⟨rfl, rfl, rfl, rfl, rfl, fun _ => rfl⟩

lemma LinkEvoE.etrans {s1 s2 s3 : CRS} (h12 : LinkEvoE s1 s2) (h23 : LinkEvoE s2 s3) :
    LinkEvoE s1 s3 := by
  obtain ⟨a1, b1, c1, d1, e1, f1⟩ := h12
  obtain ⟨a2, b2, c2, d2, e2, f2⟩ := h23
  exact ⟨a2.trans a1, b2.trans b1, c2.trans c1, d2.trans d1, e2.trans e1,
    fun j => (f2 j).trans (f1 j)⟩

lemma LinkEvoE.esetE (s : CRS) (i : ℕ) (r v : EB) (h : s.getE i = some r)
    (hsz : v.size = r.size) (hth : v.thickness = r.thickness)
    (hterm : v.is_terminal = r.is_terminal) : LinkEvoE s (s.setE i v) := by
  refine ⟨rfl, rfl, rfl, rfl, keys_aSet s.eA i v, fun j => ?_⟩
  by_cases hj : j = i
  · subst hj
    rw [getE_setE_self s j v r h, h]
    simp [ebCore, hsz, hth, hterm]
  · rw [getE_setE_ne s i j v hj]

lemma LinkEvoE.getS_eq {s s2 : CRS} (h : LinkEvoE s s2) (j : ℕ) :
    s2.getS j = s.getS j := by
  show aGet s2.sA j = aGet s.sA j
  rw [h.1]

lemma LinkEvoE.sizeAtE_eq {s s2 : CRS} (h : LinkEvoE s s2) (j : ℕ) :
    sizeAtE s2 j = sizeAtE s j := by
  have hm := h.2.2.2.2.2 j
  unfold sizeAtE
  cases h1 : s.getE j with
  | none =>
    rw [h1] at hm
    cases h2 : s2.getE j with
    | none => rfl
    | some r2 =>
      rw [h2] at hm
      have hm2 : some (ebCore r2) = (none : Option (ℤ × ℚ × Bool)) := hm
      cases hm2
  | some r =>
    rw [h1] at hm
    cases h2 : s2.getE j with
    | none =>
      rw [h2] at hm
      have hm2 : (none : Option (ℤ × ℚ × Bool)) = some (ebCore r) := hm
      cases hm2
    | some r2 =>
      rw [h2] at hm
      have hm2 : some (ebCore r2) = some (ebCore r) := hm
      injection hm2 with hcore
      show r2.size = r.size
      exact congrArg Prod.fst hcore

lemma LinkEvoE.thickAtE_eq {s s2 : CRS} (h : LinkEvoE s s2) (j : ℕ) :
    thickAtE s2 j = thickAtE s j := by
  have hm := h.2.2.2.2.2 j
  unfold thickAtE
  cases h1 : s.getE j with
  | none =>
    rw [h1] at hm
    cases h2 : s2.getE j with
    | none => rfl
    | some r2 =>
      rw [h2] at hm
      have hm2 : some (ebCore r2) = (none : Option (ℤ × ℚ × Bool)) := hm
      cases hm2
  | some r =>
    rw [h1] at hm
    cases h2 : s2.getE j with
    | none =>
      rw [h2] at hm
      have hm2 : (none : Option (ℤ × ℚ × Bool)) = some (ebCore r) := hm
      cases hm2
    | some r2 =>
      rw [h2] at hm
      have hm2 : some (ebCore r2) = some (ebCore r) := hm
      injection hm2 with hcore
      show r2.thickness = r.thickness
      exact congrArg (fun p => p.2.1) hcore

lemma LinkEvoE.termAtE_eq {s s2 : CRS} (h : LinkEvoE s s2) (j : ℕ) (r : EB)
    (hr : s.getE j = some r) : ∃ r2, s2.getE j = some r2 ∧ r2.is_terminal = r.is_terminal ∧
    r2.size = r.size ∧ r2.thickness = r.thickness := by
  have hm := h.2.2.2.2.2 j
  rw [hr] at hm
  cases h2 : s2.getE j with
  | none =>
    rw [h2] at hm
    have hm2 : (none : Option (ℤ × ℚ × Bool)) = some (ebCore r) := hm
    cases hm2
  | some r2 =>
    rw [h2] at hm
    have hm2 : some (ebCore r2) = some (ebCore r) := hm
    injection hm2 with hcore
    exact ⟨r2, rfl, congrArg (fun p => p.2.2) hcore, congrArg Prod.fst hcore,
      congrArg (fun p => p.2.1) hcore⟩

lemma LinkEvoE.totals_eq {s s2 : CRS} (h : LinkEvoE s s2) :
    totalSize s2 = totalSize s ∧ totalThick s2 = totalThick s := by
  unfold totalSize totalThick
  have hs : ∀ j, sizeAtS s2 j = sizeAtS s j := fun j => by
    unfold sizeAtS
    rw [h.getS_eq j]
  have ht : ∀ j, thickAtS s2 j = thickAtS s j := fun j => by
    unfold thickAtS
    rw [h.getS_eq j]
  rw [h.2.1, h.2.2.1]
  constructor
  · rw [List.map_congr_left fun j _ => hs j, List.map_congr_left fun j _ => h.sizeAtE_eq j]
  · rw [List.map_congr_left fun j _ => ht j, List.map_congr_left fun j _ => h.thickAtE_eq j]

lemma LinkEvoE.WF_of {s s2 : CRS} (h : LinkEvoE s s2) (hw : WF s) : WF s2 := by
  obtain ⟨h1, h2, h3, h4, h5, h6⟩ := hw
  obtain ⟨ea, eb, ec, ed, ee, _⟩ := h
  refine ⟨?_, ?_, ?_, ?_, ?_, ?_⟩
  · intro p hp
    rw [ea] at hp
    rw [ed]
    exact h1 p hp
  · intro p hp
    rw [ed]
    have : p.1 ∈ s2.eA.map Prod.fst := List.mem_map.mpr ⟨p, hp, rfl⟩
    rw [ee] at this
    rcases List.mem_map.mp this with ⟨q, hq, hfst⟩
    rw [← hfst]
    exact h2 q hq
  · intro i hi
    rw [eb] at hi
    rw [ed]
    exact h3 i hi
  · intro i hi
    rw [ec] at hi
    rw [ed]
    exact h4 i hi
  · rw [ea]
    exact h5
  · rw [ee]
    exact h6

lemma LinkEvoE.LiveE_of {s s2 : CRS} (h : LinkEvoE s s2) (hl : LiveE s) : LiveE s2 := by
  intro k hk
  rw [h.2.2.2.2.1] at hk
  rw [h.2.2.1]
  exact hl k hk

lemma reassignLoop_evo (a b : ℕ) (fuel : ℕ) : ∀ (o : Option ℕ) (s s2 : CRS) (u : Unit),
    reassignLoop a b fuel o s = .ok u s2 → LinkEvoE s s2 := by
  induction fuel with
  | zero => intro o s s2 u h; cases h
  | succ n ih =>
    intro o s s2 u h
    match o with
    | none =>
      simp only [reassignLoop] at h
      cases h
      exact LinkEvoE.erefl s
    | some i =>
      simp only [reassignLoop] at h
      cases hg : s.getE i with
      | none => rw [hg] at h; cases h
      | some r =>
        rw [hg] at h
        dsimp only at h
        by_cases hc : (!(r.conn a)) = true
        · rw [if_pos hc] at h
          cases h
          exact LinkEvoE.erefl s
        · rw [if_neg hc] at h
          set r2 : EB := if r.is_terminal then { r with left := some b, right := some b }
            else if r.left == some a then { r with left := some b }
            else { r with right := some b } with hr2
          have hcore : r2.size = r.size ∧ r2.thickness = r.thickness ∧
              r2.is_terminal = r.is_terminal := by
            rw [hr2]
            by_cases h1 : r.is_terminal = true
            · simp [h1]
            · by_cases h2 : (r.left == some a) = true <;> simp [h1, h2]
          exact (LinkEvoE.esetE s i r r2 hg hcore.1 hcore.2.1 hcore.2.2).etrans
            (ih r2.inner (s.setE i r2) s2 u h)

lemma flipELoop_evo (a b : ℕ) (tr : Bool) (fuel : ℕ) : ∀ (o : Option ℕ) (s s2 : CRS) (u : Unit),
    flipELoop a b tr fuel o s = .ok u s2 → LinkEvoE s s2 := by
  induction fuel with
  | zero => intro o s s2 u h; cases h
  | succ n ih =>
    intro o s s2 u h
    match o with
    | none =>
      simp only [flipELoop] at h
      cases h
      exact LinkEvoE.erefl s
    | some i =>
      simp only [flipELoop] at h
      cases hg : s.getE i with
      | none => rw [hg] at h; cases h
      | some r =>
        rw [hg] at h
        dsimp only at h
        by_cases hc : (!(r.conn a)) = true
        · rw [if_pos hc] at h
          cases h
          exact LinkEvoE.erefl s
        · rw [if_neg hc] at h
          set r2 : EB := if tr then
              (if r.right == some a then { r with right := some b } else { r with left := some b })
            else
              (if r.left == some a then { r with left := some b } else { r with right := some b })
            with hr2
          have hcore : r2.size = r.size ∧ r2.thickness = r.thickness ∧
              r2.is_terminal = r.is_terminal := by
            rw [hr2]
            by_cases h1 : tr = true
            · by_cases h2 : (r.right == some a) = true <;> simp [h1, h2]
            · by_cases h2 : (r.left == some a) = true <;> simp [h1, h2]
          exact (LinkEvoE.esetE s i r r2 hg hcore.1 hcore.2.1 hcore.2.2).etrans
            (ih r2.inner (s.setE i r2) s2 u h)

lemma divInnerLoop_evo (a b : ℕ) (fuel : ℕ) : ∀ (o : Option ℕ) (s s2 : CRS) (u : Unit),
    divInnerLoop a b fuel o s = .ok u s2 → LinkEvoE s s2 := by
  induction fuel with
  | zero => intro o s s2 u h; cases h
  | succ n ih =>
    intro o s s2 u h
    match o with
    | none =>
      simp only [divInnerLoop] at h
      cases h
      exact LinkEvoE.erefl s
    | some i =>
      simp only [divInnerLoop] at h
      cases hg : s.getE i with
      | none => rw [hg] at h; cases h
      | some r =>
        rw [hg] at h
        dsimp only at h
        by_cases hc : (!(r.conn a)) = true
        · rw [if_pos hc] at h
          cases h
          exact LinkEvoE.erefl s
        · rw [if_neg hc] at h
          set r2 : EB := if r.left == some a then { r with left := some b }
            else { r with right := some b } with hr2
          have hcore : r2.size = r.size ∧ r2.thickness = r.thickness ∧
              r2.is_terminal = r.is_terminal := by
            rw [hr2]
            by_cases h2 : (r.left == some a) = true <;> simp [h2]
          exact (LinkEvoE.esetE s i r r2 hg hcore.1 hcore.2.1 hcore.2.2).etrans
            (ih r2.inner (s.setE i r2) s2 u h)

lemma divTailLoop_evo (a b : ℕ) (fuel : ℕ) : ∀ (o : Option ℕ) (s s2 : CRS) (u : Unit),
    divTailLoop a b fuel o s = .ok u s2 → LinkEvoE s s2 := by
  induction fuel with
  | zero => intro o s s2 u h; cases h
  | succ n ih =>
    intro o s s2 u h
    match o with
    | none =>
      simp only [divTailLoop] at h
      cases h
      exact LinkEvoE.erefl s
    | some i =>
      simp only [divTailLoop] at h
      cases hg : s.getE i with
      | none => rw [hg] at h; cases h
      | some r =>
        rw [hg] at h
        dsimp only at h
        by_cases hc : (!(r.conn a)) = true
        · rw [if_pos hc] at h
          cases h
          exact LinkEvoE.erefl s
        · rw [if_neg hc] at h
          set r2 : EB := if r.right == some a then { r with right := some b }
            else { r with left := some b } with hr2
          have hcore : r2.size = r.size ∧ r2.thickness = r.thickness ∧
              r2.is_terminal = r.is_terminal := by
            rw [hr2]
            by_cases h2 : (r.right == some a) = true <;> simp [h2]
          exact (LinkEvoE.esetE s i r r2 hg hcore.1 hcore.2.1 hcore.2.2).etrans
            (ih r2.inner (s.setE i r2) s2 u h)

lemma divAccLoop1_state (z : ℤ) (fuel : ℕ) : ∀ (cur : ℕ) (sz : ℤ) (th : ℚ) (s s2 : CRS)
    (r : ℕ × ℤ × ℚ), divAccLoop1 z fuel cur sz th s = .ok r s2 → s2 = s := by
  induction fuel with
  | zero => intro cur sz th s s2 r h; cases h
  | succ n ih =>
    intro cur sz th s s2 r h
    simp only [divAccLoop1] at h
    by_cases hlt : sz < z
    · rw [if_pos hlt] at h
      cases hg : s.getE cur with
      | none => rw [hg] at h; cases h
      | some rr =>
        rw [hg] at h
        dsimp only at h
        cases hin : rr.inner with
        | none => rw [hin] at h; cases h
        | some nxt =>
          rw [hin] at h
          dsimp only at h
          cases hg2 : s.getE nxt with
          | none => rw [hg2] at h; cases h
          | some nr =>
            rw [hg2] at h
            dsimp only at h
            exact ih nxt (sz + nr.size) (th + nr.thickness) s s2 r h
    · rw [if_neg hlt] at h
      cases h
      rfl

lemma divAccLoop2_evo (a b : ℕ) (z : ℤ) (fuel : ℕ) : ∀ (cur : ℕ) (sz : ℤ) (th : ℚ)
    (s s2 : CRS) (r : ℕ × ℤ × ℚ),
    divAccLoop2 a b z fuel cur sz th s = .ok r s2 → LinkEvoE s s2 := by
  induction fuel with
  | zero => intro cur sz th s s2 r h; cases h
  | succ n ih =>
    intro cur sz th s s2 r h
    simp only [divAccLoop2] at h
    by_cases hlt : sz < z
    · rw [if_pos hlt] at h
      cases hg : s.getE cur with
      | none => rw [hg] at h; cases h
      | some rr =>
        rw [hg] at h
        dsimp only at h
        set r2 : EB := if rr.left == some a then { rr with left := some b }
          else { rr with right := some b } with hr2
        have hcore : r2.size = rr.size ∧ r2.thickness = rr.thickness ∧
            r2.is_terminal = rr.is_terminal := by
          rw [hr2]
          by_cases h2 : (rr.left == some a) = true <;> simp [h2]
        have hevo1 := LinkEvoE.esetE s cur rr r2 hg hcore.1 hcore.2.1 hcore.2.2
        cases hin : r2.inner with
        | none => rw [hin] at h; cases h
        | some nxt =>
          rw [hin] at h
          dsimp only at h
          cases hg2 : (s.setE cur r2).getE nxt with
          | none => rw [hg2] at h; cases h
          | some nr =>
            rw [hg2] at h
            dsimp only at h
            exact hevo1.etrans (ih nxt (sz + nr.size) (th + nr.thickness) (s.setE cur r2) s2 r h)
    · rw [if_neg hlt] at h
      cases h
      exact LinkEvoE.erefl s

lemma derefS_ok_getS (s : CRS) (o : Option ℕ) (i : ℕ) (r : SB)
    (h : s.derefS o = .ok (i, r)) : s.getS i = some r := by
  unfold CRS.derefS at h
  match o with
  | none => cases h
  | some j =>
    dsimp only at h
    cases hg : s.getS j with
    | none => rw [hg] at h; cases h
    | some r2 =>
      rw [hg] at h
      dsimp only at h
      cases h
      exact hg

lemma derefE_ok_getE (s : CRS) (o : Option ℕ) (i : ℕ) (r : EB)
    (h : s.derefE o = .ok (i, r)) : s.getE i = some r := by
  unfold CRS.derefE at h
  match o with
  | none => cases h
  | some j =>
    dsimp only at h
    cases hg : s.getE j with
    | none => rw [hg] at h; cases h
    | some r2 =>
      rw [hg] at h
      dsimp only at h
      cases h
      exact hg

lemma union_elbow_conserves (fuel x y : ℕ) (s : CRS) (xr yr : EB)
    (hxy : y ≠ x) (hx : s.getE x = some xr) (hy : s.getE y = some yr)
    (hcx : s.eL.count x = 1) (hcy : s.eL.count y = 1) (u : Unit) (s' : CRS)
    (hok : unionM (fuel + 1) (.e x) (.e y) s = .ok u s') :
    totalSize s' = totalSize s ∧ totalThick s' = totalThick s := by
  simp only [unionM, hx, hy] at hok
  by_cases hterm : (xr.is_terminal || yr.is_terminal) = true
  · rw [if_pos hterm] at hok
    cases hok
    exact ⟨rfl, rfl⟩
  · rw [if_neg hterm] at hok
    set xr1 : EB := { xr with size := xr.size + yr.size, thickness := xr.thickness + yr.thickness } with hxr1
    set s1 : CRS := s.setE x xr1 with hs1
    have hs1x : s1.getE x = some xr1 := getE_setE_self s x xr1 xr hx
    have hs1y : s1.getE y = some yr := by rw [hs1, getE_setE_ne s x y xr1 hxy, hy]
    have hs1sz : totalSize s1 = totalSize s + yr.size := by
      rw [hs1, totalSize_setE s x xr1 xr hx, hcx, hxr1]
      push_cast
      ring
    have hs1th : totalThick s1 = totalThick s + yr.thickness := by
      rw [hs1, totalThick_setE s x xr1 xr hx, hcx, hxr1]
      push_cast
      ring
    have hs1szy : sizeAtE s1 y = yr.size := by simp [sizeAtE, hs1y]
    have hs1thy : thickAtE s1 y = yr.thickness := by simp [thickAtE, hs1y]
    cases hC : ebCloser s1 fuel y x with
    | error e => rw [hC] at hok; cases hok
    | ok closer =>
      rw [hC] at hok
      dsimp only at hok
      cases closer with
      | true =>
        rw [if_pos rfl] at hok
        rw [hs1x, hs1y] at hok
        dsimp only at hok
        set xr2 : EB := { xr1 with inner := yr.inner, layer_thickness := yr.layer_thickness } with hxr2
        set s2 : CRS := s1.setE x xr2 with hs2
        have h2tot := totals_setE_links s1 x xr2 xr1 hs1x (by rw [hxr2]) (by rw [hxr2])
        have h2y : s2.getE y = some yr := by rw [hs2, getE_setE_ne s1 x y xr2 hxy, hs1y]
        have hrm := totals_removeE s2 y s' hok
        refine ⟨?_, ?_⟩
        · rw [hrm.1]
          have : sizeAtE s2 y = yr.size := by simp [sizeAtE, h2y]
          rw [this, h2tot.1, hs1sz]
          ring
        · rw [hrm.2]
          have : thickAtE s2 y = yr.thickness := by simp [thickAtE, h2y]
          rw [this, h2tot.2, hs1th]
          ring
      | false =>
        rw [if_neg (by simp)] at hok
        rw [hs1y] at hok
        dsimp only at hok
        cases hdl : s1.derefS yr.left with
        | error e => rw [hdl] at hok; cases hok
        | ok p =>
          obtain ⟨slId, slr⟩ := p
          rw [hdl] at hok
          dsimp only at hok
          have hgl : s1.getS slId = some slr := derefS_ok_getS s1 yr.left slId slr hdl
          set v1 : SB := if slr.right == some y then { slr with right := some x }
            else { slr with left := some x } with hv1
          have hv1c : v1.size = slr.size ∧ v1.thickness = slr.thickness := by
            rw [hv1]
            by_cases hb : (slr.right == some y) = true <;> simp [hb]
          set s2 : CRS := s1.setS slId v1 with hs2
          have h2tot := totals_setS_links s1 slId v1 slr hgl hv1c.1 hv1c.2
          have h2y : s2.getE y = some yr := hs1y
          rw [h2y] at hok
          dsimp only at hok
          cases hdr : s2.derefS yr.right with
          | error e => rw [hdr] at hok; cases hok
          | ok q =>
            obtain ⟨srId, srr⟩ := q
            rw [hdr] at hok
            dsimp only at hok
            have hgr : s2.getS srId = some srr := derefS_ok_getS s2 yr.right srId srr hdr
            set v2 : SB := if srr.left == some y then { srr with left := some x }
              else { srr with right := some x } with hv2
            have hv2c : v2.size = srr.size ∧ v2.thickness = srr.thickness := by
              rw [hv2]
              by_cases hb : (srr.left == some y) = true <;> simp [hb]
            set s3 : CRS := s2.setS srId v2 with hs3
            have h3tot := totals_setS_links s2 srId v2 srr hgr hv2c.1 hv2c.2
            have h3y : s3.getE y = some yr := h2y
            have hrm := totals_removeE s3 y s' hok
            refine ⟨?_, ?_⟩
            · rw [hrm.1]
              have : sizeAtE s3 y = yr.size := by simp [sizeAtE, h3y]
              rw [this, h3tot.1, h2tot.1, hs1sz]
              ring
            · rw [hrm.2]
              have : thickAtE s3 y = yr.thickness := by simp [thickAtE, h3y]
              rw [this, h3tot.2, h2tot.2, hs1th]
              ring

lemma count_eq_zero_of_lt (l : List ℕ) (f : ℕ) (h : ∀ j ∈ l, j < f) : l.count f = 0 :=
  List.count_eq_zero.mpr (fun hmem => lt_irrefl f (h f hmem))

lemma divSplitElbow_conserves (ebN : ℕ) (sz : ℤ) (th : ℚ) (tsz : ℤ) (tth : ℚ)
    (s : CRS) (hW : WF s) (hL : LiveE s) (u : Unit) (s' : CRS)
    (h : divSplitElbow ebN sz th tsz tth s = .ok u s') :
    totalSize s' = totalSize s ∧ totalThick s' = totalThick s := by
  unfold divSplitElbow at h
  by_cases hlt : tsz < sz
  · rw [if_pos hlt] at h
    cases hg : s.getE ebN with
    | none => rw [hg] at h; cases h
    | some nr =>
      rw [hg] at h
      dsimp only at h
      rw [show s.newE nr = (s.fresh, (s.newE nr).2) from rfl] at h
      dsimp only at h
      obtain ⟨hW1, hW2, hW3, hW4, hW5, hW6⟩ := hW
      have hkey : ebN < s.fresh := hW2 (ebN, nr) (aGet_mem s.eA ebN nr hg)
      set s1 : CRS := (s.newE nr).2 with hs1
      have h1tot := totals_newE s nr hW2 hW4
      have h1e : s1.getE ebN = some nr := by
        rw [hs1, getE_newE_old s nr ebN hkey.ne]
        exact hg
      rw [h1e] at h
      dsimp only at h
      set nr1 : EB := { nr with inner := some s.fresh } with hnr1
      set s2 : CRS := s1.setE ebN nr1 with hs2
      have h2tot := totals_setE_links s1 ebN nr1 nr h1e (by rw [hnr1]) (by rw [hnr1])
      have h2new : s2.getE s.fresh = some nr := by
        rw [hs2, getE_setE_ne s1 ebN s.fresh nr1 hkey.ne', hs1]
        exact getE_newE_fresh s nr hW2
      rw [h2new] at h
      dsimp only at h
      set newR2 : EB := { nr with size := sz - tsz, thickness := th - tth } with hnewR2
      set s3 : CRS := s2.setE s.fresh newR2 with hs3
      have hccount : s2.eL.count s.fresh = 1 := by
        have : s2.eL = s.eL ++ [s.fresh] := rfl
        rw [this, List.count_append, count_eq_zero_of_lt s.eL s.fresh hW4]
        simp
      have h3sz : totalSize s3 = totalSize s2 + (newR2.size - nr.size) := by
        rw [hs3, totalSize_setE s2 s.fresh newR2 nr h2new, hccount]
        push_cast
        ring
      have h3th : totalThick s3 = totalThick s2 + (newR2.thickness - nr.thickness) := by
        rw [hs3, totalThick_setE s2 s.fresh newR2 nr h2new, hccount]
        push_cast
        ring
      have h3e : s3.getE ebN = some nr1 := by
        rw [hs3, getE_setE_ne s2 s.fresh ebN newR2 hkey.ne, hs2]
        exact getE_setE_self s1 ebN nr1 nr h1e
      rw [h3e] at h
      dsimp only at h
      cases h
      have hecount : s3.eL.count ebN = 1 := by
        have he3 : s3.eL = s.eL ++ [s.fresh] := rfl
        rw [he3, List.count_append]
        have h0 : List.count ebN [s.fresh] = 0 := by
          simp [List.count_singleton]
          omega
        rw [h0, hL ebN (getE_mem_keys s ebN nr hg)]
      constructor
      · rw [totalSize_setE s3 ebN _ nr1 h3e, hecount, h3sz, h2tot.1, h1tot.1]
        push_cast
        ring
      · rw [totalThick_setE s3 ebN _ nr1 h3e, hecount, h3th, h2tot.2, h1tot.2]
        push_cast
        ring
  · rw [if_neg hlt] at h
    cases h
    exact ⟨rfl, rfl⟩

lemma divideM_conserves (fuel sbId ebId : ℕ) (s : CRS) (hW : WF s) (hL : LiveE s)
    (hc : s.sL.count sbId = 1) (u : Unit) (s' : CRS)
    (h : divideM fuel sbId ebId s = .ok u s') :
    totalSize s' = totalSize s ∧ totalThick s' = totalThick s := by
  unfold divideM at h
  cases hg0 : s.getS sbId with
  | none => rw [hg0] at h; cases h
  | some sbr0 =>
    rw [hg0] at h
    dsimp only at h
    rw [show s.newS sbr0 = (s.fresh, (s.newS sbr0).2) from rfl] at h
    dsimp only at h
    set s1 : CRS := (s.newS sbr0).2 with hs1
    have hW1 : WF s1 := WF_newS s sbr0 hW
    have h1tot := totals_newS s sbr0 hW.1 hW.2.2.1
    have hsbkey : sbId < s.fresh := hW.1 (sbId, sbr0) (aGet_mem s.sA sbId sbr0 hg0)
    have h1sb : s1.getS sbId = some sbr0 := by
      rw [hs1, getS_newS_old s sbr0 sbId hsbkey.ne]
      exact hg0
    have h1f : s1.getS s.fresh = some sbr0 := by
      rw [hs1]
      exact getS_newS_fresh s sbr0 hW.1
    cases hg1 : s1.getE ebId with
    | none => rw [hg1] at h; cases h
    | some ebr1 =>
      rw [hg1] at h
      dsimp only at h
      set v2 : SB := if sbr0.right == some ebId then { sbr0 with right := ebr1.inner }
        else { sbr0 with left := ebr1.inner } with hv2
      have hv2c : v2.size = sbr0.size ∧ v2.thickness = sbr0.thickness := by
        rw [hv2]
        by_cases hb : (sbr0.right == some ebId) = true <;> simp [hb]
      set s2 : CRS := s1.setS s.fresh v2 with hs2
      have hW2 : WF s2 := WF_setS s1 s.fresh v2 hW1
      have h2tot := totals_setS_links s1 s.fresh v2 sbr0 h1f hv2c.1 hv2c.2
      have h2sb : s2.getS sbId = some sbr0 := by
        rw [hs2, getS_setS_ne s1 s.fresh sbId v2 hsbkey.ne]
        exact h1sb
      have h2f : s2.getS s.fresh = some v2 := by
        rw [hs2]
        exact getS_setS_self s1 s.fresh v2 sbr0 h1f
      have h2eb : s2.getE ebId = some ebr1 := hg1
      cases hloop : divInnerLoop sbId s.fresh fuel ebr1.inner s2 with
      | err e s3 => rw [hloop] at h; cases h
      | ok u3 s3 =>
        rw [hloop] at h
        dsimp only at h
        have hevo3 : LinkEvoE s2 s3 := divInnerLoop_evo sbId s.fresh fuel ebr1.inner s2 s3 u3 hloop
        have hW3 : WF s3 := hevo3.WF_of hW2
        have hL3 : LiveE s3 := hevo3.LiveE_of hL
        have h3tot := hevo3.totals_eq
        have h3sb : s3.getS sbId = some sbr0 := by rw [hevo3.getS_eq]; exact h2sb
        have h3f : s3.getS s.fresh = some v2 := by rw [hevo3.getS_eq]; exact h2f
        obtain ⟨ebr3, h3eb, hterm3, hsz3, hth3⟩ := hevo3.termAtE_eq ebId ebr1 h2eb
        rw [h3sb, h3eb] at h
        dsimp only at h
        have hsl3 : s3.sL = s.sL ++ [s.fresh] := hevo3.2.1.trans rfl
        have hcount1 : (s.sL ++ [s.fresh]).count sbId = 1 := by
          rw [List.count_append]
          have h0 : List.count sbId [s.fresh] = 0 := by
            simp [List.count_singleton]
            omega
          rw [h0, hc]
        have hcountF : (s.sL ++ [s.fresh]).count s.fresh = 1 := by
          rw [List.count_append, count_eq_zero_of_lt s.sL s.fresh hW.2.2.1]
          simp
        set sbr4 : SB := { sbr0 with size := ebr3.size, thickness := ebr3.thickness } with hsbr4
        set s4 : CRS := s3.setS sbId sbr4 with hs4
        have hW4 : WF s4 := WF_setS s3 sbId sbr4 hW3
        have h4szt : totalSize s4 = totalSize s3 + (ebr3.size - sbr0.size) := by
          rw [hs4, totalSize_setS s3 sbId sbr4 sbr0 h3sb, hsl3, hcount1, hsbr4]
          push_cast
          ring
        have h4tht : totalThick s4 = totalThick s3 + (ebr3.thickness - sbr0.thickness) := by
          rw [hs4, totalThick_setS s3 sbId sbr4 sbr0 h3sb, hsl3, hcount1, hsbr4]
          push_cast
          ring
        have h4f : s4.getS s.fresh = some v2 := by
          rw [hs4, getS_setS_ne s3 sbId s.fresh sbr4 hsbkey.ne']
          exact h3f
        rw [h4f] at h
        dsimp only at h
        have hsl4 : s4.sL = s.sL ++ [s.fresh] := hsl3
        set sb2r5v : SB := { v2 with size := v2.size - ebr3.size, thickness := v2.thickness - ebr3.thickness } with hsb2r5
        set s5 : CRS := s4.setS s.fresh sb2r5v with hs5
        have hW5 : WF s5 := WF_setS s4 s.fresh sb2r5v hW4
        have h5szt : totalSize s5 = totalSize s4 - ebr3.size := by
          rw [hs5, totalSize_setS s4 s.fresh sb2r5v v2 h4f, hsl4, hcountF, hsb2r5]
          push_cast
          ring
        have h5tht : totalThick s5 = totalThick s4 - ebr3.thickness := by
          rw [hs5, totalThick_setS s4 s.fresh sb2r5v v2 h4f, hsl4, hcountF, hsb2r5]
          push_cast
          ring
        have h5sb : s5.getS sbId = some sbr4 := by
          rw [hs5, getS_setS_ne s4 s.fresh sbId sb2r5v hsbkey.ne]
          rw [hs4]
          exact getS_setS_self s3 sbId sbr4 sbr0 h3sb
        rw [h5sb] at h
        dsimp only at h
        cases hnx : sbr4.nextEB ebId with
        | error e => rw [hnx] at h; cases h
        | ok nxtO =>
          rw [hnx] at h
          dsimp only at h
          cases hde : s5.derefE nxtO with
          | error e => rw [hde] at h; cases h
          | ok p =>
            obtain ⟨ebN, ebNr⟩ := p
            rw [hde] at h
            dsimp only at h
            have h5eb : s5.getE ebId = some ebr3 := h3eb
            rw [h5eb] at h
            dsimp only at h
            have hL5 : LiveE s5 := hL3
            by_cases hdir : ((ebr3.left == some sbId) == (ebNr.right == some sbId)) = true
            · rw [if_pos hdir] at h
              cases hacc : divAccLoop1 sbr4.size fuel ebN ebNr.size ebNr.thickness s5 with
              | err e s6 => rw [hacc] at h; cases h
              | ok acc s6 =>
                obtain ⟨ebN2, size2, thick2⟩ := acc
                rw [hacc] at h
                dsimp only at h
                have hs6 : s6 = s5 :=
                  divAccLoop1_state sbr4.size fuel ebN ebNr.size ebNr.thickness s5 s6 _ hacc
                subst hs6
                cases hsplit : divSplitElbow ebN2 size2 thick2 sbr4.size sbr4.thickness s5 with
                | err e s7 => rw [hsplit] at h; cases h
                | ok u7 s7 =>
                  rw [hsplit] at h
                  dsimp only at h
                  have h7tot := divSplitElbow_conserves ebN2 size2 thick2 sbr4.size
                    sbr4.thickness s5 hW5 hL5 u7 s7 hsplit
                  cases hg7 : s7.getE ebN2 with
                  | none => rw [hg7] at h; cases h
                  | some ebN2r =>
                    rw [hg7] at h
                    dsimp only at h
                    cases hg7b : s7.getS s.fresh with
                    | none => rw [hg7b] at h; cases h
                    | some sb2r7 =>
                      cases hg7c : s7.getE ebId with
                      | none => rw [hg7b, hg7c] at h; cases h
                      | some ebr7 =>
                        rw [hg7b, hg7c] at h
                        dsimp only at h
                        set v8 : SB := if sb2r7.right == ebr7.inner then { sb2r7 with left := ebN2r.inner } else { sb2r7 with right := ebN2r.inner } with hv8
                        have hv8c : v8.size = sb2r7.size ∧ v8.thickness = sb2r7.thickness := by
                          rw [hv8]
                          by_cases hb : (sb2r7.right == ebr7.inner) = true <;> simp [hb]
                        set s8 : CRS := s7.setS s.fresh v8 with hs8
                        have h8tot := totals_setS_links s7 s.fresh v8 sb2r7 hg7b hv8c.1 hv8c.2
                        cases htail : divTailLoop sbId s.fresh fuel ebN2r.inner s8 with
                        | err e s9 => rw [htail] at h; cases h
                        | ok u9 s9 =>
                          rw [htail] at h
                          dsimp only at h
                          cases h
                          have h9tot := (divTailLoop_evo sbId s.fresh fuel ebN2r.inner
                            s8 s' u9 htail).totals_eq
                          constructor
                          · rw [h9tot.1, h8tot.1, h7tot.1, h5szt, h4szt, h3tot.1, h2tot.1,
                              h1tot.1]
                            ring
                          · rw [h9tot.2, h8tot.2, h7tot.2, h5tht, h4tht, h3tot.2, h2tot.2,
                              h1tot.2]
                            ring
            · rw [if_neg hdir] at h
              have h5f : s5.getS s.fresh = some sb2r5v := by
                rw [hs5]
                exact getS_setS_self s4 s.fresh sb2r5v v2 h4f
              rw [h5f] at h
              dsimp only at h
              cases hacc2 : divAccLoop2 sbId s.fresh sb2r5v.size fuel ebN ebNr.size ebNr.thickness s5 with
              | err e s6 => rw [hacc2] at h; cases h
              | ok acc s6 =>
                obtain ⟨ebN2, size2, thick2⟩ := acc
                rw [hacc2] at h
                dsimp only at h
                have hevo6 : LinkEvoE s5 s6 :=
                  divAccLoop2_evo sbId s.fresh sb2r5v.size fuel ebN ebNr.size ebNr.thickness
                    s5 s6 _ hacc2
                have h6tot := hevo6.totals_eq
                have hW6 : WF s6 := hevo6.WF_of hW5
                have hL6 : LiveE s6 := hevo6.LiveE_of hL5
                cases hsplit : divSplitElbow ebN2 size2 thick2 sb2r5v.size sb2r5v.thickness s6 with
                | err e s7 => rw [hsplit] at h; cases h
                | ok u7 s7 =>
                  rw [hsplit] at h
                  dsimp only at h
                  have h7tot := divSplitElbow_conserves ebN2 size2 thick2 sb2r5v.size
                    sb2r5v.thickness s6 hW6 hL6 u7 s7 hsplit
                  cases hg7 : s7.getE ebN2 with
                  | none => rw [hg7] at h; cases h
                  | some ebN2r =>
                    rw [hg7] at h
                    dsimp only at h
                    set v8e : EB := if ebN2r.left == some sbId then { ebN2r with left := some s.fresh } else { ebN2r with right := some s.fresh } with hv8e
                    have hv8ec : v8e.size = ebN2r.size ∧ v8e.thickness = ebN2r.thickness := by
                      rw [hv8e]
                      by_cases hb : (ebN2r.left == some sbId) = true <;> simp [hb]
                    set s8 : CRS := s7.setE ebN2 v8e with hs8
                    have h8tot := totals_setE_links s7 ebN2 v8e ebN2r hg7 hv8ec.1 hv8ec.2
                    have h8n : s8.getE ebN2 = some v8e := by
                      rw [hs8]
                      exact getE_setE_self s7 ebN2 v8e ebN2r hg7
                    rw [h8n] at h
                    dsimp only at h
                    cases hg8s : s8.getS sbId with
                    | none => rw [hg8s] at h; cases h
                    | some sbr8 =>
                      rw [hg8s] at h
                      dsimp only at h
                      set v9 : SB := if sbr8.left == some ebId then { sbr8 with right := v8e.inner } else { sbr8 with left := v8e.inner } with hv9
                      have hv9c : v9.size = sbr8.size ∧ v9.thickness = sbr8.thickness := by
                        rw [hv9]
                        by_cases hb : (sbr8.left == some ebId) = true <;> simp [hb]
                      cases h
                      have h9tot := totals_setS_links s8 sbId v9 sbr8 hg8s hv9c.1 hv9c.2
                      constructor
                      · rw [h9tot.1, h8tot.1, h7tot.1, h6tot.1, h5szt, h4szt, h3tot.1,
                          h2tot.1, h1tot.1]
                        ring
                      · rw [h9tot.2, h8tot.2, h7tot.2, h6tot.2, h5tht, h4tht, h3tot.2,
                          h2tot.2, h1tot.2]
                        ring

lemma splitM_terminal_adds (O : Orc) (fuel sbId xId : ℕ) (t : ℚ) (s : CRS) (sbr0 : SB) (xr : EB)
    (hW : WF s) (hsb : s.getS sbId = some sbr0) (hx : s.getE xId = some xr)
    (hxt : xr.is_terminal = true) (r : ℕ × ℕ × ℕ) (s' : CRS)
    (h : splitM O fuel sbId xId t s = .ok r s') :
    totalSize s' = totalSize s + 2 * sbr0.size ∧
    totalThick s' = totalThick s + 2 * sbr0.thickness := by
  unfold splitM at h
  rw [hsb] at h
  dsimp only at h
  rw [show s.newS sbr0 = (s.fresh, (s.newS sbr0).2) from rfl] at h
  dsimp only at h
  set s1 : CRS := (s.newS sbr0).2 with hs1
  have hW1 : WF s1 := WF_newS s sbr0 hW
  have h1tot := totals_newS s sbr0 hW.1 hW.2.2.1
  have hsbkey : sbId < s.fresh := hW.1 (sbId, sbr0) (aGet_mem s.sA sbId sbr0 hsb)
  have hxkey : xId < s.fresh := hW.2.1 (xId, xr) (aGet_mem s.eA xId xr hx)
  have hfr1 : s.fresh < s1.fresh := Nat.lt_succ_self s.fresh
  have hx1ne : xId ≠ s1.fresh := (lt_trans hxkey hfr1).ne
  rw [show s1.newE EB.blank = (s1.fresh, (s1.newE EB.blank).2) from rfl] at h
  dsimp only at h
  set s2 : CRS := (s1.newE EB.blank).2 with hs2
  have hW2 : WF s2 := WF_newE s1 EB.blank hW1
  have h2tot : totalSize s2 = totalSize s1 ∧ totalThick s2 = totalThick s1 := by
    have := totals_newE s1 EB.blank hW1.2.1 hW1.2.2.2.1
    simpa [EB.blank] using this
  have h2x : s2.getE xId = some xr := by
    rw [hs2, getE_newE_old s1 EB.blank xId hx1ne]
    exact hx
  have h2sb : s2.getS sbId = some sbr0 := by
    rw [show s2.getS sbId = s1.getS sbId from rfl, hs1, getS_newS_old s sbr0 sbId hsbkey.ne]
    exact hsb
  have h2f : s2.getS s.fresh = some sbr0 := by
    rw [show s2.getS s.fresh = s1.getS s.fresh from rfl, hs1]
    exact getS_newS_fresh s sbr0 hW.1
  cases hbb : getBackbone O s2 sbId t with
  | error e => rw [hbb] at h; cases h
  | ok pq =>
    obtain ⟨p1, p2⟩ := pq
    rw [hbb] at h
    dsimp only at h
    rw [h2x, h2sb, h2f] at h
    dsimp only at h
    by_cases hor : (orient3 xr.pt p1 p2 == 1) = true
    · rw [if_pos hor] at h
      set A : SB := { sbr0 with right := some (s1.fresh) } with hA
      set B : SB := { sbr0 with left := some (s1.fresh) } with hB
      have hAsz : A.size = sbr0.size := by rw [hA]
      have hAth : A.thickness = sbr0.thickness := by rw [hA]
      have hBsz : B.size = sbr0.size := by rw [hB]
      have hBth : B.thickness = sbr0.thickness := by rw [hB]
      set s3 : CRS := (s2.setS sbId A).setS s.fresh B with hs3
      have hmid : (s2.setS sbId A).getS s.fresh = some sbr0 := by
        rw [getS_setS_ne s2 sbId s.fresh A hsbkey.ne']
        exact h2f
      have h3sz : totalSize s3 = totalSize s2 := by
        rw [hs3, (totals_setS_links (s2.setS sbId A) s.fresh B sbr0 hmid hBsz hBth).1,
          (totals_setS_links s2 sbId A sbr0 h2sb hAsz hAth).1]
      have h3th : totalThick s3 = totalThick s2 := by
        rw [hs3, (totals_setS_links (s2.setS sbId A) s.fresh B sbr0 hmid hBsz hBth).2,
          (totals_setS_links s2 sbId A sbr0 h2sb hAsz hAth).2]
      have hA3 : s3.getS sbId = some A := by
        rw [hs3, getS_setS_ne (s2.setS sbId A) s.fresh sbId B hsbkey.ne]
        exact getS_setS_self s2 sbId A sbr0 h2sb
      have hB3 : s3.getS s.fresh = some B := by
        rw [hs3]
        exact getS_setS_self (s2.setS sbId A) s.fresh B sbr0 hmid
      rw [hA3] at h
      dsimp only at h
      cases hnx : A.nextEB (s1.fresh) with
      | error e => rw [hnx] at h; cases h
      | ok nO =>
        rw [hnx] at h
        dsimp only at h
        cases hde : s3.derefE nO with
        | error e => rw [hde] at h; cases h
        | ok p =>
          obtain ⟨nid, nR⟩ := p
          rw [hde] at h
          dsimp only at h
          set A4 : SB := { A with is_terminal := nR.is_terminal } with hA4
          set s4 : CRS := s3.setS sbId A4 with hs4
          have h4tot := totals_setS_links s3 sbId A4 A hA3 (by rw [hA4]) (by rw [hA4])
          have h4f : s4.getS s.fresh = some B := by
            rw [hs4, getS_setS_ne s3 sbId s.fresh A4 hsbkey.ne']
            exact hB3
          rw [h4f] at h
          dsimp only at h
          cases hnx2 : B.nextEB (s1.fresh) with
          | error e => rw [hnx2] at h; cases h
          | ok n2O =>
            rw [hnx2] at h
            dsimp only at h
            cases hde2 : s4.derefE n2O with
            | error e => rw [hde2] at h; cases h
            | ok q =>
              obtain ⟨n2id, n2R⟩ := q
              rw [hde2] at h
              dsimp only at h
              set B5 : SB := { B with is_terminal := n2R.is_terminal } with hB5
              set s5 : CRS := s4.setS s.fresh B5 with hs5
              have h5tot := totals_setS_links s4 s.fresh B5 B h4f (by rw [hB5]) (by rw [hB5])
              have h5sb : s5.getS sbId = some A4 := by
                rw [hs5, getS_setS_ne s4 s.fresh sbId B5 hsbkey.ne, hs4]
                exact getS_setS_self s3 sbId A4 A hA3
              have h5x : s5.getE xId = some xr := h2x
              rw [h5sb, h5x] at h
              dsimp only at h
              have h5blank : s5.getE (s1.fresh) = some EB.blank := by
                have : s2.getE (s1.fresh) = some EB.blank := getE_newE_fresh s1 EB.blank hW1.2.1
                exact this
              have h5elcount : s5.eL.count (s1.fresh) = 1 := by
                have he5 : s5.eL = s.eL ++ [s1.fresh] := rfl
                rw [he5, List.count_append, count_eq_zero_of_lt s.eL (s1.fresh)
                  (fun j hj => lt_trans (hW.2.2.2.1 j hj) hfr1)]
                simp
              set ebRec : EB := { ptId := xr.ptId, pt := xr.pt, left := some sbId, right := some s.fresh, inner := some xId, size := A4.size, thickness := A4.thickness, layer_thickness := if xr.is_terminal = true then xr.layer_thickness + xr.thickness / 2 else xr.layer_thickness + xr.thickness, is_terminal := false, orientation := 0 } with hebRec
              set s6 : CRS := s5.setE (s1.fresh) ebRec with hs6
              have h6sz : totalSize s6 = totalSize s5 + A4.size := by
                rw [hs6, totalSize_setE s5 (s1.fresh) ebRec EB.blank h5blank, h5elcount, hebRec]
                push_cast
                simp [EB.blank]
              have h6th : totalThick s6 = totalThick s5 + A4.thickness := by
                rw [hs6, totalThick_setE s5 (s1.fresh) ebRec EB.blank h5blank, h5elcount, hebRec]
                push_cast
                simp [EB.blank]
              have h6f : s6.getS s.fresh = some B5 := by
                rw [hs6]
                rw [show (s5.setE (s1.fresh) ebRec).getS s.fresh = s5.getS s.fresh from rfl, hs5]
                exact getS_setS_self s4 s.fresh B5 B h4f
              rw [h6f] at h
              dsimp only at h
              cases hnx3 : B5.nextEB (s1.fresh) with
              | error e => rw [hnx3] at h; cases h
              | ok ebRightO =>
                rw [hnx3] at h
                dsimp only at h
                cases hre : reassignLoop sbId s.fresh fuel ebRightO s6 with
                | err e s7 => rw [hre] at h; cases h
                | ok u7 s7 =>
                  rw [hre] at h
                  dsimp only at h
                  have hevo7 : LinkEvoE s6 s7 :=
                    reassignLoop_evo sbId s.fresh fuel ebRightO s6 s7 u7 hre
                  have h7tot := hevo7.totals_eq
                  have h6x : s6.getE xId = some xr := by
                    rw [hs6, getE_setE_ne s5 (s1.fresh) xId ebRec hx1ne]
                    exact h5x
                  obtain ⟨xr7, h7x, hterm7, hsz7, hth7⟩ := hevo7.termAtE_eq xId xr h6x
                  rw [h7x] at h
                  dsimp only at h
                  rw [if_pos (hterm7.trans hxt)] at h
                  cases h
                  constructor
                  · rw [h7tot.1, h6sz, h5tot.1, h4tot.1, h3sz, h2tot.1, h1tot.1, hA4, hAsz]
                    ring
                  · rw [h7tot.2, h6th, h5tot.2, h4tot.2, h3th, h2tot.2, h1tot.2, hA4, hAth]
                    ring
    · rw [if_neg hor] at h
      set A : SB := { sbr0 with left := some (s1.fresh) } with hA
      set B : SB := { sbr0 with right := some (s1.fresh) } with hB
      have hAsz : A.size = sbr0.size := by rw [hA]
      have hAth : A.thickness = sbr0.thickness := by rw [hA]
      have hBsz : B.size = sbr0.size := by rw [hB]
      have hBth : B.thickness = sbr0.thickness := by rw [hB]
      set s3 : CRS := (s2.setS sbId A).setS s.fresh B with hs3
      have hmid : (s2.setS sbId A).getS s.fresh = some sbr0 := by
        rw [getS_setS_ne s2 sbId s.fresh A hsbkey.ne']
        exact h2f
      have h3sz : totalSize s3 = totalSize s2 := by
        rw [hs3, (totals_setS_links (s2.setS sbId A) s.fresh B sbr0 hmid hBsz hBth).1,
          (totals_setS_links s2 sbId A sbr0 h2sb hAsz hAth).1]
      have h3th : totalThick s3 = totalThick s2 := by
        rw [hs3, (totals_setS_links (s2.setS sbId A) s.fresh B sbr0 hmid hBsz hBth).2,
          (totals_setS_links s2 sbId A sbr0 h2sb hAsz hAth).2]
      have hA3 : s3.getS sbId = some A := by
        rw [hs3, getS_setS_ne (s2.setS sbId A) s.fresh sbId B hsbkey.ne]
        exact getS_setS_self s2 sbId A sbr0 h2sb
      have hB3 : s3.getS s.fresh = some B := by
        rw [hs3]
        exact getS_setS_self (s2.setS sbId A) s.fresh B sbr0 hmid
      rw [hA3] at h
      dsimp only at h
      cases hnx : A.nextEB (s1.fresh) with
      | error e => rw [hnx] at h; cases h
      | ok nO =>
        rw [hnx] at h
        dsimp only at h
        cases hde : s3.derefE nO with
        | error e => rw [hde] at h; cases h
        | ok p =>
          obtain ⟨nid, nR⟩ := p
          rw [hde] at h
          dsimp only at h
          set A4 : SB := { A with is_terminal := nR.is_terminal } with hA4
          set s4 : CRS := s3.setS sbId A4 with hs4
          have h4tot := totals_setS_links s3 sbId A4 A hA3 (by rw [hA4]) (by rw [hA4])
          have h4f : s4.getS s.fresh = some B := by
            rw [hs4, getS_setS_ne s3 sbId s.fresh A4 hsbkey.ne']
            exact hB3
          rw [h4f] at h
          dsimp only at h
          cases hnx2 : B.nextEB (s1.fresh) with
          | error e => rw [hnx2] at h; cases h
          | ok n2O =>
            rw [hnx2] at h
            dsimp only at h
            cases hde2 : s4.derefE n2O with
            | error e => rw [hde2] at h; cases h
            | ok q =>
              obtain ⟨n2id, n2R⟩ := q
              rw [hde2] at h
              dsimp only at h
              set B5 : SB := { B with is_terminal := n2R.is_terminal } with hB5
              set s5 : CRS := s4.setS s.fresh B5 with hs5
              have h5tot := totals_setS_links s4 s.fresh B5 B h4f (by rw [hB5]) (by rw [hB5])
              have h5sb : s5.getS sbId = some A4 := by
                rw [hs5, getS_setS_ne s4 s.fresh sbId B5 hsbkey.ne, hs4]
                exact getS_setS_self s3 sbId A4 A hA3
              have h5x : s5.getE xId = some xr := h2x
              rw [h5sb, h5x] at h
              dsimp only at h
              have h5blank : s5.getE (s1.fresh) = some EB.blank := by
                have : s2.getE (s1.fresh) = some EB.blank := getE_newE_fresh s1 EB.blank hW1.2.1
                exact this
              have h5elcount : s5.eL.count (s1.fresh) = 1 := by
                have he5 : s5.eL = s.eL ++ [s1.fresh] := rfl
                rw [he5, List.count_append, count_eq_zero_of_lt s.eL (s1.fresh)
                  (fun j hj => lt_trans (hW.2.2.2.1 j hj) hfr1)]
                simp
              set ebRec : EB := { ptId := xr.ptId, pt := xr.pt, left := some sbId, right := some s.fresh, inner := some xId, size := A4.size, thickness := A4.thickness, layer_thickness := if xr.is_terminal = true then xr.layer_thickness + xr.thickness / 2 else xr.layer_thickness + xr.thickness, is_terminal := false, orientation := 0 } with hebRec
              set s6 : CRS := s5.setE (s1.fresh) ebRec with hs6
              have h6sz : totalSize s6 = totalSize s5 + A4.size := by
                rw [hs6, totalSize_setE s5 (s1.fresh) ebRec EB.blank h5blank, h5elcount, hebRec]
                push_cast
                simp [EB.blank]
              have h6th : totalThick s6 = totalThick s5 + A4.thickness := by
                rw [hs6, totalThick_setE s5 (s1.fresh) ebRec EB.blank h5blank, h5elcount, hebRec]
                push_cast
                simp [EB.blank]
              have h6f : s6.getS s.fresh = some B5 := by
                rw [hs6]
                rw [show (s5.setE (s1.fresh) ebRec).getS s.fresh = s5.getS s.fresh from rfl, hs5]
                exact getS_setS_self s4 s.fresh B5 B h4f
              rw [h6f] at h
              dsimp only at h
              cases hnx3 : B5.nextEB (s1.fresh) with
              | error e => rw [hnx3] at h; cases h
              | ok ebRightO =>
                rw [hnx3] at h
                dsimp only at h
                cases hre : reassignLoop sbId s.fresh fuel ebRightO s6 with
                | err e s7 => rw [hre] at h; cases h
                | ok u7 s7 =>
                  rw [hre] at h
                  dsimp only at h
                  have hevo7 : LinkEvoE s6 s7 :=
                    reassignLoop_evo sbId s.fresh fuel ebRightO s6 s7 u7 hre
                  have h7tot := hevo7.totals_eq
                  have h6x : s6.getE xId = some xr := by
                    rw [hs6, getE_setE_ne s5 (s1.fresh) xId ebRec hx1ne]
                    exact h5x
                  obtain ⟨xr7, h7x, hterm7, hsz7, hth7⟩ := hevo7.termAtE_eq xId xr h6x
                  rw [h7x] at h
                  dsimp only at h
                  rw [if_pos (hterm7.trans hxt)] at h
                  cases h
                  constructor
                  · rw [h7tot.1, h6sz, h5tot.1, h4tot.1, h3sz, h2tot.1, h1tot.1, hA4, hAsz]
                    ring
                  · rw [h7tot.2, h6th, h5tot.2, h4tot.2, h3th, h2tot.2, h1tot.2, hA4, hAth]
                    ring

lemma removeE_getS (s : CRS) (i : ℕ) (u : Unit) (s2 : CRS) (h : removeE s i = .ok u s2)
    (j : ℕ) : s2.getS j = s.getS j := by
  unfold removeE at h
  by_cases hc : s.eL.contains i
  · rw [if_pos hc] at h
    cases h
    rfl
  · rw [if_neg hc] at h
    cases h

lemma mergeM_no_divide_delta (fuel sb1 eb sb2 : ℕ) (s : CRS) (r1 r2 : SB) (ebr : EB)
    (hne : sb2 ≠ sb1)
    (h1 : s.getS sb1 = some r1) (h2 : s.getS sb2 = some r2) (he : s.getE eb = some ebr)
    (hc1 : r1.conn eb = true) (hc2 : r2.conn eb = true)
    (hlt1 : ¬ ebr.size < r1.size) (hlt2 : ¬ ebr.size < r2.size)
    (v : ℕ) (s' : CRS) (h : mergeM fuel sb1 eb sb2 s = .ok v s') :
    totalSize s' = totalSize s - ebr.size - r2.size ∧
    totalThick s' = totalThick s - ebr.thickness - r2.thickness := by
  unfold mergeM at h
  rw [h1] at h
  dsimp only at h
  rw [hc1] at h
  simp only [Bool.not_true, Bool.false_eq_true, if_false] at h
  rw [h2] at h
  dsimp only at h
  rw [hc2] at h
  simp only [Bool.not_true, Bool.false_eq_true, if_false] at h
  rw [he] at h
  dsimp only at h
  rw [if_neg hlt1] at h
  dsimp only at h
  rw [h2, he] at h
  dsimp only at h
  rw [if_neg hlt2] at h
  dsimp only at h
  rw [h2] at h
  dsimp only at h
  cases hnx : r2.nextEB eb with
  | error e => rw [hnx] at h; cases h
  | ok ebRightO =>
    rw [hnx] at h
    dsimp only at h
    rw [h1] at h
    dsimp only at h
    set v3 : SB := if r1.right == some eb then { r1 with right := ebRightO }
      else { r1 with left := ebRightO } with hv3
    have hv3c : v3.size = r1.size ∧ v3.thickness = r1.thickness := by
      rw [hv3]
      by_cases hb : (r1.right == some eb) = true <;> simp [hb]
    set s3 : CRS := s.setS sb1 v3 with hs3
    have h3tot := totals_setS_links s sb1 v3 r1 h1 hv3c.1 hv3c.2
    have h3a : s3.getS sb1 = some v3 := by
      rw [hs3]
      exact getS_setS_self s sb1 v3 r1 h1
    have h3b : s3.getS sb2 = some r2 := by
      rw [hs3, getS_setS_ne s sb1 sb2 v3 hne]
      exact h2
    rw [h3a, h3b] at h
    dsimp only at h
    set v4 : SB := { v3 with is_terminal := v3.is_terminal || r2.is_terminal } with hv4
    set s4 : CRS := s3.setS sb1 v4 with hs4
    have h4tot := totals_setS_links s3 sb1 v4 v3 h3a (by rw [hv4]) (by rw [hv4])
    have h4b : s4.getS sb2 = some r2 := by
      rw [hs4, getS_setS_ne s3 sb1 sb2 v4 hne]
      exact h3b
    cases hre : reassignLoop sb2 sb1 fuel ebRightO s4 with
    | err e s5 => rw [hre] at h; cases h
    | ok u5 s5 =>
      rw [hre] at h
      dsimp only at h
      have hevo5 : LinkEvoE s4 s5 := reassignLoop_evo sb2 sb1 fuel ebRightO s4 s5 u5 hre
      have h5tot := hevo5.totals_eq
      have h4eb : s4.getE eb = some ebr := he
      cases hrm : removeE s5 eb with
      | err e s6 => rw [hrm] at h; cases h
      | ok u6 s6 =>
        rw [hrm] at h
        dsimp only at h
        have h6tot := totals_removeE s5 eb s6 hrm
        have h5ebsz : sizeAtE s5 eb = ebr.size := by
          rw [hevo5.sizeAtE_eq eb]
          simp [sizeAtE, h4eb]
        have h5ebth : thickAtE s5 eb = ebr.thickness := by
          rw [hevo5.thickAtE_eq eb]
          simp [thickAtE, h4eb]
        cases hrm2 : removeS s6 sb2 with
        | err e s7 => rw [hrm2] at h; cases h
        | ok u7 s7 =>
          rw [hrm2] at h
          dsimp only at h
          cases h
          have h7tot := totals_removeS s6 sb2 s' hrm2
          have hgs : s6.getS sb2 = some r2 := by
            rw [removeE_getS s5 eb u6 s6 hrm sb2, hevo5.getS_eq]
            exact h4b
          have h6sb2sz : sizeAtS s6 sb2 = r2.size := by simp [sizeAtS, hgs]
          have h6sb2th : thickAtS s6 sb2 = r2.thickness := by simp [thickAtS, hgs]
          constructor
          · rw [h7tot.1, h6sb2sz, h6tot.1, h5ebsz, h5tot.1, h4tot.1, h3tot.1]
          · rw [h7tot.2, h6sb2th, h6tot.2, h5ebth, h5tot.2, h4tot.2, h3tot.2]

/-- C1: amended conservation law.  The claim that every one of
split/merge/union/divide conserves the summed `size` and `thickness` of
the live bundles is false: `split` does not conserve them (see the
counterexample).  What holds instead: `union` of two live elbow bundles
and `divide` of a live straight bundle leave both totals unchanged; a
successful `split(sb, x, t)` at a terminal elbow bundle `x` — the case in
which `split` performs no follow-up unions with `x`'s neighbours —
increases the totals by exactly `2 * sb.size` and `2 * sb.thickness` (it
adds a full copy `sb2` of `sb` plus a new elbow bundle carrying `sb`'s
size and thickness, while `sb` keeps its own); and a successful
`merge(sb1, eb, sb2)` that needs no equalizing divides decreases them by
`eb.size + sb2.size` and `eb.thickness + sb2.thickness` (it deletes `eb`
and `sb2`). -/
theorem conservation_amended :
    (∀ (fuel x y : ℕ) (s : CRS) (xr yr : EB), y ≠ x →
      s.getE x = some xr → s.getE y = some yr →
      s.eL.count x = 1 → s.eL.count y = 1 →
      (unionM (fuel + 1) (.e x) (.e y) s).isOk = true →
      totalSize (unionM (fuel + 1) (.e x) (.e y) s).state = totalSize s ∧
      totalThick (unionM (fuel + 1) (.e x) (.e y) s).state = totalThick s) ∧
    (∀ (fuel sbId ebId : ℕ) (s : CRS), WF s → LiveE s → s.sL.count sbId = 1 →
      (divideM fuel sbId ebId s).isOk = true →
      totalSize (divideM fuel sbId ebId s).state = totalSize s ∧
      totalThick (divideM fuel sbId ebId s).state = totalThick s) ∧
    (∀ (O : Orc) (fuel sbId xId : ℕ) (t : ℚ) (s : CRS) (sbr : SB) (xr : EB),
      WF s → s.getS sbId = some sbr → s.getE xId = some xr → xr.is_terminal = true →
      (splitM O fuel sbId xId t s).isOk = true →
      totalSize (splitM O fuel sbId xId t s).state = totalSize s + 2 * sbr.size ∧
      totalThick (splitM O fuel sbId xId t s).state = totalThick s + 2 * sbr.thickness) ∧
    (∀ (fuel sb1 eb sb2 : ℕ) (s : CRS) (r1 r2 : SB) (ebr : EB), sb2 ≠ sb1 →
      s.getS sb1 = some r1 → s.getS sb2 = some r2 → s.getE eb = some ebr →
      r1.conn eb = true → r2.conn eb = true →
      ¬ ebr.size < r1.size → ¬ ebr.size < r2.size →
      (mergeM fuel sb1 eb sb2 s).isOk = true →
      totalSize (mergeM fuel sb1 eb sb2 s).state = totalSize s - ebr.size - r2.size ∧
      totalThick (mergeM fuel sb1 eb sb2 s).state = totalThick s - ebr.thickness - r2.thickness) := by
  refine ⟨?_, ?_, ?_, ?_⟩
  · intro fuel x y s xr yr hxy hx hy hcx hcy hok
    cases hres : unionM (fuel + 1) (.e x) (.e y) s with
    | ok u s2 =>
      exact union_elbow_conserves fuel x y s xr yr hxy hx hy hcx hcy u s2 hres
    | err e s2 => rw [hres] at hok; cases hok
  · intro fuel sbId ebId s hW hL hc hok
    cases hres : divideM fuel sbId ebId s with
    | ok u s2 =>
      exact divideM_conserves fuel sbId ebId s hW hL hc u s2 hres
    | err e s2 => rw [hres] at hok; cases hok
  · intro O fuel sbId xId t s sbr xr hW hsb hx hxt hok
    cases hres : splitM O fuel sbId xId t s with
    | ok u s2 =>
      exact splitM_terminal_adds O fuel sbId xId t s sbr xr hW hsb hx hxt u s2 hres
    | err e s2 => rw [hres] at hok; cases hok
  · intro fuel sb1 eb sb2 s r1 r2 ebr hne h1 h2 he hc1 hc2 hlt1 hlt2 hok
    cases hres : mergeM fuel sb1 eb sb2 s with
    | ok v s2 =>
      exact mergeM_no_divide_delta fuel sb1 eb sb2 s r1 r2 ebr hne h1 h2 he hc1 hc2
        hlt1 hlt2 v s2 hres
    | err e s2 => rw [hres] at hok; cases hok

set_option maxRecDepth 10000 in
unseal Rat.add Rat.sub Rat.mul Rat.inv in
/-- C1 counterexample: on the one-edge structure `ex1` (total size 4,
total thickness 3), a successful split yields total size 6 and total
thickness 5 — the totals are not conserved by `split`. -/
theorem conservation_cex :
    (splitM Oex 30 0 2 (1/10) ex1).isOk = true ∧
    totalSize (splitM Oex 30 0 2 (1/10) ex1).state = 6 ∧ totalSize ex1 = 4 ∧
    totalThick (splitM Oex 30 0 2 (1/10) ex1).state = 5 ∧ totalThick ex1 = 3 := by
  decide

set_option maxRecDepth 10000 in
unseal Rat.add Rat.sub Rat.mul Rat.inv in
/-- C1 witness: the amended theorem instantiated on the live examples
`exU` (union of elbow bundles), `exD` (divide), `ex1` (split at the
terminal obstacle elbow) and `exM` (merge with equal sizes). -/
theorem conservation_witness :
    (totalSize (unionM 10 (.e 0) (.e 1) exU).state = totalSize exU ∧
     totalThick (unionM 10 (.e 0) (.e 1) exU).state = totalThick exU) ∧
    (totalSize (divideM 20 0 1 exD).state = totalSize exD ∧
     totalThick (divideM 20 0 1 exD).state = totalThick exD) ∧
    (totalSize (splitM Oex 30 0 2 (1/10) ex1).state = totalSize ex1 + 2 * 1 ∧
     totalThick (splitM Oex 30 0 2 (1/10) ex1).state = totalThick ex1 + 2 * 1) ∧
    (totalSize (mergeM 10 0 1 1 exM).state = totalSize exM - 1 - 1 ∧
     totalThick (mergeM 10 0 1 1 exM).state = totalThick exM - 1 - 1) := by
  obtain ⟨hA, hB, hC, hD⟩ := conservation_amended
  refine ⟨hA 9 0 1 exU ⟨0, ⟨0, 0⟩, some 0, some 0, some 1, 2, 3, 5, false, 1⟩
      ⟨0, ⟨0, 0⟩, some 0, some 0, none, 1, 2, 0, false, 1⟩
      (by decide) rfl rfl (by decide) (by decide) (by decide),
    hB 20 0 1 exD (by decide) (by decide) (by decide) (by decide),
    hC Oex 30 0 2 (1/10) ex1 ⟨some 0, some 1, 1, 1, true⟩
      ⟨2, ⟨3, 5⟩, none, none, none, 1, 0, 0, true, 0⟩
      (by decide) rfl rfl rfl (by decide),
    hD 10 0 1 1 exM ⟨some 0, some 1, 1, 1, false⟩ ⟨some 1, some 2, 1, 1, false⟩
      ⟨1, ⟨2, 0⟩, some 0, some 1, none, 1, 1, 0, false, 1⟩
      (by decide) rfl rfl rfl rfl rfl (by decide) (by decide) (by decide)⟩

lemma aGet_skel {α β : Type} (sk : α → β) : ∀ (l l' : List (ℕ × α)),
    l.map (fun p => (p.1, sk p.2)) = l'.map (fun p => (p.1, sk p.2)) →
    ∀ j, Option.map sk (aGet l j) = Option.map sk (aGet l' j) := by
  intro l
  induction l with
  | nil =>
    intro l' hm j
    cases l' with
    | nil => rfl
    | cons q tl' => cases hm
  | cons p tl ih =>
    intro l' hm j
    cases l' with
    | nil => cases hm
    | cons q tl' =>
      obtain ⟨k, a⟩ := p
      obtain ⟨k', b⟩ := q
      simp only [List.map_cons, List.cons.injEq, Prod.mk.injEq] at hm
      obtain ⟨⟨hk, hsk⟩, htl⟩ := hm
      subst hk
      by_cases hj : k = j
      · subst hj
        simp [aGet, hsk]
      · simp only [aGet, if_neg hj]
        exact ih tl' htl j

lemma aSet_not_mem {α : Type} : ∀ (l : List (ℕ × α)) (i : ℕ) (v : α),
    (∀ p ∈ l, p.1 ≠ i) → aSet l i v = l := by
  intro l
  induction l with
  | nil => intro i v _; rfl
  | cons p tl ih =>
    intro i v hp
    obtain ⟨k, a⟩ := p
    have hk : k ≠ i := hp (k, a) (List.mem_cons_self _ _)
    simp only [aSet, if_neg hk]
    rw [ih i v (fun q hq => hp q (List.mem_cons_of_mem _ hq))]

lemma aSet_skel {α β : Type} (sk : α → β) : ∀ (l : List (ℕ × α)) (i : ℕ) (v r : α),
    aGet l i = some r → sk v = sk r → (l.map Prod.fst).Nodup →
    (aSet l i v).map (fun p => (p.1, sk p.2)) = l.map (fun p => (p.1, sk p.2)) := by
  intro l
  induction l with
  | nil => intro i v r hg; cases hg
  | cons p tl ih =>
    intro i v r hg hsk hnod
    obtain ⟨k, a⟩ := p
    simp only [List.map_cons, List.nodup_cons] at hnod
    by_cases hk : k = i
    · subst hk
      simp only [aGet, if_pos rfl] at hg
      cases hg
      have hmem : ∀ p ∈ tl, p.1 ≠ k := by
        intro q hq hqk
        exact hnod.1 (List.mem_map.mpr ⟨q, hq, hqk⟩)
      simp only [aSet, if_pos rfl, if_true, List.map_cons, aSet_not_mem tl k v hmem, hsk]
    · simp only [aGet, if_neg hk] at hg
      simp only [aSet, if_neg hk, List.map_cons]
      rw [ih i v r hg hsk hnod.2]

lemma arena_ext {α β γ : Type} (sk : α → β) (val : α → γ)
    (hinj : ∀ a b, sk a = sk b → val a = val b → a = b) :
    ∀ (l l' : List (ℕ × α)),
    l.map (fun p => (p.1, sk p.2)) = l'.map (fun p => (p.1, sk p.2)) →
    (l.map Prod.fst).Nodup →
    (∀ j, (aGet l j).map val = (aGet l' j).map val) → l = l' := by
  intro l
  induction l with
  | nil =>
    intro l' hm _ _
    cases l' with
    | nil => rfl
    | cons q tl' => cases hm
  | cons p tl ih =>
    intro l' hm hnod hv
    cases l' with
    | nil => cases hm
    | cons q tl' =>
      obtain ⟨k, a⟩ := p
      obtain ⟨k', b⟩ := q
      simp only [List.map_cons, List.cons.injEq, Prod.mk.injEq] at hm
      obtain ⟨⟨hk, hsk⟩, htl⟩ := hm
      subst hk
      simp only [List.map_cons, List.nodup_cons] at hnod
      have hvk := hv k
      simp only [aGet, if_pos rfl, Option.map_some] at hvk
      have hab : a = b := hinj a b hsk (by injection hvk)
      subst hab
      have htails : tl = tl' := by
        refine ih tl' htl hnod.2 ?_
        intro j
        by_cases hj : j = k
        · subst hj
          have hnone : aGet tl j = none := by
            cases hga : aGet tl j with
            | none => rfl
            | some c =>
              exact absurd (List.mem_map.mpr ⟨(j, c), aGet_mem tl j c hga, rfl⟩) hnod.1
          have hkeys : tl'.map Prod.fst = tl.map Prod.fst := by
            have h1 : (tl.map (fun p => (p.1, sk p.2))).map Prod.fst = tl.map Prod.fst := by
              rw [List.map_map]
              rfl
            have h2 : (tl'.map (fun p => (p.1, sk p.2))).map Prod.fst = tl'.map Prod.fst := by
              rw [List.map_map]
              rfl
            rw [← h1, ← h2, htl]
          have hnone2 : aGet tl' j = none := by
            cases hga : aGet tl' j with
            | none => rfl
            | some c =>
              have hmm : j ∈ tl'.map Prod.fst :=
                List.mem_map.mpr ⟨(j, c), aGet_mem tl' j c hga, rfl⟩
              rw [hkeys] at hmm
              exact absurd hmm hnod.1
          rw [hnone, hnone2]
        · have h1 := hv j
          simp only [aGet, if_neg (fun hh : k = j => hj hh.symm)] at h1
          exact h1
      rw [htails]

lemma sb_ext (a b : SB) (h1 : sbSkel a = sbSkel b) (h2 : a.thickness = b.thickness) :
    a = b := by
  obtain ⟨l1, r1, s1, t1, i1⟩ := a
  obtain ⟨l2, r2, s2, t2, i2⟩ := b
  simp only [sbSkel, Prod.mk.injEq] at h1
  simp_all

lemma eb_ext (a b : EB) (h1 : ebSkel a = ebSkel b)
    (h2 : (a.thickness, a.layer_thickness) = (b.thickness, b.layer_thickness)) : a = b := by
  obtain ⟨p1, q1, l1, r1, n1, s1, t1, y1, i1, o1⟩ := a
  obtain ⟨p2, q2, l2, r2, n2, s2, t2, y2, i2, o2⟩ := b
  simp only [ebSkel, Prod.mk.injEq] at h1 h2
  simp_all

lemma SkelEq.srefl (s : CRS) : SkelEq s s := ⟨rfl, rfl, rfl, rfl, rfl, rfl⟩

lemma SkelEq.symm {s t : CRS} (h : SkelEq s t) : SkelEq t s :=
  ⟨h.1.symm, h.2.1.symm, h.2.2.1.symm, h.2.2.2.1.symm, h.2.2.2.2.1.symm, h.2.2.2.2.2.symm⟩

lemma SkelEq.strans {s t u : CRS} (h : SkelEq s t) (h' : SkelEq t u) : SkelEq s u :=
  ⟨h.1.trans h'.1, h.2.1.trans h'.2.1, h.2.2.1.trans h'.2.2.1, h.2.2.2.1.trans h'.2.2.2.1,
   h.2.2.2.2.1.trans h'.2.2.2.2.1, h.2.2.2.2.2.trans h'.2.2.2.2.2⟩

lemma SkelEq.getS_skel {s t : CRS} (h : SkelEq s t) (j : ℕ) :
    Option.map sbSkel (s.getS j) = Option.map sbSkel (t.getS j) :=
  aGet_skel sbSkel s.sA t.sA h.2.2.2.2.1 j

lemma SkelEq.getE_skel {s t : CRS} (h : SkelEq s t) (j : ℕ) :
    Option.map ebSkel (s.getE j) = Option.map ebSkel (t.getE j) :=
  aGet_skel ebSkel s.eA t.eA h.2.2.2.2.2 j

lemma SkelEq.getS_match {s t : CRS} (h : SkelEq s t) (j : ℕ) (r : SB)
    (hg : s.getS j = some r) : ∃ r2, t.getS j = some r2 ∧ sbSkel r2 = sbSkel r := by
  have := h.getS_skel j
  rw [hg] at this
  cases hg2 : t.getS j with
  | none =>
    rw [hg2] at this
    have h2 : some (sbSkel r) = (none : Option (Option ℕ × Option ℕ × ℤ × Bool)) := this
    cases h2
  | some r2 =>
    rw [hg2] at this
    have h2 : some (sbSkel r) = some (sbSkel r2) := this
    injection h2 with h3
    exact ⟨r2, rfl, h3.symm⟩

lemma SkelEq.getE_match {s t : CRS} (h : SkelEq s t) (j : ℕ) (r : EB)
    (hg : s.getE j = some r) : ∃ r2, t.getE j = some r2 ∧ ebSkel r2 = ebSkel r := by
  have := h.getE_skel j
  rw [hg] at this
  cases hg2 : t.getE j with
  | none =>
    rw [hg2] at this
    have h2 : some (ebSkel r) =
        (none : Option (ℕ × Pnt × Option ℕ × Option ℕ × Option ℕ × ℤ × Bool × ℕ)) := this
    cases h2
  | some r2 =>
    rw [hg2] at this
    have h2 : some (ebSkel r) = some (ebSkel r2) := this
    injection h2 with h3
    exact ⟨r2, rfl, h3.symm⟩

lemma SkelEq.setS_self {s : CRS} (i : ℕ) (v r : SB) (hg : s.getS i = some r)
    (hsk : sbSkel v = sbSkel r) (hnod : (s.sA.map Prod.fst).Nodup) :
    SkelEq s (s.setS i v) :=
  ⟨rfl, rfl, rfl, rfl, (aSet_skel sbSkel s.sA i v r hg hsk hnod).symm, rfl⟩

lemma SkelEq.setE_self {s : CRS} (i : ℕ) (v r : EB) (hg : s.getE i = some r)
    (hsk : ebSkel v = ebSkel r) (hnod : (s.eA.map Prod.fst).Nodup) :
    SkelEq s (s.setE i v) :=
  ⟨rfl, rfl, rfl, rfl, rfl, (aSet_skel ebSkel s.eA i v r hg hsk hnod).symm⟩

lemma SkelEq.ext {s t : CRS} (h : SkelEq s t)
    (hnodS : (s.sA.map Prod.fst).Nodup) (hnodE : (s.eA.map Prod.fst).Nodup)
    (hts : ∀ j, (s.getS j).map SB.thickness = (t.getS j).map SB.thickness)
    (hte : ∀ j, (s.getE j).map (fun r => (r.thickness, r.layer_thickness)) =
      (t.getE j).map (fun r => (r.thickness, r.layer_thickness))) : s = t := by
  obtain ⟨h1, h2, h3, h4, h5, h6⟩ := h
  have hsA : s.sA = t.sA :=
    arena_ext sbSkel SB.thickness (fun a b ha hb => sb_ext a b ha hb) s.sA t.sA h5 hnodS hts
  have heA : s.eA = t.eA :=
    arena_ext ebSkel (fun r => (r.thickness, r.layer_thickness))
      (fun a b ha hb => eb_ext a b ha hb) s.eA t.eA h6 hnodE hte
  cases s
  cases t
  simp_all

lemma sizeAtS_of_map {s s2 : CRS} {j : ℕ}
    (h : (s2.getS j).map SB.size = (s.getS j).map SB.size) :
    sizeAtS s2 j = sizeAtS s j := by
  unfold sizeAtS
  cases h1 : s.getS j with
  | none =>
    rw [h1] at h
    cases h2 : s2.getS j with
    | none => rfl
    | some r2 =>
      rw [h2] at h
      have h3 : some r2.size = (none : Option ℤ) := h
      cases h3
  | some r =>
    rw [h1] at h
    cases h2 : s2.getS j with
    | none =>
      rw [h2] at h
      have h3 : (none : Option ℤ) = some r.size := h
      cases h3
    | some r2 =>
      rw [h2] at h
      have h3 : some r2.size = some r.size := h
      injection h3

lemma TFrame.tfrefl (b c : ℕ) (s : CRS) : TFrame b c s s :=
  ⟨rfl, le_refl _, fun _ _ _ => rfl, rfl, rfl, id⟩

lemma TFrame.tftrans {b c : ℕ} {s t u : CRS} (h : TFrame b c s t) (h' : TFrame b c t u) :
    TFrame b c s u := by
  obtain ⟨a1, a2, a3, a4, a5, a6⟩ := h
  obtain ⟨b1, b2, b3, b4, b5, b6⟩ := h'
  exact ⟨b1.trans a1, a2.trans b2, fun j hj1 hj2 => (b3 j hj1 hj2).trans (a3 j hj1 hj2),
    b4.trans a4, b5.trans a5, fun hw => b6 (a6 hw)⟩

lemma TFrame.setS_b (b c : ℕ) (s : CRS) (r v : SB) (hg : s.getS b = some r)
    (hsz : v.size = r.size) : TFrame b c s (s.setS b v) := by
  refine ⟨rfl, le_refl _, ?_, ?_, ?_, WF_setS s b v⟩
  · intro j hj1 _
    exact getS_setS_ne s b j v hj1
  · rw [getS_setS_self s b v r hg, hg]
    simp [hsz]
  · by_cases hcb : c = b
    · subst hcb
      rw [getS_setS_self s c v r hg, hg]
      simp [hsz]
    · rw [getS_setS_ne s b c v hcb]

lemma TFrame.setS_c (b c : ℕ) (s : CRS) (r v : SB) (hg : s.getS c = some r)
    (hsz : v.size = r.size) : TFrame b c s (s.setS c v) := by
  refine ⟨rfl, le_refl _, ?_, ?_, ?_, WF_setS s c v⟩
  · intro j _ hj2
    exact getS_setS_ne s c j v hj2
  · by_cases hbc : b = c
    · subst hbc
      rw [getS_setS_self s b v r hg, hg]
      simp [hsz]
    · rw [getS_setS_ne s c b v hbc]
  · rw [getS_setS_self s c v r hg, hg]
    simp [hsz]

lemma TFrame.tfsetE (b c : ℕ) (s : CRS) (i : ℕ) (v : EB) : TFrame b c s (s.setE i v) :=
  ⟨rfl, le_refl _, fun _ _ _ => rfl, rfl, rfl, WF_setE s i v⟩

lemma TFrame.newE (b c : ℕ) (s : CRS) (v : EB) : TFrame b c s (s.newE v).2 :=
  ⟨rfl, Nat.le_succ _, fun _ _ _ => rfl, rfl, rfl, WF_newE s v⟩

lemma tearRightWalk_state (b : ℕ) (fuel : ℕ) : ∀ (cur : ℕ) (s : CRS) (r : ℕ) (s2 : CRS),
    tearRightWalk b fuel cur s = .ok r s2 → s2 = s := by
  induction fuel with
  | zero => intro cur s r s2 h; cases h
  | succ n ih =>
    intro cur s r s2 h
    simp only [tearRightWalk] at h
    cases hg : s.getE cur with
    | none => rw [hg] at h; cases h
    | some rr =>
      rw [hg] at h
      dsimp only at h
      cases hin : rr.inner with
      | none => rw [hin] at h; cases h
      | some i =>
        rw [hin] at h
        dsimp only at h
        cases hg2 : s.getE i with
        | none => rw [hg2] at h; cases h
        | some ir =>
          rw [hg2] at h
          dsimp only at h
          by_cases hc : ir.conn b = true
          · rw [if_pos hc] at h
            exact ih i s r s2 h
          · rw [if_neg hc] at h
            cases h
            rfl

lemma tearM_shape (fuel b : ℕ) (s : CRS) (br : SB) (hW : WF s) (hg : s.getS b = some br)
    (u : Unit) (s2 : CRS) (h : tearM fuel b s = .ok u s2) :
    s2 = s ∨
    (WF s2 ∧ s2.sL = s.sL ++ [s.fresh] ∧ s.fresh < s2.fresh ∧
     sizeAtS s2 s.fresh = 1 ∧ ∀ j, j ≠ b → j ≠ s.fresh → s2.getS j = s.getS j) := by
  unfold tearM at h
  rw [hg] at h
  dsimp only at h
  by_cases h1 : (br.size == 1) = true
  · rw [if_pos h1] at h
    cases h
    exact Or.inl rfl
  · rw [if_neg h1] at h
    rw [show s.newS SB.blank = (s.fresh, (s.newS SB.blank).2) from rfl] at h
    dsimp only at h
    set s1 : CRS := (s.newS SB.blank).2 with hs1
    set cr2 : SB := { SB.blank with size := 1 } with hcr2
    set s2a : CRS := s1.setS s.fresh cr2 with hs2a
    set br3 : SB := { br with size := br.size - 1 } with hbr3
    set s3 : CRS := s2a.setS b br3 with hs3
    have hbfresh : b < s.fresh := hW.1 (b, br) (aGet_mem s.sA b br hg)
    have hW3 : WF s3 := WF_setS s2a b br3 (WF_setS s1 s.fresh cr2 (WF_newS s SB.blank hW))
    have h3sl : s3.sL = s.sL ++ [s.fresh] := rfl
    have h3fresh : s3.fresh = s.fresh + 1 := rfl
    have h3c : s3.getS s.fresh = some cr2 := by
      rw [hs3, getS_setS_ne s2a b s.fresh br3 hbfresh.ne', hs2a]
      exact getS_setS_self s1 s.fresh cr2 SB.blank (getS_newS_fresh s SB.blank hW.1)
    have h3frame : ∀ j, j ≠ b → j ≠ s.fresh → s3.getS j = s.getS j := by
      intro j hj1 hj2
      rw [hs3, getS_setS_ne s2a b j br3 hj1, hs2a, getS_setS_ne s1 s.fresh j cr2 hj2, hs1,
        getS_newS_old s SB.blank j hj2]
    have conclude : ∀ sf : CRS, TFrame b s.fresh s3 sf →
        WF sf ∧ sf.sL = s.sL ++ [s.fresh] ∧ s.fresh < sf.fresh ∧
        sizeAtS sf s.fresh = 1 ∧ ∀ j, j ≠ b → j ≠ s.fresh → sf.getS j = s.getS j := by
      intro sf hTF
      obtain ⟨f1, f2, f3, f4, f5, f6⟩ := hTF
      refine ⟨f6 hW3, f1.trans h3sl, ?_, ?_, ?_⟩
      · have : s.fresh < s3.fresh := by rw [h3fresh]; omega
        exact lt_of_lt_of_le this f2
      · rw [sizeAtS_of_map f5]
        simp [sizeAtS, h3c, hcr2, SB.blank]
      · intro j hj1 hj2
        rw [f3 j hj1 hj2, h3frame j hj1 hj2]
    cases hdl : s3.derefE br3.left with
    | error e => rw [hdl] at h; cases h
    | ok pl =>
      obtain ⟨elId, elr⟩ := pl
      rw [hdl] at h
      dsimp only at h
      cases hdr : s3.derefE br3.right with
      | error e => rw [hdr] at h; cases h
      | ok pr =>
        obtain ⟨erId, rer⟩ := pr
        rw [hdr] at h
        dsimp only at h
        set cl4 : SB := { cr2 with left := some elId } with hcl4
        set s4 : CRS := s3.setS s.fresh cl4 with hs4
        have hTF4 : TFrame b s.fresh s3 s4 :=
          TFrame.setS_c b s.fresh s3 cr2 cl4 h3c (by rw [hcl4])
        set elr2 : EB := if elr.right == some b then { elr with right := some s.fresh }
          else { elr with left := some s.fresh } with helr2
        set s5 : CRS := s4.setE elId elr2 with hs5
        have hTF5 : TFrame b s.fresh s3 s5 := hTF4.tftrans (TFrame.tfsetE b s.fresh s4 elId elr2)
        by_cases hlp : (elr2.size == 1) = true
        · rw [if_pos hlp] at h
          cases hgb5 : s5.getS b with
          | none => rw [hgb5] at h; cases h
          | some brC =>
            rw [hgb5] at h
            dsimp only at h
            set sLs : CRS := s5.setS b { brC with left := elr2.inner } with hsLs
            have hTFL : TFrame b s.fresh s3 sLs :=
              hTF5.tftrans (TFrame.setS_b b s.fresh s5 brC _ hgb5 (by rfl))
            by_cases hdd : ((elr.right == some b) == (rer.left == some b)) = true
            · rw [if_pos hdd] at h
              cases hgc : sLs.getS s.fresh with
              | none => rw [hgc] at h; cases h
              | some crC =>
                rw [hgc] at h
                dsimp only at h
                set sR1 : CRS := sLs.setS s.fresh { crC with right := some erId } with hsR1
                have hTFR1 : TFrame b s.fresh s3 sR1 :=
                  hTFL.tftrans (TFrame.setS_c b s.fresh sLs crC _ hgc (by rfl))
                cases hge : sR1.getE erId with
                | none => rw [hge] at h; cases h
                | some rerC =>
                  rw [hge] at h
                  dsimp only at h
                  set rer2 : EB := if rerC.left == some b then { rerC with left := some s.fresh }
                    else { rerC with right := some s.fresh } with hrer2
                  set sR2 : CRS := sR1.setE erId rer2 with hsR2
                  have hTFR2 : TFrame b s.fresh s3 sR2 :=
                    hTFR1.tftrans (TFrame.tfsetE b s.fresh sR1 erId rer2)
                  by_cases hr1 : (rer2.size == 1) = true
                  · rw [if_pos hr1] at h
                    cases hgb : sR2.getS b with
                    | none => rw [hgb] at h; cases h
                    | some brC2 =>
                      rw [hgb] at h
                      dsimp only at h
                      cases h
                      exact Or.inr (conclude _
                        (hTFR2.tftrans (TFrame.setS_b b s.fresh sR2 brC2 _ hgb (by rfl))))
                  · rw [if_neg hr1] at h
                    rw [show sR2.newE rer2 = (sR2.fresh, (sR2.newE rer2).2) from rfl] at h
                    dsimp only at h
                    set sR3 : CRS := (sR2.newE rer2).2 with hsR3
                    set sR4 : CRS := sR3.setE erId { rer2 with size := 1, inner := some sR2.fresh } with hsR4
                    set eirR : EB := { rer2 with size := rer2.size - 1 } with heirR
                    set sR5 : CRS := sR4.setE sR2.fresh eirR with hsR5
                    have hTFR5 : TFrame b s.fresh s3 sR5 :=
                      ((hTFR2.tftrans (TFrame.newE b s.fresh sR2 rer2)).tftrans
                        (TFrame.tfsetE b s.fresh sR3 erId _)).tftrans
                        (TFrame.tfsetE b s.fresh sR4 sR2.fresh eirR)
                    cases hgb : sR5.getS b with
                    | none => rw [hgb] at h; cases h
                    | some brC2 =>
                      rw [hgb] at h
                      dsimp only at h
                      cases h
                      exact Or.inr (conclude _
                        ((hTFR5.tftrans (TFrame.setS_b b s.fresh sR5 brC2 _ hgb (by rfl))).tftrans
                          (TFrame.tfsetE b s.fresh _ sR2.fresh _)))
            · rw [if_neg hdd] at h
              cases htw : tearRightWalk b fuel erId sLs with
              | err e sW => rw [htw] at h; cases h
              | ok erInner sW =>
                rw [htw] at h
                dsimp only at h
                have hsW : sW = sLs := tearRightWalk_state b fuel erId sLs erInner sW htw
                subst hsW
                cases hgw : sLs.getE erInner with
                | none => rw [hgw] at h; cases h
                | some wr =>
                  rw [hgw] at h
                  dsimp only at h
                  by_cases hwi : (wr.size == 1) = true
                  · rw [if_pos hwi] at h
                    dsimp only at h
                    cases hgc : sLs.getS s.fresh with
                    | none => rw [hgc] at h; cases h
                    | some crC =>
                      rw [hgc] at h
                      dsimp only at h
                      set sY : CRS := sLs.setS s.fresh { crC with right := some erInner } with hsY
                      have hTFY : TFrame b s.fresh s3 sY :=
                        hTFL.tftrans (TFrame.setS_c b s.fresh sLs crC _ hgc (by rfl))
                      cases hgei : sY.getE erInner with
                      | none => rw [hgei] at h; cases h
                      | some eirC =>
                        rw [hgei] at h
                        dsimp only at h
                        cases h
                        exact Or.inr (conclude _ (hTFY.tftrans (TFrame.tfsetE b s.fresh sY erInner _)))
                  · rw [if_neg hwi] at h
                    rw [show sLs.newE wr = (sLs.fresh, (sLs.newE wr).2) from rfl] at h
                    dsimp only at h
                    set sW1 : CRS := (sLs.newE wr).2 with hsW1
                    set sW2 : CRS := sW1.setE sLs.fresh { wr with size := 1 } with hsW2
                    have hTFW2 : TFrame b s.fresh s3 sW2 :=
                      (hTFL.tftrans (TFrame.newE b s.fresh sLs wr)).tftrans
                        (TFrame.tfsetE b s.fresh sW1 sLs.fresh _)
                    cases hgw2 : sW2.getE erInner with
                    | none => rw [hgw2] at h; cases h
                    | some wr2 =>
                      rw [hgw2] at h
                      dsimp only at h
                      set sX : CRS := sW2.setE erInner { wr2 with size := wr2.size - 1, inner := some sLs.fresh } with hsX
                      have hTFX : TFrame b s.fresh s3 sX :=
                        hTFW2.tftrans (TFrame.tfsetE b s.fresh sW2 erInner _)
                      cases hgc : sX.getS s.fresh with
                      | none => rw [hgc] at h; cases h
                      | some crC =>
                        rw [hgc] at h
                        dsimp only at h
                        set sY : CRS := sX.setS s.fresh { crC with right := some sLs.fresh } with hsY
                        have hTFY : TFrame b s.fresh s3 sY :=
                          hTFX.tftrans (TFrame.setS_c b s.fresh sX crC _ hgc (by rfl))
                        cases hgei : sY.getE sLs.fresh with
                        | none => rw [hgei] at h; cases h
                        | some eirC =>
                          rw [hgei] at h
                          dsimp only at h
                          cases h
                          exact Or.inr (conclude _
                            (hTFY.tftrans (TFrame.tfsetE b s.fresh sY sLs.fresh _)))
        · rw [if_neg hlp] at h
          rw [show s5.newE elr2 = (s5.fresh, (s5.newE elr2).2) from rfl] at h
          dsimp only at h
          set s6 : CRS := (s5.newE elr2).2 with hs6
          set s7 : CRS := s6.setE elId { elr2 with size := 1, inner := some s5.fresh } with hs7
          set eirL : EB := { elr2 with size := elr2.size - 1 } with heirL
          set s8 : CRS := s7.setE s5.fresh eirL with hs8
          have hTF8 : TFrame b s.fresh s3 s8 :=
            ((hTF5.tftrans (TFrame.newE b s.fresh s5 elr2)).tftrans
              (TFrame.tfsetE b s.fresh s6 elId _)).tftrans (TFrame.tfsetE b s.fresh s7 s5.fresh eirL)
          cases hgb8 : s8.getS b with
          | none => rw [hgb8] at h; cases h
          | some brC =>
            rw [hgb8] at h
            dsimp only at h
            set s9 : CRS := s8.setS b { brC with left := some s5.fresh } with hs9
            set eir2L : EB := if eirL.right == some s.fresh then { eirL with right := some b }
              else { eirL with left := some b } with heir2L
            set sLs : CRS := s9.setE s5.fresh eir2L with hsLs
            have hTFL : TFrame b s.fresh s3 sLs :=
              (hTF8.tftrans (TFrame.setS_b b s.fresh s8 brC _ hgb8 (by rfl))).tftrans
                (TFrame.tfsetE b s.fresh s9 s5.fresh eir2L)
            by_cases hdd : ((elr.right == some b) == (rer.left == some b)) = true
            · rw [if_pos hdd] at h
              cases hgc : sLs.getS s.fresh with
              | none => rw [hgc] at h; cases h
              | some crC2 =>
                rw [hgc] at h
                dsimp only at h
                set sR1 : CRS := sLs.setS s.fresh { crC2 with right := some erId } with hsR1
                have hTFR1 : TFrame b s.fresh s3 sR1 :=
                  hTFL.tftrans (TFrame.setS_c b s.fresh sLs crC2 _ hgc (by rfl))
                cases hge : sR1.getE erId with
                | none => rw [hge] at h; cases h
                | some rerC =>
                  rw [hge] at h
                  dsimp only at h
                  set rer2 : EB := if rerC.left == some b then { rerC with left := some s.fresh }
                    else { rerC with right := some s.fresh } with hrer2
                  set sR2 : CRS := sR1.setE erId rer2 with hsR2
                  have hTFR2 : TFrame b s.fresh s3 sR2 :=
                    hTFR1.tftrans (TFrame.tfsetE b s.fresh sR1 erId rer2)
                  by_cases hr1 : (rer2.size == 1) = true
                  · rw [if_pos hr1] at h
                    cases hgb : sR2.getS b with
                    | none => rw [hgb] at h; cases h
                    | some brC2 =>
                      rw [hgb] at h
                      dsimp only at h
                      cases h
                      exact Or.inr (conclude _
                        (hTFR2.tftrans (TFrame.setS_b b s.fresh sR2 brC2 _ hgb (by rfl))))
                  · rw [if_neg hr1] at h
                    rw [show sR2.newE rer2 = (sR2.fresh, (sR2.newE rer2).2) from rfl] at h
                    dsimp only at h
                    set sR3 : CRS := (sR2.newE rer2).2 with hsR3
                    set sR4 : CRS := sR3.setE erId { rer2 with size := 1, inner := some sR2.fresh } with hsR4
                    set eirR : EB := { rer2 with size := rer2.size - 1 } with heirR
                    set sR5 : CRS := sR4.setE sR2.fresh eirR with hsR5
                    have hTFR5 : TFrame b s.fresh s3 sR5 :=
                      ((hTFR2.tftrans (TFrame.newE b s.fresh sR2 rer2)).tftrans
                        (TFrame.tfsetE b s.fresh sR3 erId _)).tftrans
                        (TFrame.tfsetE b s.fresh sR4 sR2.fresh eirR)
                    cases hgb : sR5.getS b with
                    | none => rw [hgb] at h; cases h
                    | some brC2 =>
                      rw [hgb] at h
                      dsimp only at h
                      cases h
                      exact Or.inr (conclude _
                        ((hTFR5.tftrans (TFrame.setS_b b s.fresh sR5 brC2 _ hgb (by rfl))).tftrans
                          (TFrame.tfsetE b s.fresh _ sR2.fresh _)))
            · rw [if_neg hdd] at h
              cases htw : tearRightWalk b fuel erId sLs with
              | err e sW => rw [htw] at h; cases h
              | ok erInner sW =>
                rw [htw] at h
                dsimp only at h
                have hsW : sW = sLs := tearRightWalk_state b fuel erId sLs erInner sW htw
                subst hsW
                cases hgw : sLs.getE erInner with
                | none => rw [hgw] at h; cases h
                | some wr =>
                  rw [hgw] at h
                  dsimp only at h
                  by_cases hwi : (wr.size == 1) = true
                  · rw [if_pos hwi] at h
                    dsimp only at h
                    cases hgc : sLs.getS s.fresh with
                    | none => rw [hgc] at h; cases h
                    | some crC2 =>
                      rw [hgc] at h
                      dsimp only at h
                      set sY : CRS := sLs.setS s.fresh { crC2 with right := some erInner } with hsY
                      have hTFY : TFrame b s.fresh s3 sY :=
                        hTFL.tftrans (TFrame.setS_c b s.fresh sLs crC2 _ hgc (by rfl))
                      cases hgei : sY.getE erInner with
                      | none => rw [hgei] at h; cases h
                      | some eirC =>
                        rw [hgei] at h
                        dsimp only at h
                        cases h
                        exact Or.inr (conclude _ (hTFY.tftrans (TFrame.tfsetE b s.fresh sY erInner _)))
                  · rw [if_neg hwi] at h
                    rw [show sLs.newE wr = (sLs.fresh, (sLs.newE wr).2) from rfl] at h
                    dsimp only at h
                    set sW1 : CRS := (sLs.newE wr).2 with hsW1
                    set sW2 : CRS := sW1.setE sLs.fresh { wr with size := 1 } with hsW2
                    have hTFW2 : TFrame b s.fresh s3 sW2 :=
                      (hTFL.tftrans (TFrame.newE b s.fresh sLs wr)).tftrans
                        (TFrame.tfsetE b s.fresh sW1 sLs.fresh _)
                    cases hgw2 : sW2.getE erInner with
                    | none => rw [hgw2] at h; cases h
                    | some wr2 =>
                      rw [hgw2] at h
                      dsimp only at h
                      set sX : CRS := sW2.setE erInner { wr2 with size := wr2.size - 1, inner := some sLs.fresh } with hsX
                      have hTFX : TFrame b s.fresh s3 sX :=
                        hTFW2.tftrans (TFrame.tfsetE b s.fresh sW2 erInner _)
                      cases hgc : sX.getS s.fresh with
                      | none => rw [hgc] at h; cases h
                      | some crC2 =>
                        rw [hgc] at h
                        dsimp only at h
                        set sY : CRS := sX.setS s.fresh { crC2 with right := some sLs.fresh } with hsY
                        have hTFY : TFrame b s.fresh s3 sY :=
                          hTFX.tftrans (TFrame.setS_c b s.fresh sX crC2 _ hgc (by rfl))
                        cases hgei : sY.getE sLs.fresh with
                        | none => rw [hgei] at h; cases h
                        | some eirC =>
                          rw [hgei] at h
                          dsimp only at h
                          cases h
                          exact Or.inr (conclude _
                            (hTFY.tftrans (TFrame.tfsetE b s.fresh sY sLs.fresh _)))

lemma tearLoop_post (b : ℕ) : ∀ (f : ℕ) (s : CRS) (u : Unit) (s2 : CRS),
    tearLoop b f s = .ok u s2 → WF s →
    WF s2 ∧ sizeAtS s2 b ≤ 1 ∧ s.fresh ≤ s2.fresh ∧
    ∃ ext : List ℕ, s2.sL = s.sL ++ ext ∧ (∀ j ∈ ext, sizeAtS s2 j ≤ 1 ∧ s.fresh ≤ j) ∧
      (∀ j, j ≠ b → j < s.fresh → s2.getS j = s.getS j) := by
  intro f
  induction f with
  | zero => intro s u s2 h _; cases h
  | succ n ih =>
    intro s u s2 h hW
    simp only [tearLoop] at h
    by_cases hlt : 1 < sizeAtS s b
    · rw [if_pos hlt] at h
      cases hbr : s.getS b with
      | none => rw [show sizeAtS s b = 0 by simp [sizeAtS, hbr]] at hlt; omega
      | some br =>
        cases htm : tearM n b s with
        | err e t => rw [htm] at h; cases h
        | ok u1 t =>
          rw [htm] at h
          dsimp only at h
          rcases tearM_shape n b s br hW hbr u1 t htm with heq | ⟨hWt, hsl, hfr, hszf, hframe⟩
          · subst heq
            exact ih t u s2 h hW
          · obtain ⟨hW2, hb2, hfr2, ext', hsl2, hext2, hframe2⟩ := ih t u s2 h hWt
            refine ⟨hW2, hb2, le_of_lt (lt_of_lt_of_le hfr hfr2), s.fresh :: ext', ?_, ?_, ?_⟩
            · rw [hsl2, hsl, List.append_assoc]
              rfl
            · intro j hj
              rcases List.mem_cons.mp hj with hj | hj
              · subst hj
                have hne : s.fresh ≠ b := fun hc => by
                  have : b < s.fresh := hW.1 (b, br) (aGet_mem s.sA b br hbr)
                  omega
                have hg2 : s2.getS s.fresh = t.getS s.fresh := hframe2 s.fresh hne (by omega)
                constructor
                · have hss : sizeAtS s2 s.fresh = sizeAtS t s.fresh := by
                    unfold sizeAtS
                    rw [hg2]
                  rw [hss, hszf]
                · exact le_refl _
              · obtain ⟨hsz, hge⟩ := hext2 j hj
                exact ⟨hsz, le_trans (le_of_lt hfr) hge⟩
            · intro j hj1 hj2
              rw [hframe2 j hj1 (lt_trans hj2 hfr), hframe j hj1 (by omega)]
    · rw [if_neg hlt] at h
      cases h
      exact ⟨hW, not_lt.mp hlt, le_refl _, [], (List.append_nil _).symm,
        fun j hj => absurd hj (List.not_mem_nil j), fun j _ _ => rfl⟩

lemma tearFold_post : ∀ (l : List ℕ) (s : CRS) (u : Unit) (s2 : CRS),
    tearFold l s = .ok u s2 → WF s → (∀ j ∈ l, j < s.fresh) →
    WF s2 ∧ ∀ j ∈ s2.sL, sizeAtS s2 j ≤ 1 ∨
      (j ∈ s.sL ∧ j ∉ l ∧ sizeAtS s2 j = sizeAtS s j) := by
  intro l
  induction l with
  | nil =>
    intro s u s2 h hW _
    cases h
    exact ⟨hW, fun j hj => Or.inr ⟨hj, List.not_mem_nil j, rfl⟩⟩
  | cons b rest ih =>
    intro s u s2 h hW hl
    simp only [tearFold] at h
    cases hlo : tearLoop b ((sizeAtS s b).toNat + 1) s with
    | err e t => rw [hlo] at h; cases h
    | ok u1 t =>
      rw [hlo] at h
      dsimp only at h
      obtain ⟨hWt, hbt, hfrt, ext, hsl, hext, hframe⟩ :=
        tearLoop_post b ((sizeAtS s b).toNat + 1) s u1 t hlo hW
      obtain ⟨hW2, hprop⟩ := ih t u s2 h hWt
        (fun j hj => lt_of_lt_of_le (hl j (List.mem_cons_of_mem _ hj)) hfrt)
      refine ⟨hW2, ?_⟩
      intro j hj
      rcases hprop j hj with hsz | ⟨hjt, hjr, hszeq⟩
      · exact Or.inl hsz
      · rw [hsl] at hjt
        rcases List.mem_append.mp hjt with hjs | hjx
        · by_cases hjb : j = b
          · subst hjb
            exact Or.inl (by rw [hszeq]; exact hbt)
          · refine Or.inr ⟨hjs, ?_, ?_⟩
            · intro hc
              rcases List.mem_cons.mp hc with hc | hc
              · exact hjb hc
              · exact hjr hc
            · rw [hszeq]
              unfold sizeAtS
              rw [hframe j hjb (hW.2.2.1 j hjs)]
        · exact Or.inl (by rw [hszeq]; exact (hext j hjx).1)

lemma tearFold_id : ∀ (l : List ℕ) (s : CRS), (∀ b ∈ l, sizeAtS s b ≤ 1) →
    tearFold l s = .ok () s := by
  intro l
  induction l with
  | nil => intro s _; rfl
  | cons b rest ih =>
    intro s hb
    simp only [tearFold, tearLoop]
    rw [if_neg (not_lt.mpr (hb b (List.mem_cons_self _ _)))]
    dsimp only
    exact ih s (fun j hj => hb j (List.mem_cons_of_mem _ hj))

lemma sbSkel_fields {a b : SB} (h : sbSkel a = sbSkel b) :
    a.left = b.left ∧ a.right = b.right ∧ a.size = b.size ∧ a.is_terminal = b.is_terminal := by
  simp only [sbSkel, Prod.mk.injEq] at h
  exact ⟨h.1, h.2.1, h.2.2.1, h.2.2.2⟩

lemma ebSkel_fields {a b : EB} (h : ebSkel a = ebSkel b) :
    a.ptId = b.ptId ∧ a.pt = b.pt ∧ a.left = b.left ∧ a.right = b.right ∧ a.inner = b.inner ∧
    a.size = b.size ∧ a.is_terminal = b.is_terminal ∧ a.orientation = b.orientation := by
  simp only [ebSkel, Prod.mk.injEq] at h
  exact ⟨h.1, h.2.1, h.2.2.1, h.2.2.2.1, h.2.2.2.2.1, h.2.2.2.2.2.1, h.2.2.2.2.2.2.1,
    h.2.2.2.2.2.2.2⟩

lemma nextEB_congr {a b : SB} (h : sbSkel a = sbSkel b) (p : ℕ) :
    a.nextEB p = b.nextEB p := by
  obtain ⟨h1, h2, _, _⟩ := sbSkel_fields h
  unfold SB.nextEB SB.conn
  rw [h1, h2]

lemma nextSB_congr {a b : EB} (h : ebSkel a = ebSkel b) (p : ℕ) :
    a.nextSB p = b.nextSB p := by
  obtain ⟨_, _, h3, h4, _, _, _, _⟩ := ebSkel_fields h
  unfold EB.nextSB EB.conn
  rw [h3, h4]

lemma ThickOnly.torefl (s : CRS) : ThickOnly s s := ⟨SkelEq.srefl s, fun _ => rfl⟩

lemma ThickOnly.totrans {s t u : CRS} (h : ThickOnly s t) (h' : ThickOnly t u) :
    ThickOnly s u :=
  ⟨h.1.strans h'.1, fun j => (h'.2 j).trans (h.2 j)⟩

lemma ThickOnly.setS_thick {s : CRS} (i : ℕ) (r : SB) (T : ℚ) (hg : s.getS i = some r)
    (hnod : (s.sA.map Prod.fst).Nodup) : ThickOnly s (s.setS i { r with thickness := T }) :=
  ⟨SkelEq.setS_self i _ r hg (by rfl) hnod, fun _ => rfl⟩

lemma ThickOnly.setE_thick {s : CRS} (i : ℕ) (r : EB) (T : ℚ) (hg : s.getE i = some r)
    (hnod : (s.eA.map Prod.fst).Nodup) : ThickOnly s (s.setE i { r with thickness := T }) := by
  refine ⟨SkelEq.setE_self i _ r hg (by rfl) hnod, ?_⟩
  intro j
  by_cases hj : j = i
  · subst hj
    rw [getE_setE_self s j _ r hg, hg]
    rfl
  · rw [getE_setE_ne s i j _ hj]

lemma ThickAgree.tarefl (s t : CRS) : ThickAgree s t s t :=
  ⟨fun _ => Or.inr ⟨rfl, rfl⟩, fun _ => Or.inr ⟨rfl, rfl⟩⟩

lemma ThickAgree.tacomp {s t s1 t1 s2 t2 : CRS} (h : ThickAgree s t s1 t1)
    (h' : ThickAgree s1 t1 s2 t2) : ThickAgree s t s2 t2 := by
  constructor
  · intro j
    rcases h'.1 j with he | ⟨ha, hb⟩
    · exact Or.inl he
    · rcases h.1 j with he1 | ⟨ha1, hb1⟩
      · exact Or.inl (by rw [ha, hb, he1])
      · exact Or.inr ⟨ha.trans ha1, hb.trans hb1⟩
  · intro j
    rcases h'.2 j with he | ⟨ha, hb⟩
    · exact Or.inl he
    · rcases h.2 j with he1 | ⟨ha1, hb1⟩
      · exact Or.inl (by rw [ha, hb, he1])
      · exact Or.inr ⟨ha.trans ha1, hb.trans hb1⟩

lemma ThickAgree.writeS {s t : CRS} (i : ℕ) (r rt : SB) (T : ℚ)
    (hg : s.getS i = some r) (hgt : t.getS i = some rt) :
    ThickAgree s t (s.setS i { r with thickness := T }) (t.setS i { rt with thickness := T }) := by
  constructor
  · intro j
    by_cases hj : j = i
    · subst hj
      rw [getS_setS_self s j _ r hg, getS_setS_self t j _ rt hgt]
      exact Or.inl rfl
    · rw [getS_setS_ne s i j _ hj, getS_setS_ne t i j _ hj]
      exact Or.inr ⟨rfl, rfl⟩
  · intro j
    exact Or.inr ⟨rfl, rfl⟩

lemma ThickAgree.tawriteE {s t : CRS} (i : ℕ) (r rt : EB) (T : ℚ)
    (hg : s.getE i = some r) (hgt : t.getE i = some rt) :
    ThickAgree s t (s.setE i { r with thickness := T }) (t.setE i { rt with thickness := T }) := by
  constructor
  · intro j
    exact Or.inr ⟨rfl, rfl⟩
  · intro j
    by_cases hj : j = i
    · subst hj
      rw [getE_setE_self s j _ r hg, getE_setE_self t j _ rt hgt]
      exact Or.inl rfl
    · rw [getE_setE_ne s i j _ hj, getE_setE_ne t i j _ hj]
      exact Or.inr ⟨rfl, rfl⟩

lemma SkelEq.keysS {s t : CRS} (h : SkelEq s t) : t.sA.map Prod.fst = s.sA.map Prod.fst := by
  have h1 := h.2.2.2.2.1
  have h2 : (sAsk s).map Prod.fst = s.sA.map Prod.fst := by
    unfold sAsk
    rw [List.map_map]
    rfl
  have h3 : (sAsk t).map Prod.fst = t.sA.map Prod.fst := by
    unfold sAsk
    rw [List.map_map]
    rfl
  rw [← h3, ← h1, h2]

lemma SkelEq.keysE {s t : CRS} (h : SkelEq s t) : t.eA.map Prod.fst = s.eA.map Prod.fst := by
  have h1 := h.2.2.2.2.2
  have h2 : (eAsk s).map Prod.fst = s.eA.map Prod.fst := by
    unfold eAsk
    rw [List.map_map]
    rfl
  have h3 : (eAsk t).map Prod.fst = t.eA.map Prod.fst := by
    unfold eAsk
    rw [List.map_map]
    rfl
  rw [← h3, ← h1, h2]

lemma resetWalk_sim (T : ℚ) : ∀ (f : ℕ) (p c : BRef) (s t s2 : CRS) (u : Unit),
    resetWalk T f p c s = .ok u s2 → SkelEq s t →
    (s.sA.map Prod.fst).Nodup → (s.eA.map Prod.fst).Nodup →
    ∃ t2, resetWalk T f p c t = .ok () t2 ∧ ThickOnly s s2 ∧ ThickOnly t t2 ∧
      ThickAgree s t s2 t2 := by
  intro f
  induction f with
  | zero => intro p c s t s2 u h; cases h
  | succ n ih =>
    intro p c s t s2 u h hst hnodS hnodE
    cases c with
    | s i =>
      simp only [resetWalk] at h
      cases hgs : s.getS i with
      | none => rw [hgs] at h; cases h
      | some r =>
        rw [hgs] at h
        dsimp only at h
        obtain ⟨rt, hgt, hsk⟩ := hst.getS_match i r hgs
        by_cases hterm : r.is_terminal = true
        · rw [if_pos hterm] at h
          cases h
          refine ⟨t, ?_, ThickOnly.torefl s, ThickOnly.torefl t, ThickAgree.tarefl s t⟩
          simp only [resetWalk]
          rw [hgt]
          dsimp only
          rw [if_pos (by rw [(sbSkel_fields hsk).2.2.2, hterm])]
        · rw [if_neg hterm] at h
          cases p with
          | s pj => cases h
          | e pj =>
            dsimp only at h
            cases hnx : r.nextEB pj with
            | error e => rw [hnx] at h; cases h
            | ok o =>
              rw [hnx] at h
              cases o with
              | none => cases h
              | some nn =>
                dsimp only at h
                have hTOs := ThickOnly.setS_thick i r T hgs hnodS
                have hTOt := ThickOnly.setS_thick i rt T hgt
                  (by rw [hst.keysS]; exact hnodS)
                have hstep : SkelEq (s.setS i { r with thickness := T })
                    (t.setS i { rt with thickness := T }) :=
                  (hTOs.1.symm.strans hst).strans hTOt.1
                have hnodS2 : ((s.setS i { r with thickness := T }).sA.map Prod.fst).Nodup := by
                  show ((aSet s.sA i _).map Prod.fst).Nodup
                  rw [keys_aSet]
                  exact hnodS
                have hnodE2 : ((s.setS i { r with thickness := T }).eA.map Prod.fst).Nodup :=
                  hnodE
                obtain ⟨t3, hrun, hTO1, hTO2, hTA⟩ :=
                  ih (.s i) (.e nn) (s.setS i { r with thickness := T })
                    (t.setS i { rt with thickness := T }) s2 u h hstep hnodS2 hnodE2
                refine ⟨t3, ?_, hTOs.totrans hTO1, hTOt.totrans hTO2,
                  (ThickAgree.writeS i r rt T hgs hgt).tacomp hTA⟩
                simp only [resetWalk]
                rw [hgt]
                dsimp only
                rw [if_neg (by rw [(sbSkel_fields hsk).2.2.2]; exact hterm)]
                rw [nextEB_congr hsk pj, hnx]
                dsimp only
                exact hrun
    | e i =>
      simp only [resetWalk] at h
      cases hgs : s.getE i with
      | none => rw [hgs] at h; cases h
      | some r =>
        rw [hgs] at h
        dsimp only at h
        obtain ⟨rt, hgt, hsk⟩ := hst.getE_match i r hgs
        by_cases hterm : r.is_terminal = true
        · rw [if_pos hterm] at h
          cases h
          refine ⟨t, ?_, ThickOnly.torefl s, ThickOnly.torefl t, ThickAgree.tarefl s t⟩
          simp only [resetWalk]
          rw [hgt]
          dsimp only
          rw [if_pos (by rw [(ebSkel_fields hsk).2.2.2.2.2.2.1, hterm])]
        · rw [if_neg hterm] at h
          cases p with
          | e pj => cases h
          | s pj =>
            dsimp only at h
            cases hnx : r.nextSB pj with
            | error e => rw [hnx] at h; cases h
            | ok o =>
              rw [hnx] at h
              cases o with
              | none => cases h
              | some nn =>
                dsimp only at h
                have hTOs := ThickOnly.setE_thick i r T hgs hnodE
                have hTOt := ThickOnly.setE_thick i rt T hgt
                  (by rw [hst.keysE]; exact hnodE)
                have hstep : SkelEq (s.setE i { r with thickness := T })
                    (t.setE i { rt with thickness := T }) :=
                  (hTOs.1.symm.strans hst).strans hTOt.1
                have hnodS2 : ((s.setE i { r with thickness := T }).sA.map Prod.fst).Nodup :=
                  hnodS
                have hnodE2 : ((s.setE i { r with thickness := T }).eA.map Prod.fst).Nodup := by
                  show ((aSet s.eA i _).map Prod.fst).Nodup
                  rw [keys_aSet]
                  exact hnodE
                obtain ⟨t3, hrun, hTO1, hTO2, hTA⟩ :=
                  ih (.e i) (.s nn) (s.setE i { r with thickness := T })
                    (t.setE i { rt with thickness := T }) s2 u h hstep hnodS2 hnodE2
                refine ⟨t3, ?_, hTOs.totrans hTO1, hTOt.totrans hTO2,
                  (ThickAgree.tawriteE i r rt T hgs hgt).tacomp hTA⟩
                simp only [resetWalk]
                rw [hgt]
                dsimp only
                rw [if_neg (by rw [(ebSkel_fields hsk).2.2.2.2.2.2.1]; exact hterm)]
                rw [nextSB_congr hsk pj, hnx]
                dsimp only
                exact hrun

lemma resetFold_sim (f : ℕ) : ∀ (l : List EdgeRec) (s t s2 : CRS) (u : Unit),
    resetFold f l s = .ok u s2 → SkelEq s t →
    (s.sA.map Prod.fst).Nodup → (s.eA.map Prod.fst).Nodup →
    ∃ t2, resetFold f l t = .ok () t2 ∧ ThickOnly s s2 ∧ ThickOnly t t2 ∧
      ThickAgree s t s2 t2 := by
  intro l
  induction l with
  | nil =>
    intro s t s2 u h hst _ _
    cases h
    exact ⟨t, rfl, ThickOnly.torefl s, ThickOnly.torefl t, ThickAgree.tarefl s t⟩
  | cons e rest ih =>
    intro s t s2 u h hst hnodS hnodE
    simp only [resetFold] at h
    cases hge : s.getE e.ebV1 with
    | none => rw [hge] at h; cases h
    | some ebr =>
      rw [hge] at h
      dsimp only at h
      obtain ⟨ebt, hget, hskE⟩ := hst.getE_match e.ebV1 ebr hge
      cases hpr : ebr.right with
      | none => rw [hpr] at h; cases h
      | some prevS =>
        rw [hpr] at h
        dsimp only at h
        cases hgs : s.getS prevS with
        | none => rw [hgs] at h; cases h
        | some psr =>
          rw [hgs] at h
          dsimp only at h
          obtain ⟨pst, hgst, hskS⟩ := hst.getS_match prevS psr hgs
          cases hcr : psr.right with
          | none => rw [hcr] at h; cases h
          | some curE =>
            rw [hcr] at h
            dsimp only at h
            cases hw : resetWalk e.thickness f (.s prevS) (.e curE) s with
            | err er m => rw [hw] at h; cases h
            | ok u1 m =>
              rw [hw] at h
              dsimp only at h
              obtain ⟨mt, hrunW, hTOs1, hTOt1, hTA1⟩ :=
                resetWalk_sim e.thickness f (.s prevS) (.e curE) s t m u1 hw hst hnodS hnodE
              have hstm : SkelEq m mt := (hTOs1.1.symm.strans hst).strans hTOt1.1
              have hnodSm : (m.sA.map Prod.fst).Nodup := by
                rw [hTOs1.1.keysS]
                exact hnodS
              have hnodEm : (m.eA.map Prod.fst).Nodup := by
                rw [hTOs1.1.keysE]
                exact hnodE
              obtain ⟨t2, hrunF, hTOs2, hTOt2, hTA2⟩ :=
                ih m mt s2 u h hstm hnodSm hnodEm
              refine ⟨t2, ?_, hTOs1.totrans hTOs2, hTOt1.totrans hTOt2, hTA1.tacomp hTA2⟩
              simp only [resetFold]
              rw [hget]
              dsimp only
              rw [(ebSkel_fields hskE).2.2.2.1, hpr]
              dsimp only
              rw [hgst]
              dsimp only
              rw [(sbSkel_fields hskS).2.1, hcr]
              dsimp only
              rw [hrunW]
              dsimp only
              exact hrunF

lemma chainSum_congr {s t : CRS} (hsk : SkelEq s t)
    (hth : ∀ j, (s.getE j).map EB.thickness = (t.getE j).map EB.thickness) :
    ∀ (f : ℕ) (o : Option ℕ) (acc : ℚ), chainSum s f o acc = chainSum t f o acc := by
  intro f
  induction f with
  | zero =>
    intro o acc
    cases o <;> rfl
  | succ n ih =>
    intro o acc
    cases o with
    | none => rfl
    | some i =>
      simp only [chainSum]
      cases hg : s.getE i with
      | none =>
        have := hsk.getE_skel i
        rw [hg] at this
        cases hg2 : t.getE i with
        | none => rfl
        | some rt =>
          rw [hg2] at this
          have h2 : (none : Option (ℕ × Pnt × Option ℕ × Option ℕ × Option ℕ × ℤ × Bool × ℕ)) =
              some (ebSkel rt) := this
          cases h2
      | some r =>
        obtain ⟨rt, hg2, hske⟩ := hsk.getE_match i r hg
        rw [hg2]
        have hthi := hth i
        rw [hg, hg2] at hthi
        have hth2 : r.thickness = rt.thickness := by
          have : some r.thickness = some rt.thickness := hthi
          injection this
        obtain ⟨_, _, _, _, hinner, _, hterm, _⟩ := ebSkel_fields hske
        dsimp only
        rw [hinner, hterm, ← hth2]
        exact ih r.inner _

lemma LayOnly.lorefl (s : CRS) : LayOnly s s := ⟨SkelEq.srefl s, fun _ => rfl, fun _ => rfl⟩

lemma LayOnly.lotrans {s t u : CRS} (h : LayOnly s t) (h' : LayOnly t u) : LayOnly s u :=
  ⟨h.1.strans h'.1, fun j => (h'.2.1 j).trans (h.2.1 j),
   fun j => (h'.2.2 j).trans (h.2.2 j)⟩

lemma LayOnly.setE_lay {s : CRS} (i : ℕ) (r : EB) (v : ℚ) (hg : s.getE i = some r)
    (hnod : (s.eA.map Prod.fst).Nodup) :
    LayOnly s (s.setE i { r with layer_thickness := v }) := by
  refine ⟨SkelEq.setE_self i _ r hg (by rfl) hnod, fun _ => rfl, ?_⟩
  intro j
  by_cases hj : j = i
  · subst hj
    rw [getE_setE_self s j _ r hg, hg]
    rfl
  · rw [getE_setE_ne s i j _ hj]

lemma LayAgree.larefl (s t : CRS) : LayAgree s t s t := fun _ => Or.inr ⟨rfl, rfl⟩

lemma LayAgree.lacomp {s t s1 t1 s2 t2 : CRS} (h : LayAgree s t s1 t1)
    (h' : LayAgree s1 t1 s2 t2) : LayAgree s t s2 t2 := by
  intro j
  rcases h' j with he | ⟨ha, hb⟩
  · exact Or.inl he
  · rcases h j with he1 | ⟨ha1, hb1⟩
    · exact Or.inl (by rw [ha, hb, he1])
    · exact Or.inr ⟨ha.trans ha1, hb.trans hb1⟩

lemma LayAgree.lawriteE {s t : CRS} (i : ℕ) (r rt : EB) (v : ℚ)
    (hg : s.getE i = some r) (hgt : t.getE i = some rt) :
    LayAgree s t (s.setE i { r with layer_thickness := v })
      (t.setE i { rt with layer_thickness := v }) := by
  intro j
  by_cases hj : j = i
  · subst hj
    rw [getE_setE_self s j _ r hg, getE_setE_self t j _ rt hgt]
    exact Or.inl rfl
  · rw [getE_setE_ne s i j _ hj, getE_setE_ne t i j _ hj]
    exact Or.inr ⟨rfl, rfl⟩

lemma layerFold_sim (f : ℕ) : ∀ (l : List ℕ) (s t s2 : CRS) (u : Unit),
    layerFold f l s = .ok u s2 → SkelEq s t →
    (∀ j, (s.getE j).map EB.thickness = (t.getE j).map EB.thickness) →
    (s.eA.map Prod.fst).Nodup →
    ∃ t2, layerFold f l t = .ok () t2 ∧ LayOnly s s2 ∧ LayOnly t t2 ∧
      LayAgree s t s2 t2 := by
  intro l
  induction l with
  | nil =>
    intro s t s2 u h hst _ _
    cases h
    exact ⟨t, rfl, LayOnly.lorefl s, LayOnly.lorefl t, LayAgree.larefl s t⟩
  | cons i rest ih =>
    intro s t s2 u h hst hth hnodE
    simp only [layerFold] at h
    cases hg : s.getE i with
    | none => rw [hg] at h; cases h
    | some r =>
      rw [hg] at h
      dsimp only at h
      obtain ⟨rt, hgt, hske⟩ := hst.getE_match i r hg
      cases hcs : chainSum s f r.inner 0 with
      | error e => rw [hcs] at h; cases h
      | ok v =>
        rw [hcs] at h
        dsimp only at h
        have hcst : chainSum t f rt.inner 0 = .ok v := by
          rw [show rt.inner = r.inner from (ebSkel_fields hske).2.2.2.2.1]
          rw [← chainSum_congr hst hth f r.inner 0]
          exact hcs
        have hLOs := LayOnly.setE_lay i r v hg hnodE
        have hLOt := LayOnly.setE_lay i rt v hgt (by rw [hst.keysE]; exact hnodE)
        have hstep : SkelEq (s.setE i { r with layer_thickness := v })
            (t.setE i { rt with layer_thickness := v }) :=
          (hLOs.1.symm.strans hst).strans hLOt.1
        have hth2 : ∀ j, ((s.setE i { r with layer_thickness := v }).getE j).map EB.thickness =
            ((t.setE i { rt with layer_thickness := v }).getE j).map EB.thickness := by
          intro j
          by_cases hj : j = i
          · subst hj
            rw [getE_setE_self s j _ r hg, getE_setE_self t j _ rt hgt]
            have hthi := hth j
            rw [hg, hgt] at hthi
            have : r.thickness = rt.thickness := by
              have h2 : some r.thickness = some rt.thickness := hthi
              injection h2
            simp [this]
          · rw [getE_setE_ne s i j _ hj, getE_setE_ne t i j _ hj]
            exact hth j
        have hnodE2 : (((s.setE i { r with layer_thickness := v }).eA).map Prod.fst).Nodup := by
          show ((aSet s.eA i _).map Prod.fst).Nodup
          rw [keys_aSet]
          exact hnodE
        obtain ⟨t2, hrun, hLO1, hLO2, hLA⟩ :=
          ih (s.setE i { r with layer_thickness := v })
            (t.setE i { rt with layer_thickness := v }) s2 u h hstep hth2 hnodE2
        refine ⟨t2, ?_, hLOs.lotrans hLO1, hLOt.lotrans hLO2,
          (LayAgree.lawriteE i r rt v hg hgt).lacomp hLA⟩
        simp only [layerFold]
        rw [hgt]
        dsimp only
        rw [hcst]
        dsimp only
        exact hrun

lemma WF_of_SkelEq {s t : CRS} (h : SkelEq s t) (hW : WF s) : WF t := by
  obtain ⟨h1, h2, h3, h4, h5, h6⟩ := hW
  refine ⟨?_, ?_, ?_, ?_, ?_, ?_⟩
  · intro p hp
    have hk : p.1 ∈ t.sA.map Prod.fst := List.mem_map.mpr ⟨p, hp, rfl⟩
    rw [h.keysS] at hk
    rcases List.mem_map.mp hk with ⟨q, hq, hfst⟩
    rw [← h.2.2.2.1, ← hfst]
    exact h1 q hq
  · intro p hp
    have hk : p.1 ∈ t.eA.map Prod.fst := List.mem_map.mpr ⟨p, hp, rfl⟩
    rw [h.keysE] at hk
    rcases List.mem_map.mp hk with ⟨q, hq, hfst⟩
    rw [← h.2.2.2.1, ← hfst]
    exact h2 q hq
  · intro i hi
    rw [← h.1] at hi
    rw [← h.2.2.2.1]
    exact h3 i hi
  · intro i hi
    rw [← h.2.1] at hi
    rw [← h.2.2.2.1]
    exact h4 i hi
  · rw [h.keysS]
    exact h5
  · rw [h.keysE]
    exact h6

lemma SkelEq.sizeAtS_eq {s t : CRS} (h : SkelEq s t) (j : ℕ) :
    sizeAtS t j = sizeAtS s j := by
  have hm := h.getS_skel j
  unfold sizeAtS
  cases h1 : s.getS j with
  | none =>
    rw [h1] at hm
    cases h2 : t.getS j with
    | none => rfl
    | some r2 =>
      rw [h2] at hm
      have h3 : (none : Option (Option ℕ × Option ℕ × ℤ × Bool)) = some (sbSkel r2) := hm
      cases h3
  | some r =>
    obtain ⟨r2, h2, hsk⟩ := h.getS_match j r h1
    rw [h2]
    exact (sbSkel_fields hsk).2.2.1

lemma pairmap_of (o o2 : Option EB)
    (hth : o.map EB.thickness = o2.map EB.thickness)
    (hl : o.map EB.layer_thickness = o2.map EB.layer_thickness) :
    o.map (fun r => (r.thickness, r.layer_thickness)) =
    o2.map (fun r => (r.thickness, r.layer_thickness)) := by
  cases o with
  | none =>
    cases o2 with
    | none => rfl
    | some b =>
      have h3 : (none : Option ℚ) = some b.thickness := hth
      cases h3
  | some a =>
    cases o2 with
    | none =>
      have h3 : some a.thickness = (none : Option ℚ) := hth
      cases h3
    | some b =>
      have h3 : some a.thickness = some b.thickness := hth
      have h4 : some a.layer_thickness = some b.layer_thickness := hl
      have h5 : a.thickness = b.thickness := by injection h3
      have h6 : a.layer_thickness = b.layer_thickness := by injection h4
      simp [h5, h6]

/-- C9: `unzip` is idempotent.  If a first call on a well-formed structure
succeeds and produces the state `s2`, a second call on `s2` succeeds and
returns `s2` itself: the bundle graph, every size, thickness,
layer thickness and every left/right/inner link are unchanged, and no
bundle is created or removed. -/
theorem unzip_idempotent (fuel : ℕ) (s : CRS) (hW : WF s) (u : Unit) (s2 : CRS)
    (h : unzipM fuel s = .ok u s2) : unzipM fuel s2 = .ok () s2 := by
  unfold unzipM at h ⊢
  cases h1 : tearFold s.sL s with
  | err e a => rw [h1] at h; cases h
  | ok u1 a1 =>
    rw [h1] at h
    dsimp only at h
    obtain ⟨hWa, hsz⟩ := tearFold_post s.sL s u1 a1 h1 hW hW.2.2.1
    have hsza : ∀ j ∈ a1.sL, sizeAtS a1 j ≤ 1 := by
      intro j hj
      rcases hsz j hj with h' | ⟨hmem, hnot, _⟩
      · exact h'
      · exact absurd hmem hnot
    cases h2 : resetFold fuel a1.edges a1 with
    | err e b => rw [h2] at h; cases h
    | ok u2 b1 =>
      rw [h2] at h
      dsimp only at h
      have hnodSa : (a1.sA.map Prod.fst).Nodup := hWa.2.2.2.2.1
      have hnodEa : (a1.eA.map Prod.fst).Nodup := hWa.2.2.2.2.2
      obtain ⟨tb, hrunb, hTOab, _, _⟩ :=
        resetFold_sim fuel a1.edges a1 a1 b1 u2 h2 (SkelEq.srefl a1) hnodSa hnodEa
      have hnodEb : (b1.eA.map Prod.fst).Nodup := by
        rw [hTOab.1.keysE]
        exact hnodEa
      obtain ⟨tc, hrunc, hLOb, _, _⟩ :=
        layerFold_sim fuel b1.eL b1 b1 s2 u h (SkelEq.srefl b1) (fun _ => rfl) hnodEb
      have hskel_as2 : SkelEq a1 s2 := hTOab.1.strans hLOb.1
      have hWs2 : WF s2 := WF_of_SkelEq hskel_as2 hWa
      have htid : tearFold s2.sL s2 = .ok () s2 := by
        refine tearFold_id s2.sL s2 ?_
        intro b hb
        rw [hskel_as2.sizeAtS_eq b]
        refine hsza b ?_
        rw [hskel_as2.1]
        exact hb
      rw [htid]
      dsimp only
      obtain ⟨r2, hrun2, hTO1, hTO2, hTA⟩ :=
        resetFold_sim fuel a1.edges a1 s2 b1 u2 h2 hskel_as2 hnodSa hnodEa
      have hedges : s2.edges = a1.edges := hskel_as2.2.2.1.symm
      rw [hedges, hrun2]
      dsimp only
      have hr2eq : r2 = s2 := by
        refine (SkelEq.ext hTO2.1 hWs2.2.2.2.2.1 hWs2.2.2.2.2.2 ?_ ?_).symm
        · intro j
          rcases hTA.1 j with he | ⟨_, hb⟩
          · rw [(hLOb.2.1 j : s2.getS j = b1.getS j), ← he]
          · rw [hb]
        · intro j
          refine pairmap_of _ _ ?_ ?_
          · rcases hTA.2 j with he | ⟨_, hb⟩
            · rw [hLOb.2.2 j, ← he]
            · rw [hb]
          · exact (hTO2.2 j).symm
      rw [hr2eq]
      obtain ⟨t2, hrun3, hLO1, hLO2, hLA⟩ :=
        layerFold_sim fuel b1.eL b1 s2 s2 u h hLOb.1 (fun j => (hLOb.2.2 j).symm) hnodEb
      have heL : s2.eL = b1.eL := hLOb.1.2.1.symm
      rw [heL, hrun3]
      have ht2eq : t2 = s2 := by
        refine (SkelEq.ext hLO2.1 hWs2.2.2.2.2.1 hWs2.2.2.2.2.2 ?_ ?_).symm
        · intro j
          rw [hLO2.2.1 j]
        · intro j
          refine pairmap_of _ _ ?_ ?_
          · exact (hLO2.2.2 j).symm
          · rcases hLA j with he | ⟨_, hb⟩
            · exact he
            · exact hb.symm
      rw [ht2eq]

set_option maxRecDepth 20000 in
unseal Rat.add Rat.sub Rat.mul Rat.inv in
/-- C9 witness: on the size-2 single-edge structure `exZ`, `unzip`
succeeds and genuinely changes the state; the idempotence theorem applied
to that first run shows the second call returns the new state unchanged. -/
theorem unzip_idem_witness :
    WF exZ ∧ (unzipM 20 exZ).state ≠ exZ ∧
    unzipM 20 (unzipM 20 exZ).state = .ok () ((unzipM 20 exZ).state) :=
  ⟨by decide, by decide,
   unzip_idempotent 20 exZ (by decide) () ((unzipM 20 exZ).state) (by decide)⟩
